import Mathlib

/-!
# GenericPlot: selection tool and statistics calculator

A shallow embedding of `src/Charts/GenericPlot.cpp` (GoldenCheetah).

Conventions of the embedding

* C++ `double` values are rationals (`ℚ`).  The function `binary64` gives the `double`
  nearest to a rational (IEEE 754, round to nearest, ties to even), so the result of a
  `double` operation is `binary64` of the exact result.  The statistics and the wheel
  are given twice: with every result stored through a rounding function (`binary64`
  for the arithmetic of the program, the identity for exact arithmetic), and, under the
  name of the source function, over exact arithmetic.  Infinities and NaN are outside
  the model: where the source divides, the theorems that depend on the quotient carry
  the hypothesis that the divisor is not zero, or speak of the divisor only.
* Qt compares `QPointF` values with a tolerance; `QPointF.fuzzyEq` is that comparison.
* `int` values are `Int`; `Calculator::count` is only ever incremented from zero,
  and wrap-around of the counter is outside the model.
* Pointers to Qt objects are natural-number identities; `NULL` is `none`.
* Member functions become functions from the old object to the new object
  (together with the returned value where there is one).
-/

namespace GenericPlot

/-! ## The arithmetic of `double` -/

/-- The loop that counts the halvings of `n` down to 1; the first argument bounds the
number of iterations. -/
def log2Loop : Nat → Nat → Nat
  | 0, _ => 0
  | fuel + 1, n => if 2 ≤ n then log2Loop fuel (n / 2) + 1 else 0

/-- The position of the leading bit of `n`: the largest `k` with `2^k ≤ n` (0 for `n = 0`). -/
def ilog2 (n : Nat) : Nat := log2Loop n n

/-- The power `2^e` for an integer exponent. -/
def pow2 (e : Int) : ℚ :=
  if 0 ≤ e then ((2 ^ e.toNat : Nat) : ℚ) else 1 / ((2 ^ (-e).toNat : Nat) : ℚ)

/-- Rounding to the nearest integer, a tie going to the even neighbour. -/
def roundHalfEven (q : ℚ) : Int :=
  if q - ⌊q⌋ < 1 / 2 then ⌊q⌋
  else if 1 / 2 < q - ⌊q⌋ then ⌊q⌋ + 1
  else if ⌊q⌋ % 2 = 0 then ⌊q⌋ else ⌊q⌋ + 1

/-- The binary exponent of `q`: the `k` with `2^k ≤ |q| < 2^(k+1)` (for `q ≠ 0`). -/
def binade (q : ℚ) : Int :=
  if pow2 ((ilog2 q.num.natAbs : Int) - (ilog2 q.den : Int)) ≤ |q|
  then (ilog2 q.num.natAbs : Int) - (ilog2 q.den : Int)
  else (ilog2 q.num.natAbs : Int) - (ilog2 q.den : Int) - 1

/-- The spacing of the `double` values around `q`: 53 significant bits, and `2^-1074`
in the subnormal range. -/
def ulp (q : ℚ) : ℚ := pow2 (max (binade q - 52) (-1074))

/-- The `double` nearest to `q` (IEEE 754 binary64, round to nearest, ties to even),
subnormal values included.  Overflow to an infinity is not represented: the value is
the one the program computes whenever that one is finite. -/
def binary64 (q : ℚ) : ℚ := roundHalfEven (q / ulp q) * ulp q

/-! ## Qt value types -/

/-- Qt `QPointF`: a point in the plane.  The default constructed `QPointF()` is `(0,0)`. -/
structure QPointF where
  x : ℚ
  y : ℚ
deriving DecidableEq

/-- Qt `QPointF` subtraction `a - b`. -/
def QPointF.sub (a b : QPointF) : QPointF := ⟨a.x - b.x, a.y - b.y⟩

/-- Qt `QPointF` addition `a + b`. -/
def QPointF.add (a b : QPointF) : QPointF := ⟨a.x + b.x, a.y + b.y⟩

/-- Qt `QPointF::manhattanLength`: `|x| + |y|`. -/
def QPointF.manhattanLength (a : QPointF) : ℚ := |a.x| + |a.y|

/-- Qt `qFuzzyIsNull(double d)`: `qAbs(d) <= 0.000000000001`. -/
def qFuzzyIsNull (d : ℚ) : Bool := decide (|d| ≤ binary64 (1 / 1000000000000))

/-- Qt `qFuzzyCompare(double p1, double p2)`:
`qAbs(p1 - p2) * 1000000000000. <= qMin(qAbs(p1), qAbs(p2))`. -/
def qFuzzyCompare (p1 p2 : ℚ) : Bool :=
  decide (binary64 (|binary64 (p1 - p2)| * 1000000000000) ≤ min |p1| |p2|)

/-- One coordinate of Qt `operator==(QPointF, QPointF)`:
`(!a || !b) ? qFuzzyIsNull(a - b) : qFuzzyCompare(a, b)`. -/
def qFuzzyCoordinate (a b : ℚ) : Bool :=
  if a = 0 ∨ b = 0 then qFuzzyIsNull (binary64 (a - b)) else qFuzzyCompare a b

/-- Qt `operator==(QPointF, QPointF)`, which the source uses as `==`, as `!=` (its
negation) and through `QList<QPointF>::contains`: a comparison with a tolerance, as
`qpoint.h` of Qt 5.15 and Qt 6 defines it.  (Earlier releases test `qFuzzyIsNull` of
both coordinate differences; the two definitions agree whenever one of the two compared
coordinates is zero, so for every comparison with `QPointF()`.) -/
def QPointF.fuzzyEq (p1 p2 : QPointF) : Bool :=
  qFuzzyCoordinate p1.x p2.x && qFuzzyCoordinate p1.y p2.y

/-- Qt `QList<QPointF>::contains`: some element of the list compares equal to `p`. -/
def containsPoint (points : List QPointF) (p : QPointF) : Bool :=
  points.any (fun q => q.fuzzyEq p)

/-- Qt `QRectF(x, y, width, height)`; width and height may be negative. -/
structure QRectF where
  x : ℚ
  y : ℚ
  width : ℚ
  height : ℚ
deriving DecidableEq

/-- Qt `QRectF(topLeft, bottomRight)`. -/
def QRectF.ofCorners (topLeft bottomRight : QPointF) : QRectF :=
  ⟨topLeft.x, topLeft.y, bottomRight.x - topLeft.x, bottomRight.y - topLeft.y⟩

/-- Qt `QRectF::topLeft`. -/
def QRectF.topLeft (r : QRectF) : QPointF := ⟨r.x, r.y⟩

/-- Qt `QRectF::bottomRight`. -/
def QRectF.bottomRight (r : QRectF) : QPointF := ⟨r.x + r.width, r.y + r.height⟩

/-- Qt `QRectF::translated`. -/
def QRectF.translated (r : QRectF) (d : QPointF) : QRectF := { r with x := r.x + d.x, y := r.y + d.y }

/-- The lower edge of an interval given by origin and signed extent, as
`QRectF::contains` computes it (`l`, `t`). -/
def QRectF.lo (origin extent : ℚ) : ℚ := if extent < 0 then origin + extent else origin

/-- The upper edge of an interval given by origin and signed extent, as
`QRectF::contains` computes it (`r`, `b`). -/
def QRectF.hi (origin extent : ℚ) : ℚ := if extent < 0 then origin else origin + extent

/-- Qt `QRectF::contains(QPointF)`: edges included, a rectangle of negative width or
height is read from its other edge, a rectangle of zero width or height contains nothing. -/
def QRectF.contains (r : QRectF) (p : QPointF) : Bool :=
  if QRectF.lo r.x r.width = QRectF.hi r.x r.width then false
  else if p.x < QRectF.lo r.x r.width ∨ p.x > QRectF.hi r.x r.width then false
  else if QRectF.lo r.y r.height = QRectF.hi r.y r.height then false
  else if p.y < QRectF.lo r.y r.height ∨ p.y > QRectF.hi r.y r.height then false
  else true

/-- Qt `QRectF::setWidth`. -/
def QRectF.setWidth (r : QRectF) (w : ℚ) : QRectF := { r with width := w }

/-- Qt `rect.setSize(rect.size() * c)` with the two products stored through `r`
(`binary64` for the `double` arithmetic of the program, the identity for exact
arithmetic): the top-left corner stays, width and height are scaled. -/
def QRectF.scaleSizeR (r : ℚ → ℚ) (rect : QRectF) (c : ℚ) : QRectF :=
  { rect with width := r (rect.width * c), height := r (rect.height * c) }

/-- Qt `rect.setSize(rect.size() * c)` over exact arithmetic: the top-left corner stays,
width and height are scaled. -/
def QRectF.scaleSize (r : QRectF) (c : ℚ) : QRectF :=
  { r with width := r.width * c, height := r.height * c }

/-- Qt `QTimer`, as far as the selection tool uses it. -/
structure QTimer where
  interval : Int
  singleShot : Bool
  active : Bool
deriving DecidableEq

/-! ## Calculator (lines 850-893) -/

/-- The per-axis running values held in `Calculator::x` and `Calculator::y`. -/
structure AxisStats where
  max : ℚ
  min : ℚ
  sum : ℚ
  mean : ℚ
deriving DecidableEq

/-- What the code reads from a `QAbstractAxis*`: its orientation, whether it is a
`QValueAxis` and, for one, its range. -/
structure AxisRef where
  id : Nat
  vertical : Bool
  isValueAxis : Bool
  min : ℚ
  max : ℚ
deriving DecidableEq

/-- The `Calculator` object: running statistics and regression coefficients, and
the display attributes the selection tool attaches to it. -/
structure Calculator where
  count : Int
  m : ℚ
  b : ℚ
  sumxy : ℚ
  sumx2 : ℚ
  x : AxisStats
  y : AxisStats
  color : Nat
  xaxis : Option AxisRef
  yaxis : Option AxisRef
  series : Option Nat
deriving DecidableEq

/-- The function `Calculator::initialise` (lines 850-858): zero the counters and every numeric field. -/
def Calculator.initialise (c : Calculator) : Calculator :=
  { c with
    count := 0, m := 0, b := 0, sumxy := 0, sumx2 := 0,
    x := { max := 0, min := 0, sum := 0, mean := 0 },
    y := { max := 0, min := 0, sum := 0, mean := 0 } }

/-- The function `Calculator::addPoint` (lines 860-883) with the result of every
arithmetic operation stored through `r`: `binary64` for the `double` arithmetic of the
program, the identity for exact arithmetic.  `double(count)` is `r count`; the
comparisons for `min` and `max` do no arithmetic. -/
def Calculator.addPointR (r : ℚ → ℚ) (c : Calculator) (point : QPointF) : Calculator :=
  let xmin := if c.count > 0 then (if point.x < c.x.min then point.x else c.x.min) else point.x
  let xmax := if c.count > 0 then (if point.x > c.x.max then point.x else c.x.max) else point.x
  let ymin := if c.count > 0 then (if point.y < c.y.min then point.y else c.y.min) else point.y
  let ymax := if c.count > 0 then (if point.y > c.y.max then point.y else c.y.max) else point.y
  let count := c.count + 1
  let xsum := r (c.x.sum + point.x)
  let ysum := r (c.y.sum + point.y)
  { c with
    count := count,
    x := { max := xmax, min := xmin, sum := xsum, mean := r (xsum / r (count : ℚ)) },
    y := { max := ymax, min := ymin, sum := ysum, mean := r (ysum / r (count : ℚ)) },
    sumx2 := r (c.sumx2 + r (point.x * point.x)),
    sumxy := r (c.sumxy + r (point.x * point.y)) }

/-- The divisor of the slope in `Calculator::finalise` (line 890),
`count * sumx2 - (x.sum * x.sum)`, with every result stored through `r`. -/
def Calculator.slopeDenominatorR (r : ℚ → ℚ) (c : Calculator) : ℚ :=
  r (r (r (c.count : ℚ) * c.sumx2) - r (c.x.sum * c.x.sum))

/-- The function `Calculator::finalise` (lines 885-893) with the result of every
arithmetic operation stored through `r`.  A division by zero, which gives an infinity
or a NaN in the program, gives 0 here. -/
def Calculator.finaliseR (r : ℚ → ℚ) (c : Calculator) : Calculator :=
  if c.count ≥ 2 then
    let m := r (r (r (r (c.count : ℚ) * c.sumxy) - r (c.x.sum * c.y.sum)) /
               c.slopeDenominatorR r)
    { c with m := m, b := r (r (c.y.sum - r (m * c.x.sum)) / r (c.count : ℚ)) }
  else c

/-- The calls `addPoint(p)` for each `p` of `pts`, in order, with every result stored
through `r`. -/
def Calculator.addPointsR (r : ℚ → ℚ) (c : Calculator) (pts : List QPointF) : Calculator :=
  pts.foldl (Calculator.addPointR r) c

/-- The function `Calculator::addPoint` (lines 860-883) over exact arithmetic
(`Calculator.addPointR` without rounding). -/
def Calculator.addPoint (c : Calculator) (point : QPointF) : Calculator :=
  let xmin := if c.count > 0 then (if point.x < c.x.min then point.x else c.x.min) else point.x
  let xmax := if c.count > 0 then (if point.x > c.x.max then point.x else c.x.max) else point.x
  let ymin := if c.count > 0 then (if point.y < c.y.min then point.y else c.y.min) else point.y
  let ymax := if c.count > 0 then (if point.y > c.y.max then point.y else c.y.max) else point.y
  let count := c.count + 1
  let xsum := c.x.sum + point.x
  let ysum := c.y.sum + point.y
  { c with
    count := count,
    x := { max := xmax, min := xmin, sum := xsum, mean := xsum / (count : ℚ) },
    y := { max := ymax, min := ymin, sum := ysum, mean := ysum / (count : ℚ) },
    sumx2 := c.sumx2 + point.x * point.x,
    sumxy := c.sumxy + point.x * point.y }

/-- The function `Calculator::finalise` (lines 885-893) over exact arithmetic
(`Calculator.finaliseR` without rounding): slope and intercept, only from two points on. -/
def Calculator.finalise (c : Calculator) : Calculator :=
  if c.count ≥ 2 then
    let m := ((c.count : ℚ) * c.sumxy - c.x.sum * c.y.sum) /
             ((c.count : ℚ) * c.sumx2 - (c.x.sum * c.x.sum))
    { c with m := m, b := (c.y.sum - m * c.x.sum) / (c.count : ℚ) }
  else c

/-- The calls `addPoint(p)` for each `p` of `pts`, in order, over exact arithmetic. -/
def Calculator.addPoints (c : Calculator) (pts : List QPointF) : Calculator :=
  pts.foldl Calculator.addPoint c

/-- The sum of `x` over a list of points. -/
def sumX (pts : List QPointF) : ℚ := (pts.map (fun p => p.x)).sum

/-- The sum of `y` over a list of points. -/
def sumY (pts : List QPointF) : ℚ := (pts.map (fun p => p.y)).sum

/-- The sum of `x*y` over a list of points. -/
def sumXY (pts : List QPointF) : ℚ := (pts.map (fun p => p.x * p.y)).sum

/-- The sum of `x*x` over a list of points. -/
def sumXX (pts : List QPointF) : ℚ := (pts.map (fun p => p.x * p.x)).sum

/-! ## The chart the selection tool works on -/

/-- Qt series types the code distinguishes (`QAbstractSeries::type()`). -/
inductive SeriesType
  | SeriesTypeLine
  | SeriesTypeScatter
  | SeriesTypeOther
deriving DecidableEq

/-- A `QAbstractSeries` object (a `QLineSeries` or `QScatterSeries` where it has points):
`id` is its address. -/
structure QAbstractSeries where
  id : Nat
  name : String
  type : SeriesType
  points : List QPointF
  color : Nat
  useOpenGL : Bool
  attachedAxes : List AxisRef
deriving DecidableEq

/-- Cursor shapes set on the host widget. -/
inductive CursorShape
  | ArrowCursor
  | ClosedHandCursor
deriving DecidableEq

/-- Chart types (`GC_CHART_*`). -/
inductive ChartType
  | GC_CHART_LINE
  | GC_CHART_SCATTER
  | GC_CHART_BAR
  | GC_CHART_PIE
deriving DecidableEq

/-- The parts of the hosting `GenericPlot` the selection tool reads and writes.
`candidates` stands for `quadtrees.value(series)` followed by `Quadtree::candidates`
(`none`: no quadtree for the series); `mapToValue` and `mapToPosition` are the
chart's coordinate mappings for a series; `dpiXFactor` is the screen scale factor. -/
structure Host where
  series : List QAbstractSeries
  plotArea : QRectF
  cursor : CursorShape
  charttype : ChartType
  candidates : Nat → Option (QRectF → List QPointF)
  mapToValue : QPointF → Nat → QPointF
  mapToPosition : QPointF → Nat → QPointF
  dpiXFactor : ℚ

/-- The name of the series object at address `id` (`series->name()`). -/
def Host.nameOf (h : Host) (id : Nat) : String :=
  match h.series.find? (fun s => s.id == id) with
  | some s => s.name
  | none => ""

/-! ## SelectionTool -/

/-- The states of the selection tool. -/
inductive State
  | INACTIVE
  | ACTIVE
  | SIZING
  | MOVING
  | DRAGGING
deriving DecidableEq

/-- The selection modes. -/
inductive Mode
  | RECTANGLE
  | XRANGE
  | CIRCLE
  | LASSOO
deriving DecidableEq

/-- The signals the selection tool emits. -/
inductive Signal
  | hover (value : QPointF) (name : String) (series : Nat)
  | unhover (name : String)
  | unhoverx
deriving DecidableEq

/-- An entry of `hoverpoints`. -/
structure SeriesPoint where
  series : Nat
  xy : QPointF
deriving DecidableEq

/-- The `SelectionTool` object.  `pos` is the item position (`QGraphicsItem::pos`),
`rect` the rectangle `boundingRect()` returns, `drag` the gesture timer.
`selections` maps the address of a series to its selection-overlay series, `ignore`
lists the addresses of the overlay series, `stats` maps a series to its `Calculator`.
`emitted` records the signals emitted so far, oldest first. -/
structure SelectionTool where
  state : State
  mode : Mode
  start : QPointF
  startingpos : QPointF
  finish : QPointF
  rect : QRectF
  pos : QPointF
  spos : QPointF
  hoverpoint : QPointF
  hoverseries : Option Nat
  hoverpoints : List SeriesPoint
  drag : QTimer
  selections : List (Nat × QAbstractSeries)
  ignore : List Nat
  stats : List (Nat × Calculator)
  host : Host
  emitted : List Signal

/-- The function `SelectionTool::boundingRect` (line 537). -/
def SelectionTool.boundingRect (t : SelectionTool) : QRectF := t.rect

/-- Qt `QGraphicsItem::sceneBoundingRect` for an item without parent or
transformation (the tool is added to the scene directly): the bounding rectangle
moved by the item position. -/
def SelectionTool.sceneBoundingRect (t : SelectionTool) : QRectF :=
  t.boundingRect.translated t.pos

/-- Qt `QGraphicsItem::mapFromScene` for an item without parent or transformation. -/
def SelectionTool.mapFromScene (t : SelectionTool) (p : QPointF) : QPointF := p.sub t.pos

/-- The body of the loop of `SelectionTool::resetSelections` (lines 1206-1254) for one
series `x` of the chart: give the original back its colour and take the overlay
series off the chart. -/
def SelectionTool.resetSelectionOf (t : SelectionTool) (x : QAbstractSeries) : SelectionTool :=
  if t.ignore.contains x.id then t
  else if x.type = SeriesType.SeriesTypeLine ∨ x.type = SeriesType.SeriesTypeScatter then
    match t.selections.lookup x.id with
    | none => t
    | some selection =>
      let recoloured := if selection.useOpenGL then t.host.series
        else t.host.series.map (fun s => if s.id = x.id then { s with color := selection.color } else s)
      { t with host := { t.host with series := recoloured.filter (fun s => s.id != selection.id) } }
  else t

/-- The function `SelectionTool::resetSelections` (lines 1200-1259). -/
def SelectionTool.resetSelections (t : SelectionTool) : SelectionTool :=
  let t1 := if t.selections.length ≠ 0 then
      { t.host.series.foldl SelectionTool.resetSelectionOf t with selections := [] }
    else t
  { t1 with ignore := [], stats := [] }

/-- The function `SelectionTool::reset` (lines 543-556). -/
def SelectionTool.reset (t : SelectionTool) : SelectionTool × Bool :=
  let t1 : SelectionTool := { t with
    state := State.INACTIVE, start := ⟨0, 0⟩, finish := ⟨0, 0⟩, rect := ⟨0, 0, 0, 0⟩,
    hoverpoint := ⟨0, 0⟩, hoverseries := none, hoverpoints := [] }
  (t1.resetSelections, true)

/-- The function `SelectionTool::clicked` (lines 559-604). -/
def SelectionTool.clicked (t : SelectionTool) (pos : QPointF) : SelectionTool × Bool :=
  if t.mode = Mode.XRANGE ∨ t.mode = Mode.RECTANGLE then
    if t.state = State.ACTIVE ∧ t.sceneBoundingRect.contains pos = true then
      ({ t with state := State.MOVING, start := pos, startingpos := t.pos }, true)
    else
      let t1 : SelectionTool := { t with state := State.SIZING, start := pos, finish := ⟨0, 0⟩ }
      let t2 : SelectionTool :=
        if t1.mode = Mode.RECTANGLE then { t1 with rect := ⟨-5, -5, 5, 5⟩, pos := t1.start }
        else if t1.mode = Mode.XRANGE then
          { t1 with rect := ⟨0, 0, 5, t1.host.plotArea.height⟩,
                    pos := ⟨t1.start.x, t1.host.plotArea.y⟩ }
        else t1
      ({ t2 with drag := { interval := 400, singleShot := true, active := true } }, true)
  else (t, false)

/-- The function `SelectionTool::released` (lines 606-634). -/
def SelectionTool.released (t : SelectionTool) (_pos : QPointF) : SelectionTool × Bool :=
  if t.mode = Mode.RECTANGLE ∨ t.mode = Mode.XRANGE then
    if t.state = State.DRAGGING then
      ({ t with host := { t.host with cursor := CursorShape.ArrowCursor },
                state := State.INACTIVE, rect := ⟨0, 0, 0, 0⟩ }, true)
    else if t.rect.width < 10 ∧ t.rect.width > -10 ∧
        (t.mode = Mode.XRANGE ∨ (t.rect.height < 10 ∧ t.rect.height > -10)) then
      (t.reset.1, true)
    else if t.state = State.SIZING ∨ t.state = State.MOVING then
      ({ t with state := State.ACTIVE }, true)
    else (t, false)
  else (t, false)

/-- The function `SelectionTool::dragStart` (lines 636-647), the slot of the gesture timer. -/
def SelectionTool.dragStart (t : SelectionTool) : SelectionTool :=
  if t.mode = Mode.RECTANGLE ∨ t.mode = Mode.XRANGE then
    if t.state = State.SIZING then
      { t with host := { t.host with cursor := CursorShape.ClosedHandCursor },
               state := State.DRAGGING }
    else t
  else t

/-- The comparator `CompareQPointFX` (lines 649-654): order points by `x`. -/
def CompareQPointFX (p1 p2 : QPointF) : Bool := decide (p1.x < p2.x)

/-- The loop of `std::lower_bound` over `p[first, first+len)` for the value `x`;
the first argument bounds the number of iterations. -/
def lowerBoundLoop (p : List QPointF) (x : QPointF) : Nat → Nat → Nat → Nat
  | 0, first, _ => first
  | fuel + 1, first, len =>
    if len = 0 then first
    else
      match p[first + len / 2]? with
      | some middle =>
        if CompareQPointFX middle x then
          lowerBoundLoop p x fuel (first + len / 2 + 1) (len - len / 2 - 1)
        else lowerBoundLoop p x fuel first (len / 2)
      | none => first

/-- The call `std::lower_bound(p.begin(), p.end(), x, CompareQPointFX())` as an index into `p`;
`p.length` is `p.end()`. -/
def lowerBound (p : List QPointF) (x : QPointF) : Nat :=
  lowerBoundLoop p x p.length 0 p.length

/-- The running values of the hover search of `moved` in RECTANGLE mode:
`hoverpoint`, `hoverseries` and the local `hoverv`. -/
structure HoverAcc where
  hoverpoint : QPointF
  hoverseries : Option Nat
  hoverv : QPointF
deriving DecidableEq

/-- The body of the inner loop (lines 723-734) for one candidate `p` of `series`. -/
def SelectionTool.hoverCandidate (t : SelectionTool) (pos : QPointF) (series : Nat)
    (acc : HoverAcc) (p : QPointF) : HoverAcc :=
  if acc.hoverpoint.fuzzyEq ⟨0, 0⟩ then
    ⟨t.mapFromScene (t.host.mapToPosition p series), some series, p⟩
  else if ((t.mapFromScene pos).sub (t.mapFromScene (t.host.mapToPosition p series))).manhattanLength
      < ((t.mapFromScene pos).sub acc.hoverpoint).manhattanLength then
    ⟨t.mapFromScene (t.host.mapToPosition p series), some series, p⟩
  else acc

/-- The body of the outer loop (lines 707-739) for one series of the chart. -/
def SelectionTool.hoverSeries (t : SelectionTool) (pos : QPointF) (acc : HoverAcc)
    (series : QAbstractSeries) : HoverAcc :=
  match t.host.candidates series.id with
  | none => acc
  | some candidates =>
    let pixels := 10 * t.host.dpiXFactor
    let srect := QRectF.ofCorners (pos.sub ⟨pixels, pixels⟩) (pos.add ⟨pixels, pixels⟩)
    let vrect := QRectF.ofCorners (t.host.mapToValue srect.topLeft series.id)
      (t.host.mapToValue srect.bottomRight series.id)
    (candidates vrect).foldl (t.hoverCandidate pos series.id) acc

/-- The signals of lines 741-750, given the series hovered before and the search result. -/
def SelectionTool.hoverSignals (t : SelectionTool) (originalhoverseries : Option Nat)
    (acc : HoverAcc) : List Signal :=
  (if originalhoverseries ≠ acc.hoverseries ∨ acc.hoverv.fuzzyEq ⟨0, 0⟩ = false then
    (match originalhoverseries with
      | some o => if acc.hoverseries ≠ some o then [Signal.unhover (t.host.nameOf o)] else []
      | none => []) ++
    (match acc.hoverseries with
      | some h => [Signal.hover acc.hoverv (t.host.nameOf h) h]
      | none => [])
   else []) ++
  (if acc.hoverv.fuzzyEq ⟨0, 0⟩ then [Signal.unhoverx] else [])

/-- The hovering branch of `moved` in RECTANGLE mode (lines 693-754). -/
def SelectionTool.hoverRectangle (t : SelectionTool) (pos : QPointF) : SelectionTool × Bool :=
  let acc := t.host.series.foldl (t.hoverSeries pos) ⟨⟨0, 0⟩, none, ⟨0, 0⟩⟩
  ({ t with spos := pos, hoverpoint := acc.hoverpoint, hoverseries := acc.hoverseries,
            emitted := t.emitted ++ t.hoverSignals t.hoverseries acc }, true)

/-- Qt `QMap::insert` on a map kept as a list ordered by key: a value already
stored under the key is replaced. -/
def qmapInsert (k : Nat) (v : QPointF) : List (Nat × QPointF) → List (Nat × QPointF)
  | [] => [(k, v)]
  | (k1, v1) :: rest =>
    if k < k1 then (k, v) :: (k1, v1) :: rest
    else if k = k1 then (k, v) :: rest
    else (k1, v1) :: qmapInsert k v rest

/-- The running values of the hover search of `moved` in XRANGE mode: `vals` and `nearestx`. -/
structure XHoverAcc where
  vals : List (Nat × QPointF)
  nearestx : ℚ
deriving DecidableEq

/-- The body of the loop of lines 763-787 for one series; `none` when the iterator
returned by `std::lower_bound` is `p.end()`, which the code dereferences all the same.
The two differences of line 784 are `double` subtractions. -/
def SelectionTool.hoverXSeries (t : SelectionTool) (spos : QPointF) (acc : XHoverAcc)
    (series : QAbstractSeries) : Option XHoverAcc :=
  if series.type = SeriesType.SeriesTypeLine then
    match series.points[lowerBound series.points ⟨(t.host.mapToValue spos series.id).x, 0⟩]? with
    | none => none
    | some i =>
      some ⟨qmapInsert series.id i acc.vals,
        if i.x ≠ 0 ∧ (acc.nearestx = -9999 ∨
            binary64 (i.x - (t.host.mapToValue spos series.id).x) <
              binary64 (acc.nearestx - (t.host.mapToValue spos series.id).x))
        then i.x else acc.nearestx⟩
  else some acc

/-- The loop of lines 763-787 over the series of the chart. -/
def SelectionTool.hoverXLoop (t : SelectionTool) (spos : QPointF) :
    XHoverAcc → List QAbstractSeries → Option XHoverAcc
  | acc, [] => some acc
  | acc, series :: rest =>
    match t.hoverXSeries spos acc series with
    | none => none
    | some acc1 => SelectionTool.hoverXLoop t spos acc1 rest

/-- The loop of lines 790-801 over `vals`: the new `hoverpoints` and the signals emitted. -/
def SelectionTool.hoverXPublish (t : SelectionTool) (nearestx : ℚ) :
    List (Nat × QPointF) → List SeriesPoint × List Signal
  | [] => ([], [])
  | (key, value) :: rest =>
    let tail := SelectionTool.hoverXPublish t nearestx rest
    if value.x = nearestx then
      ((if value.y ≠ 0 then [⟨key, value⟩] else []) ++ tail.1,
        Signal.hover value (t.host.nameOf key) key :: tail.2)
    else (tail.1, Signal.unhover (t.host.nameOf key) :: tail.2)

/-- The hovering branch of `moved` in XRANGE mode (lines 756-803);
`none` when a series is read past its end. -/
def SelectionTool.hoverXRange (t : SelectionTool) (pos : QPointF) :
    Option (SelectionTool × Bool) :=
  match t.hoverXLoop pos ⟨[], -9999⟩ t.host.series with
  | none => none
  | some acc =>
    some ({ t with spos := pos, hoverpoints := (t.hoverXPublish acc.nearestx acc.vals).1,
                   emitted := t.emitted ++ (t.hoverXPublish acc.nearestx acc.vals).2 },
      decide (acc.vals.length ≠ 0))

/-- The function `SelectionTool::moved` (lines 656-806).  The result is `none` when the XRANGE
hover search reads a series past its end. -/
def SelectionTool.moved (t : SelectionTool) (pos : QPointF) : Option (SelectionTool × Bool) :=
  if t.state = State.SIZING then
    let t1 : SelectionTool := { t with drag := { t.drag with active := false }, finish := pos }
    if t1.mode = Mode.RECTANGLE then
      some ({ t1 with rect := QRectF.ofCorners ⟨0, 0⟩ (t1.finish.sub t1.start) }, true)
    else some ({ t1 with rect := t1.rect.setWidth (t1.finish.x - t1.start.x) }, true)
  else if t.state = State.MOVING then
    if t.mode = Mode.RECTANGLE then
      some ({ t with pos := t.startingpos.add (pos.sub t.start) }, true)
    else if t.mode = Mode.XRANGE then
      some ({ t with pos := t.startingpos.add ⟨(pos.sub t.start).x, 0⟩ }, true)
    else some (t, true)
  else if t.state = State.DRAGGING then some (t, true)
  else if t.mode = Mode.RECTANGLE then some (t.hoverRectangle pos)
  else if t.mode = Mode.XRANGE then t.hoverXRange pos
  else some (t, false)

/-- The function `SelectionTool::wheel` (lines 808-824) with every `double` stored
through `r`: the literals `0.9` and `1.1` are `r (9/10)` and `r (11/10)`. -/
def SelectionTool.wheelR (r : ℚ → ℚ) (t : SelectionTool) (delta : Int) : SelectionTool × Bool :=
  if t.mode = Mode.RECTANGLE then
    if t.state = State.ACTIVE then
      if delta < 0 then ({ t with rect := t.rect.scaleSizeR r (r (9 / 10)) }, true)
      else ({ t with rect := t.rect.scaleSizeR r (r (11 / 10)) }, true)
    else (t, false)
  else (t, false)

/-- The function `SelectionTool::wheel` (lines 808-824) over exact arithmetic
(`SelectionTool.wheelR` without rounding). -/
def SelectionTool.wheel (t : SelectionTool) (delta : Int) : SelectionTool × Bool :=
  if t.mode = Mode.RECTANGLE then
    if t.state = State.ACTIVE then
      if delta < 0 then ({ t with rect := t.rect.scaleSize 0.9 }, true)
      else ({ t with rect := t.rect.scaleSize 1.1 }, true)
    else (t, false)
  else (t, false)

/-- The constructor `SelectionTool::SelectionTool` (lines 268-279): the tool as constructed for a host;
members the constructor does not mention are default constructed. -/
def SelectionTool.new (host : Host) : SelectionTool :=
  { state := State.INACTIVE, mode := Mode.RECTANGLE,
    start := ⟨0, 0⟩, startingpos := ⟨0, 0⟩, finish := ⟨0, 0⟩,
    rect := ⟨0, 0, 0, 0⟩, pos := ⟨0, 0⟩, spos := ⟨0, 0⟩,
    hoverpoint := ⟨0, 0⟩, hoverseries := none, hoverpoints := [],
    drag := { interval := 0, singleShot := false, active := false },
    selections := [], ignore := [], stats := [], host := host, emitted := [] }

/-- A chart without series, with plot area `(0, 10, 100, 50)` and identity coordinate
mappings: the host of the concrete examples below. -/
def exampleHost : Host :=
  { series := [], plotArea := ⟨0, 10, 100, 50⟩, cursor := CursorShape.ArrowCursor,
    charttype := ChartType.GC_CHART_SCATTER, candidates := fun _ => none,
    mapToValue := fun p _ => p, mapToPosition := fun p _ => p, dpiXFactor := 1 }

/-- The condition `state==ACTIVE && sceneBoundingRect().contains(pos)` of `clicked`
(line 564): the press starts a move of the region; otherwise it starts a new sizing gesture. -/
def SelectionTool.pressMoves (t : SelectionTool) (pos : QPointF) : Prop :=
  t.state = State.ACTIVE ∧ t.sceneBoundingRect.contains pos = true

/-- The condition of line 619 of `released`: the rectangle is below the 10 pixel
threshold (in width only, in XRANGE mode). -/
def SelectionTool.tiny (t : SelectionTool) : Prop :=
  t.rect.width < 10 ∧ t.rect.width > -10 ∧
    (t.mode = Mode.XRANGE ∨ (t.rect.height < 10 ∧ t.rect.height > -10))

/-- The calls `clicked(p0)`, `moved(p1)`, `released(p1)` in a row: the tool they leave
(`none` when `moved` reads a series past its end). -/
def SelectionTool.pressMoveRelease (t : SelectionTool) (p0 p1 : QPointF) : Option SelectionTool :=
  match (t.clicked p0).1.moved p1 with
  | none => none
  | some r => some (r.1.released p1).1

/-- The tool `t` with the host replaced: used to say that an operation touches
nothing but the host. -/
def SelectionTool.withHost (t : SelectionTool) (h : Host) : SelectionTool := { t with host := h }

/-! ## Painting the statistics (lines 410-523 of `SelectionTool::paint`) -/

/-- What the painter draws for the selection; positions are given in value space
(the painter maps them through the chart). -/
inductive PaintOp
  | fillRect (r : QRectF)
  | regressionText (m b : ℚ) (color : Nat)
  | regressionLine (start stop : QPointF) (series : Option Nat)
  | xLabels (max min mean : ℚ)
  | yLabels (max min mean : ℚ) (color : Nat)
deriving DecidableEq

/-- The body of the loop `foreach(Calculator calc, stats)` (lines 419-522). -/
def paintCalc (charttype : ChartType) (cal : Calculator) : List PaintOp :=
  if cal.count < 2 then []
  else
    (if charttype = ChartType.GC_CHART_SCATTER then
      [PaintOp.regressionText cal.m cal.b cal.color] else []) ++
    (match cal.xaxis with
      | none => []
      | some xaxis =>
        (if xaxis.isValueAxis then
          [PaintOp.regressionLine ⟨xaxis.min, cal.b⟩ ⟨xaxis.max, cal.b + xaxis.max * cal.m⟩
            cal.series] else []) ++
        [PaintOp.xLabels cal.x.max cal.x.min cal.x.mean] ++
        (if charttype = ChartType.GC_CHART_SCATTER then
          [PaintOp.yLabels cal.y.max cal.y.min cal.y.mean cal.color] else []))

/-- The loop `foreach(Calculator calc, stats)` over the values of `stats`. -/
def paintStats (charttype : ChartType) : List (Nat × Calculator) → List PaintOp
  | [] => []
  | entry :: rest => paintCalc charttype entry.2 ++ paintStats charttype rest

/-- The selection part of `SelectionTool::paint` (lines 410-523): nothing in the
CIRCLE and LASSOO modes, nothing while INACTIVE, else the rectangle and the statistics. -/
def SelectionTool.paintSelection (t : SelectionTool) : List PaintOp :=
  if t.mode = Mode.XRANGE ∨ t.mode = Mode.RECTANGLE then
    if t.state ≠ State.INACTIVE then
      PaintOp.fillRect ⟨4, 4, t.rect.width - 8, t.rect.height - 8⟩ ::
        paintStats t.host.charttype t.stats
    else []
  else []

/-! ## Updating the scene (lines 826-848 and 1014-1198) -/

/-- Qt `QRectF::center`. -/
def QRectF.center (r : QRectF) : QPointF := ⟨r.x + r.width / 2, r.y + r.height / 2⟩

/-- The function `SelectionTool::miny` (lines 826-830). -/
def SelectionTool.miny (t : SelectionTool) (series : Nat) : ℚ :=
  (t.host.mapToValue (t.pos.add ⟨0, t.rect.height⟩) series).y

/-- The function `SelectionTool::maxy` (lines 832-836). -/
def SelectionTool.maxy (t : SelectionTool) (series : Nat) : ℚ :=
  (t.host.mapToValue t.pos series).y

/-- The function `SelectionTool::minx` (lines 838-842). -/
def SelectionTool.minx (t : SelectionTool) (series : Nat) : ℚ :=
  (t.host.mapToValue t.pos series).x

/-- The function `SelectionTool::maxx` (lines 844-848). -/
def SelectionTool.maxx (t : SelectionTool) (series : Nat) : ℚ :=
  (t.host.mapToValue (t.pos.add ⟨t.rect.width, 0⟩) series).x

/-- The x range `(minx, maxx)` after the swap of lines 1084 and 1162. -/
def SelectionTool.xBounds (t : SelectionTool) (series : Nat) : ℚ × ℚ :=
  if t.maxx series < t.minx series then (t.maxx series, t.minx series)
  else (t.minx series, t.maxx series)

/-- The y range `(miny, maxy)` after the swap of line 1158. -/
def SelectionTool.yBounds (t : SelectionTool) (series : Nat) : ℚ × ℚ :=
  if t.maxy series < t.miny series then (t.maxy series, t.miny series)
  else (t.miny series, t.maxy series)

/-- The test of line 1098 on a point of a line series. -/
def SelectionTool.inLineBounds (t : SelectionTool) (series : Nat) (point : QPointF) : Bool :=
  decide (point.x ≥ (t.xBounds series).1 ∧ point.x ≤ (t.xBounds series).2)

/-- The test of lines 1176-1177 on a point of a scatter series. -/
def SelectionTool.inScatterBounds (t : SelectionTool) (series : Nat) (point : QPointF) : Bool :=
  decide (point.y ≥ (t.yBounds series).1 ∧ point.y ≤ (t.yBounds series).2 ∧
    point.x ≥ (t.xBounds series).1 ∧ point.x ≤ (t.xBounds series).2)

/-- The colour `Qt::gray`. -/
def QtGray : Nat := 0xa0a0a4

/-- The address `new` returns for a series object: one that no series of the chart has. -/
def Host.freshId (h : Host) : Nat := (h.series.map (fun s => s.id)).foldl max 0 + 1

/-- The declaration `Calculator calc;` followed by `calc.initialise()` and the four
assignments of lines 1092-1095 and 1170-1173 (every member is assigned, so the values
the declaration leaves in the members do not matter). -/
def Calculator.fresh (color : Nat) (xaxis yaxis : Option AxisRef) (series : Nat) : Calculator :=
  { Calculator.initialise ⟨0, 0, 0, 0, 0, ⟨0, 0, 0, 0⟩, ⟨0, 0, 0, 0⟩, 0, none, none, none⟩ with
    color := color, xaxis := xaxis, yaxis := yaxis, series := some series }

/-- The body of the loops of lines 1096-1102 and 1174-1181 for one point: a point
that passes the test is appended to `points` unless it is there already, and is
added to the calculator in either case. -/
def selectPoint (inBounds : QPointF → Bool) (acc : List QPointF × Calculator)
    (point : QPointF) : List QPointF × Calculator :=
  if inBounds point then
    (if containsPoint acc.1 point then acc.1 else acc.1 ++ [point], acc.2.addPoint point)
  else acc

/-- Qt `QMap::insert` on `stats`, kept as a list ordered by key. -/
def statsInsert (k : Nat) (v : Calculator) : List (Nat × Calculator) → List (Nat × Calculator)
  | [] => [(k, v)]
  | (k1, v1) :: rest =>
    if k < k1 then (k, v) :: (k1, v1) :: rest
    else if k = k1 then (k, v) :: rest
    else (k1, v1) :: statsInsert k v rest

/-- The overlay series made for `x` at address `id` (lines 1056-1075 and 1130-1149):
a series of the same kind without points, gray if `x` uses OpenGL and of the
colour of `x` if not, attached to the axes found for `x`. -/
def newSelection (id : Nat) (x : QAbstractSeries) (xaxis yaxis : Option AxisRef) :
    QAbstractSeries :=
  { x with
    id := id, name := "", points := [],
    color := if x.useOpenGL then QtGray else x.color,
    attachedAxes := yaxis.toList ++ xaxis.toList }

/-- The overlay series of `x` (lines 1054-1076 and 1128-1150): the one in `selections`,
or a new one, which is put into `selections` and `ignore` and onto the chart, while
the original turns gray unless it uses OpenGL. -/
def SelectionTool.selectionFor (t : SelectionTool) (x : QAbstractSeries)
    (xaxis yaxis : Option AxisRef) : SelectionTool × QAbstractSeries :=
  match t.selections.lookup x.id with
  | some selection => (t, selection)
  | none =>
    ({ t with
        selections := (x.id, newSelection t.host.freshId x xaxis yaxis) :: t.selections,
        ignore := t.ignore ++ [t.host.freshId],
        host := { t.host with
          series := (if x.useOpenGL then t.host.series
              else t.host.series.map
                (fun s => if s.id = x.id then { s with color := QtGray } else s))
            ++ [newSelection t.host.freshId x xaxis yaxis] } },
      newSelection t.host.freshId x xaxis yaxis)

/-- The end of the loop body (lines 1088-1107 and 1166-1186): select the points of `x`
by `inBounds`, publish the finalised calculator in `stats` and give the overlay
series `selection` the selected points without repetitions. -/
def SelectionTool.publishSelection (t : SelectionTool) (x selection : QAbstractSeries)
    (xaxis yaxis : Option AxisRef) (inBounds : QPointF → Bool) : SelectionTool :=
  { t with
    stats := statsInsert x.id
      (x.points.foldl (selectPoint inBounds)
        ([], Calculator.fresh selection.color xaxis yaxis x.id)).2.finalise t.stats,
    host := { t.host with
      series := t.host.series.map (fun s =>
        if s.id = selection.id then
          { s with points := (x.points.foldl (selectPoint inBounds)
              ([], Calculator.fresh selection.color xaxis yaxis x.id)).1 }
        else s) } }

/-- The body of the loop of `updateScene` (lines 1024-1192) for one series `x` of the
chart (the series of a chart are distinct objects). -/
def SelectionTool.updateSceneSeries (t : SelectionTool) (x : QAbstractSeries) : SelectionTool :=
  if t.ignore.contains x.id then t
  else
    match x.type with
    | SeriesType.SeriesTypeLine =>
      if x.points.length < 1 then t
      else
        SelectionTool.publishSelection
          (t.selectionFor x (x.attachedAxes.find? (fun ax => !ax.vertical))
            (x.attachedAxes.find? (fun ax => ax.vertical))).1 x
          (t.selectionFor x (x.attachedAxes.find? (fun ax => !ax.vertical))
            (x.attachedAxes.find? (fun ax => ax.vertical))).2
          (x.attachedAxes.find? (fun ax => !ax.vertical))
          (x.attachedAxes.find? (fun ax => ax.vertical))
          (t.inLineBounds x.id)
    | SeriesType.SeriesTypeScatter =>
      if x.points.length < 1 then t
      else
        SelectionTool.publishSelection
          (t.selectionFor x (x.attachedAxes.find? (fun ax => !ax.vertical))
            (x.attachedAxes.find? (fun ax => ax.vertical))).1 x
          (t.selectionFor x (x.attachedAxes.find? (fun ax => !ax.vertical))
            (x.attachedAxes.find? (fun ax => ax.vertical))).2
          (x.attachedAxes.find? (fun ax => !ax.vertical))
          (x.attachedAxes.find? (fun ax => ax.vertical))
          (t.inScatterBounds x.id)
    | SeriesType.SeriesTypeOther => t

/-- The function `SelectionTool::updateScene` (lines 1014-1198). -/
def SelectionTool.updateScene (t : SelectionTool) : SelectionTool :=
  if t.state ≠ State.INACTIVE then t.host.series.foldl SelectionTool.updateSceneSeries t
  else t.resetSelections

/-- The colour `selection->color()` of the overlay series that `updateScene` uses for
`x`: that of the overlay in `selections`, or that of the overlay it makes. -/
def SelectionTool.selectionColor (t : SelectionTool) (x : QAbstractSeries) : Nat :=
  match t.selections.lookup x.id with
  | some selection => selection.color
  | none => if x.useOpenGL then QtGray else x.color

/-- The addresses of the series on the chart. -/
def Host.ids (h : Host) : List Nat := h.series.map (fun s => s.id)

/-- The points of a list without repetitions, first occurrences kept. -/
def dedupPoints (pts : List QPointF) : List QPointF :=
  pts.foldl (fun acc p => if acc.contains p then acc else acc ++ [p]) []

/-- A scatter chart with one series, at address 1, that holds the point `(1,1)` twice:
the host of the concrete example for the published statistics. -/
def scatterHost : Host :=
  { exampleHost with
    series := [{ id := 1, name := "s", type := SeriesType.SeriesTypeScatter,
                 points := [⟨1, 1⟩, ⟨1, 1⟩], color := 5, useOpenGL := false,
                 attachedAxes := [] }] }

/-- The tool on `scatterHost` with an active region `(0,0,10,10)` at the origin. -/
def scatterTool : SelectionTool :=
  { SelectionTool.new scatterHost with state := State.ACTIVE, rect := ⟨0, 0, 10, 10⟩ }

/-- A scatter chart with one series, at address 1, whose spatial index returns the
points `(3,3)` and `(8,8)`, in this order, for every query: the host of the concrete
example for the hover search. -/
def hoverHost : Host :=
  { exampleHost with
    series := [{ id := 1, name := "s", type := SeriesType.SeriesTypeScatter,
                 points := [⟨3, 3⟩, ⟨8, 8⟩], color := 5, useOpenGL := false,
                 attachedAxes := [] }],
    candidates := fun id => if id = 1 then some (fun _ => [⟨3, 3⟩, ⟨8, 8⟩]) else none }

/-- The tool on `hoverHost` after a click at `(3,3)`: `clicked((3,3))` followed by
`released((3,3))` from the constructed tool, which leaves it INACTIVE at item
position `(3,3)`. -/
def hoverTool : SelectionTool :=
  (((SelectionTool.new hoverHost).clicked ⟨3, 3⟩).1.released ⟨3, 3⟩).1

/-! ## Event dispatch (lines 895-1012) -/

/-- The events `eventHandler` tells apart by `e->type()`; `Other` stands for every
type whose case does nothing (resize, hover, tooltip and the default). -/
inductive QEvent
  | GraphicsSceneMousePress (scenePos : QPointF)
  | GraphicsSceneMouseRelease (scenePos : QPointF)
  | GraphicsSceneMouseMove (scenePos : QPointF)
  | GraphicsSceneWheel (delta : Int)
  | Other
deriving DecidableEq

/-- The member functions of the selector that `eventHandler` calls. -/
inductive SelectorCall
  | clicked (pos : QPointF)
  | released (pos : QPointF)
  | moved (pos : QPointF)
  | wheel (delta : Int)
  | updateScene
deriving DecidableEq

/-- The state `eventHandler` works on: the function-static flag `block` and the selector. -/
structure PlotState where
  block : Bool
  selector : SelectionTool

/-- What one call of `eventHandler` leaves: the state, the value returned and the
calls made on the selector, in order. -/
structure Handled where
  plot : PlotState
  result : Bool
  calls : List SelectorCall

/-- The `switch` of lines 916-996: the selector after the call the event leads to,
the value of `updatescene` and the call made (`none` when `moved` reads a series
past its end). -/
def dispatchEvent (selector : SelectionTool) :
    QEvent → Option (SelectionTool × Bool × List SelectorCall)
  | QEvent.GraphicsSceneMousePress spos =>
    some ((selector.clicked spos).1, (selector.clicked spos).2, [SelectorCall.clicked spos])
  | QEvent.GraphicsSceneMouseRelease spos =>
    some ((selector.released spos).1, (selector.released spos).2, [SelectorCall.released spos])
  | QEvent.GraphicsSceneMouseMove spos =>
    match selector.moved spos with
    | none => none
    | some r => some (r.1, r.2, [SelectorCall.moved spos])
  | QEvent.GraphicsSceneWheel delta =>
    some ((selector.wheel delta).1, (selector.wheel delta).2, [SelectorCall.wheel delta])
  | QEvent.Other => some (selector, false, [])

/-- The function `GenericPlot::eventHandler` (lines 895-1012), with the static `block` as
a field of the state. -/
def eventHandler (g : PlotState) (e : QEvent) : Option Handled :=
  if g.block then some ⟨g, false, []⟩
  else
    match dispatchEvent g.selector e with
    | none => none
    | some r =>
      if r.2.1 then
        some ⟨{ block := false, selector := r.1.updateScene }, false,
          r.2.2 ++ [SelectorCall.updateScene]⟩
      else some ⟨{ block := false, selector := r.1 }, false, r.2.2⟩

/-! ## Building the spatial index of a scatter series (lines 1463-1469) -/

/-- The points `GenericPlot::addCurve` passes to `tree->insert`, in order, for the data
`xseries`, `yseries` of a scatter series (the loop of lines 1465-1467). -/
def addCurveInserts (xseries yseries : List ℚ) : List QPointF :=
  ((xseries.zip yseries).filter (fun p => decide (p.1 ≠ 0 ∧ p.2 ≠ 0))).map
    (fun p => (⟨p.1, p.2⟩ : QPointF))

/-- The result of the hover search of `moved` in RECTANGLE mode (lines 703-739):
`hoverpoint`, `hoverseries` and `hoverv` after the loops. -/
def SelectionTool.hoverSearch (t : SelectionTool) (pos : QPointF) : HoverAcc :=
  t.host.series.foldl (t.hoverSeries pos) ⟨⟨0, 0⟩, none, ⟨0, 0⟩⟩

/-- The tool hovers: it is in none of the states SIZING, MOVING, DRAGGING, so that
`moved` takes its last branch. -/
def SelectionTool.hovering (t : SelectionTool) : Prop :=
  t.state ≠ State.SIZING ∧ t.state ≠ State.MOVING ∧ t.state ≠ State.DRAGGING

/-- The invariant of the state machine: an INACTIVE tool has the zero rectangle. -/
def SelectionTool.inactiveRectZero (t : SelectionTool) : Prop :=
  t.state = State.INACTIVE → t.rect = ⟨0, 0, 0, 0⟩

/-- The divisor of the slope in `Calculator::finalise` (line 890) over exact arithmetic:
`count * sumx2 - (x.sum * x.sum)`. -/
def Calculator.slopeDenominator (c : Calculator) : ℚ :=
  (c.count : ℚ) * c.sumx2 - (c.x.sum * c.x.sum)

/-- The sum of the squares `(a*x - b)^2` over a list of points. -/
def sumSqDev (pts : List QPointF) (a b : ℚ) : ℚ :=
  (pts.map (fun p => (a * p.x - b) ^ 2)).sum

/-- The coordinate mapping of a Cartesian chart: the `x` of the value depends on the
`x` of the position only, and the `y` of the value on the `y` of the position only. -/
def Host.axisAligned (h : Host) : Prop :=
  ∀ (p q : QPointF) (id : Nat),
    (p.x = q.x → (h.mapToValue p id).x = (h.mapToValue q id).x) ∧
    (p.y = q.y → (h.mapToValue p id).y = (h.mapToValue q id).y)

/-- A line chart with two line series: series 1 with the points `(1,5)`, `(2,7)`,
`(2,7)`, `(30,1)` and series 2 with the points `(4,1)`, `(6,2)`, both sorted by `x`:
the host of the concrete examples for line series. -/
def lineHost : Host :=
  { exampleHost with
    charttype := ChartType.GC_CHART_LINE,
    series := [{ id := 1, name := "a", type := SeriesType.SeriesTypeLine,
                 points := [⟨1, 5⟩, ⟨2, 7⟩, ⟨2, 7⟩, ⟨30, 1⟩], color := 5, useOpenGL := false,
                 attachedAxes := [] },
               { id := 2, name := "b", type := SeriesType.SeriesTypeLine,
                 points := [⟨4, 1⟩, ⟨6, 2⟩], color := 6, useOpenGL := false,
                 attachedAxes := [] }] }

/-- The tool on `lineHost` in X-RANGE mode with an active region `(0,0,10,10)` at the origin. -/
def lineTool : SelectionTool :=
  { SelectionTool.new lineHost with
    mode := Mode.XRANGE, state := State.ACTIVE, rect := ⟨0, 0, 10, 10⟩ }

/-- The x value of the cursor for a series (line 766): `mapToValue(spos, series).x()`. -/
def SelectionTool.xvalue (t : SelectionTool) (spos : QPointF) (series : QAbstractSeries) : ℚ :=
  (t.host.mapToValue spos series.id).x

/-- The element `*i` that `moved` reads for a line series after `std::lower_bound`
(lines 778-781); `none` when `i` is `p.end()`. -/
def SelectionTool.lookedUp (t : SelectionTool) (spos : QPointF) (series : QAbstractSeries) :
    Option QPointF :=
  series.points[lowerBound series.points ⟨t.xvalue spos series, 0⟩]?

/-- The x value looked up for a series as far as it enters the search for `nearestx`
(line 784): that of a line series, when it is not zero. -/
def SelectionTool.lookedUpX (t : SelectionTool) (spos : QPointF) (series : QAbstractSeries) :
    Option ℚ :=
  if series.type = SeriesType.SeriesTypeLine then
    match t.lookedUp spos series with
    | some i => if i.x ≠ 0 then some i.x else none
    | none => none
  else none

/-- The non-zero x values looked up across the line series of a list of series. -/
def SelectionTool.lookedUpXs (t : SelectionTool) (spos : QPointF)
    (ss : List QAbstractSeries) : List ℚ :=
  ss.filterMap (t.lookedUpX spos)

/-- The value `n` is the smallest of the values `xs`, or the sentinel -9999 when there
is none. -/
def smallestOrSentinel (n : ℚ) (xs : List ℚ) : Prop :=
  (xs = [] ∧ n = -9999) ∨ (n ≠ -9999 ∧ n ∈ xs ∧ ∀ x ∈ xs, n ≤ x)

/-- The value `n` is one of the values `xs`, or the sentinel -9999 when there is none. -/
def memberOrSentinel (n : ℚ) (xs : List ℚ) : Prop :=
  (xs = [] ∧ n = -9999) ∨ (n ≠ -9999 ∧ n ∈ xs)

/-- A line chart with two series of one point each, at `x = 1 + 2^-52` (address 1) and at
`x = 1` (address 2), and identity coordinate mappings. -/
def absorbHost : Host :=
  { exampleHost with
    charttype := ChartType.GC_CHART_LINE,
    series := [{ id := 1, name := "a", type := SeriesType.SeriesTypeLine,
                 points := [⟨1 + 1 / 4503599627370496, 1⟩], color := 5, useOpenGL := false,
                 attachedAxes := [] },
               { id := 2, name := "b", type := SeriesType.SeriesTypeLine,
                 points := [⟨1, 1⟩], color := 6, useOpenGL := false,
                 attachedAxes := [] }] }

/-- The tool as constructed on `absorbHost`, in X-RANGE mode. -/
def absorbTool : SelectionTool :=
  { SelectionTool.new absorbHost with mode := Mode.XRANGE }

/-- The signal the loop of lines 790-801 emits for an entry of `vals`. -/
def SelectionTool.xSignal (t : SelectionTool) (nearestx : ℚ) (e : Nat × QPointF) : Signal :=
  if e.2.x = nearestx then Signal.hover e.2 (t.host.nameOf e.1) e.1
  else Signal.unhover (t.host.nameOf e.1)

/-- The same region dragged backwards in x (`fx`), in y (`fy`) or in both: the item
at the other end of the range, the width or the height negated. -/
def SelectionTool.flip (t : SelectionTool) (fx fy : Bool) : SelectionTool :=
  { t with
    pos := t.pos.add ⟨if fx then t.rect.width else 0, if fy then t.rect.height else 0⟩,
    rect := { t.rect with
      width := if fx then -t.rect.width else t.rect.width,
      height := if fy then -t.rect.height else t.rect.height } }

/-! ## Sequences of calls on the selection tool -/

/-- The calls a client makes on the selection tool; `dragStart` is the timer firing. -/
inductive ToolCall
  | clicked (pos : QPointF)
  | moved (pos : QPointF)
  | released (pos : QPointF)
  | wheel (delta : Int)
  | dragStart
  | reset
deriving DecidableEq

/-- The tool after one call (`none` when `moved` reads a series past its end). -/
def SelectionTool.call (t : SelectionTool) : ToolCall → Option SelectionTool
  | ToolCall.clicked pos => some (t.clicked pos).1
  | ToolCall.moved pos =>
    match t.moved pos with
    | none => none
    | some r => some r.1
  | ToolCall.released pos => some (t.released pos).1
  | ToolCall.wheel delta => some (t.wheel delta).1
  | ToolCall.dragStart => some t.dragStart
  | ToolCall.reset => some t.reset.1

/-- The tool after a sequence of calls, first call first. -/
def SelectionTool.calls (t : SelectionTool) : List ToolCall → Option SelectionTool
  | [] => some t
  | c :: rest =>
    match t.call c with
    | none => none
    | some t1 => SelectionTool.calls t1 rest

/-! ## The overlay series -/

/-- The list `points` that the loops of lines 1096-1102 and 1174-1181 build from the
points that pass the test, in order: a point is left out when the list already holds
one that compares equal to it (`if (!points.contains(point)) points << point`). -/
def collectPoints (pts : List QPointF) : List QPointF :=
  pts.foldl (fun acc p => if containsPoint acc p then acc else acc ++ [p]) []

/-- The bookkeeping of the overlay series is in order: every overlay series in
`selections` is on the chart, and the overlay series of two different series are at
different addresses.  It holds for the constructed tool and `updateScene` keeps it. -/
def SelectionTool.overlaysDistinct (t : SelectionTool) : Prop :=
  (∀ k s, t.selections.lookup k = some s → s.id ∈ t.host.ids) ∧
  (∀ k1 k2 s1 s2, t.selections.lookup k1 = some s1 → t.selections.lookup k2 = some s2 →
    k1 ≠ k2 → s1.id ≠ s2.id)

/-- A line chart with one series, at address 1, with the points `(1,1)`,
`(1 + 2^-43, 1)` and `(2,2)`: the second point differs from the first by about `1.1e-13`. -/
def nearHost : Host :=
  { exampleHost with
    charttype := ChartType.GC_CHART_LINE,
    series := [{ id := 1, name := "s", type := SeriesType.SeriesTypeLine,
                 points := [⟨1, 1⟩, ⟨1 + 1 / 8796093022208, 1⟩, ⟨2, 2⟩], color := 5,
                 useOpenGL := false, attachedAxes := [] }] }

/-- The tool on `nearHost` with an active region `(0,0,10,10)` at the origin. -/
def nearTool : SelectionTool :=
  { SelectionTool.new nearHost with state := State.ACTIVE, rect := ⟨0, 0, 10, 10⟩ }

/-! ## Theorems: the arithmetic of `double` -/

theorem pow2_eq (e : Int) : pow2 e = (2 : ℚ) ^ e := by
  unfold pow2
  split_ifs with h
  · lift e to ℕ using h
    simp
  · push_neg at h
    obtain ⟨n, hn⟩ : ∃ n : ℕ, -e = n := ⟨(-e).toNat, by omega⟩
    have he : e = -(n : ℤ) := by omega
    subst he
    simp

theorem log2Loop_spec (fuel n : Nat) (hn : 0 < n) (hf : n ≤ fuel) :
    2 ^ log2Loop fuel n ≤ n ∧ n < 2 ^ (log2Loop fuel n + 1) := by
  induction fuel generalizing n with
  | zero => omega
  | succ fuel ih =>
    unfold log2Loop
    split_ifs with h
    · have h2 := ih (n / 2) (by omega) (by omega)
      constructor
      · rw [pow_succ]; omega
      · rw [pow_succ]; omega
    · simp; omega

theorem ilog2_spec (n : Nat) (hn : 0 < n) : 2 ^ ilog2 n ≤ n ∧ n < 2 ^ (ilog2 n + 1) :=
  log2Loop_spec n n hn le_rfl

theorem abs_eq_natAbs_div (q : ℚ) : |q| = (q.num.natAbs : ℚ) / (q.den : ℚ) := by
  have h := Rat.num_div_den q
  have hd : (0 : ℚ) < q.den := by exact_mod_cast q.den_pos
  conv_lhs => rw [← h]
  rw [abs_div, abs_of_pos hd]
  congr 1
  rw [Nat.cast_natAbs]
  push_cast
  rfl

theorem binade_spec (q : ℚ) (hq : q ≠ 0) :
    (2 : ℚ) ^ binade q ≤ |q| ∧ |q| < (2 : ℚ) ^ (binade q + 1) := by
  have hn : 0 < q.num.natAbs := Int.natAbs_pos.mpr (Rat.num_ne_zero.mpr hq)
  have hd : 0 < q.den := q.den_pos
  obtain ⟨ha1, ha2⟩ := ilog2_spec _ hn
  obtain ⟨hb1, hb2⟩ := ilog2_spec _ hd
  have ha1q : (2 : ℚ) ^ ilog2 q.num.natAbs ≤ (q.num.natAbs : ℚ) := by exact_mod_cast ha1
  have ha2q : (q.num.natAbs : ℚ) < (2 : ℚ) ^ (ilog2 q.num.natAbs + 1) := by exact_mod_cast ha2
  have hb1q : (2 : ℚ) ^ ilog2 q.den ≤ (q.den : ℚ) := by exact_mod_cast hb1
  have hb2q : (q.den : ℚ) < (2 : ℚ) ^ (ilog2 q.den + 1) := by exact_mod_cast hb2
  have hdq : (0 : ℚ) < q.den := by exact_mod_cast hd
  have habs := abs_eq_natAbs_div q
  have hpa : (0 : ℚ) < (2 : ℚ) ^ ilog2 q.num.natAbs := by positivity
  have hpb : (0 : ℚ) < (2 : ℚ) ^ ilog2 q.den := by positivity
  have hz : ∀ a b : ℕ, (2 : ℚ) ^ ((a : ℤ) - (b : ℤ)) = (2 : ℚ) ^ a / (2 : ℚ) ^ b := by
    intro a b
    rw [zpow_sub₀ (by norm_num : (2 : ℚ) ≠ 0), zpow_natCast, zpow_natCast]
  unfold binade
  rw [pow2_eq]
  split_ifs with h
  · refine ⟨h, ?_⟩
    rw [habs]
    have : ((ilog2 q.num.natAbs : ℤ) - (ilog2 q.den : ℤ) + 1)
        = (((ilog2 q.num.natAbs + 1 : ℕ) : ℤ) - (ilog2 q.den : ℤ)) := by push_cast; ring
    rw [this, hz]
    calc (q.num.natAbs : ℚ) / q.den < (2 : ℚ) ^ (ilog2 q.num.natAbs + 1) / q.den := by
          apply div_lt_div_of_pos_right ha2q hdq
      _ ≤ (2 : ℚ) ^ (ilog2 q.num.natAbs + 1) / (2 : ℚ) ^ ilog2 q.den := by
          apply div_le_div_of_nonneg_left (by positivity) hpb hb1q
  · push_neg at h
    constructor
    · rw [habs]
      have : ((ilog2 q.num.natAbs : ℤ) - (ilog2 q.den : ℤ) - 1)
          = ((ilog2 q.num.natAbs : ℤ) - ((ilog2 q.den + 1 : ℕ) : ℤ)) := by push_cast; ring
      rw [this, hz]
      calc (2 : ℚ) ^ ilog2 q.num.natAbs / (2 : ℚ) ^ (ilog2 q.den + 1)
          ≤ (2 : ℚ) ^ ilog2 q.num.natAbs / q.den := by
            apply div_le_div_of_nonneg_left (by positivity) hdq hb2q.le
        _ ≤ (q.num.natAbs : ℚ) / q.den := by
            apply div_le_div_of_nonneg_right ha1q hdq.le
    · have : ((ilog2 q.num.natAbs : ℤ) - (ilog2 q.den : ℤ) - 1 + 1)
          = ((ilog2 q.num.natAbs : ℤ) - (ilog2 q.den : ℤ)) := by ring
      rw [this]
      exact h

/-- The binary exponent is determined by the power-of-two interval the magnitude lies in. -/
theorem binade_unique (q : ℚ) (k : ℤ) (h1 : (2 : ℚ) ^ k ≤ |q|) (h2 : |q| < (2 : ℚ) ^ (k + 1)) :
    binade q = k := by
  have hq : q ≠ 0 := by
    intro h0
    rw [h0, abs_zero] at h1
    exact absurd h1 (not_le.mpr (by positivity))
  obtain ⟨b1, b2⟩ := binade_spec q hq
  have hlt1 : (2 : ℚ) ^ k < (2 : ℚ) ^ (binade q + 1) := lt_of_le_of_lt h1 b2
  have hlt2 : (2 : ℚ) ^ binade q < (2 : ℚ) ^ (k + 1) := lt_of_le_of_lt b1 h2
  have e1 := (zpow_lt_zpow_iff_right₀ (by norm_num : (1 : ℚ) < 2)).mp hlt1
  have e2 := (zpow_lt_zpow_iff_right₀ (by norm_num : (1 : ℚ) < 2)).mp hlt2
  omega

theorem roundHalfEven_cases (t : ℚ) :
    (roundHalfEven t = ⌊t⌋ ∧ t - ⌊t⌋ ≤ 1 / 2) ∨ (roundHalfEven t = ⌊t⌋ + 1 ∧ 1 / 2 ≤ t - ⌊t⌋) := by
  unfold roundHalfEven
  split_ifs with h1 h2 h3
  · exact Or.inl ⟨rfl, h1.le⟩
  · exact Or.inr ⟨rfl, h2.le⟩
  · exact Or.inl ⟨rfl, by push_neg at h2; exact h2⟩
  · exact Or.inr ⟨rfl, by push_neg at h1; exact h1⟩

theorem roundHalfEven_error (t : ℚ) : |(roundHalfEven t : ℚ) - t| ≤ 1 / 2 := by
  have h1 := Int.floor_le t
  have h2 := Int.lt_floor_add_one t
  rw [abs_le]
  rcases roundHalfEven_cases t with ⟨h, hf⟩ | ⟨h, hf⟩
  · rw [h]; constructor <;> linarith
  · rw [h]; push_cast; constructor <;> linarith

theorem roundHalfEven_intCast (n : ℤ) : roundHalfEven (n : ℚ) = n := by
  unfold roundHalfEven
  simp

theorem roundHalfEven_mono (s t : ℚ) (h : s ≤ t) : roundHalfEven s ≤ roundHalfEven t := by
  have hfl : ⌊s⌋ ≤ ⌊t⌋ := Int.floor_mono h
  rcases lt_or_eq_of_le hfl with hlt | heq
  · have hs : roundHalfEven s ≤ ⌊s⌋ + 1 := by
      rcases roundHalfEven_cases s with ⟨h1, -⟩ | ⟨h1, -⟩ <;> omega
    have ht : ⌊t⌋ ≤ roundHalfEven t := by
      rcases roundHalfEven_cases t with ⟨h1, -⟩ | ⟨h1, -⟩ <;> omega
    omega
  · unfold roundHalfEven
    rw [← heq]
    have hst : s - ⌊s⌋ ≤ t - ⌊s⌋ := by linarith
    split_ifs <;> first | omega | (exfalso; linarith)

theorem roundHalfEven_neg (t : ℚ) : roundHalfEven (-t) = -roundHalfEven t := by
  by_cases hint : (⌊t⌋ : ℚ) = t
  · rw [← hint, ← Int.cast_neg, roundHalfEven_intCast, roundHalfEven_intCast]
  · have h1 := Int.floor_le t
    have h2 := Int.lt_floor_add_one t
    have hlt : (⌊t⌋ : ℚ) < t := lt_of_le_of_ne h1 hint
    have hfloor : ⌊-t⌋ = -⌊t⌋ - 1 := by
      rw [Int.floor_eq_iff]
      push_cast
      constructor <;> linarith
    unfold roundHalfEven
    rw [hfloor]
    push_cast
    split_ifs <;> first | omega | (exfalso; linarith)

theorem ulp_eq (q : ℚ) : ulp q = (2 : ℚ) ^ (max (binade q - 52) (-1074)) := by
  unfold ulp
  rw [pow2_eq]

theorem ulp_pos (q : ℚ) : 0 < ulp q := by
  rw [ulp_eq]
  positivity

theorem binade_neg (q : ℚ) : binade (-q) = binade q := by
  unfold binade
  simp only [Rat.neg_num, Rat.neg_den, Int.natAbs_neg, abs_neg]

theorem ulp_neg (q : ℚ) : ulp (-q) = ulp q := by
  unfold ulp
  rw [binade_neg]

theorem binary64_neg (q : ℚ) : binary64 (-q) = -binary64 q := by
  unfold binary64
  rw [ulp_neg, neg_div, roundHalfEven_neg]
  push_cast
  ring

theorem binary64_zero : binary64 0 = 0 := by
  unfold binary64
  rw [zero_div]
  have : roundHalfEven 0 = 0 := by
    have := roundHalfEven_intCast 0
    simpa using this
  rw [this]
  simp

theorem binary64_nonneg (q : ℚ) (h : 0 ≤ q) : 0 ≤ binary64 q := by
  unfold binary64
  have hu := ulp_pos q
  have h0 : roundHalfEven 0 ≤ roundHalfEven (q / ulp q) :=
    roundHalfEven_mono _ _ (div_nonneg h hu.le)
  have h00 : roundHalfEven 0 = 0 := by
    have := roundHalfEven_intCast 0
    simpa using this
  rw [h00] at h0
  have : (0 : ℚ) ≤ (roundHalfEven (q / ulp q) : ℚ) := by exact_mod_cast h0
  positivity

/-- The rounding error of `binary64`: half a unit in the last place, that is at most
`|q| / 2^53` in the normal range and `2^-1075` in the subnormal range. -/
theorem binary64_error (q : ℚ) : |binary64 q - q| ≤ |q| / 2 ^ 53 + 1 / 2 ^ 1075 := by
  by_cases hq : q = 0
  · subst hq
    rw [binary64_zero]
    simp
  have hu := ulp_pos q
  have herr := roundHalfEven_error (q / ulp q)
  have hbq : binary64 q - q = ((roundHalfEven (q / ulp q) : ℚ) - q / ulp q) * ulp q := by
    unfold binary64
    field_simp
  have h1 : |binary64 q - q| ≤ ulp q / 2 := by
    rw [hbq, abs_mul, abs_of_pos hu]
    nlinarith
  have h2 : ulp q ≤ |q| / 2 ^ 52 + 1 / 2 ^ 1074 := by
    rw [ulp_eq]
    obtain ⟨b1, -⟩ := binade_spec q hq
    have hk : (2 : ℚ) ^ (binade q - 52) ≤ |q| / 2 ^ 52 := by
      rw [zpow_sub₀ (by norm_num : (2 : ℚ) ≠ 0)]
      have : (2 : ℚ) ^ (52 : ℤ) = 2 ^ 52 := by norm_cast
      rw [this]
      apply div_le_div_of_nonneg_right b1 (by positivity)
    have hs : (2 : ℚ) ^ (-1074 : ℤ) = 1 / 2 ^ 1074 := by
      rw [zpow_neg, one_div]
      norm_cast
    rcases max_cases (binade q - 52) (-1074) with ⟨hm, -⟩ | ⟨hm, -⟩
    · rw [hm]
      have : (0 : ℚ) ≤ 1 / 2 ^ 1074 := by positivity
      linarith
    · rw [hm, hs]
      have : (0 : ℚ) ≤ |q| / 2 ^ 52 := by positivity
      linarith
  have e1 : |q| / 2 ^ 53 = |q| / 2 ^ 52 / 2 := by
    rw [div_div]
    norm_num
  have e2 : (1 : ℚ) / 2 ^ 1075 = 1 / 2 ^ 1074 / 2 := by
    rw [div_div]
    norm_num
  rw [e1, e2]
  linarith

theorem binade_mono (a b : ℚ) (ha : a ≠ 0) (h : |a| ≤ |b|) : binade a ≤ binade b := by
  have hb : b ≠ 0 := by
    intro h0
    rw [h0, abs_zero] at h
    exact ha (abs_eq_zero.mp (le_antisymm h (abs_nonneg a)))
  obtain ⟨a1, -⟩ := binade_spec a ha
  obtain ⟨-, b2⟩ := binade_spec b hb
  have hlt : (2 : ℚ) ^ binade a < (2 : ℚ) ^ (binade b + 1) :=
    lt_of_le_of_lt a1 (lt_of_le_of_lt h b2)
  have := (zpow_lt_zpow_iff_right₀ (by norm_num : (1 : ℚ) < 2)).mp hlt
  omega

theorem two52_mul (k : ℤ) : (((2 ^ 52 : ℕ) : ℤ) : ℚ) * (2 : ℚ) ^ (k - 52) = (2 : ℚ) ^ k := by
  have h : (((2 ^ 52 : ℕ) : ℤ) : ℚ) = (2 : ℚ) ^ (52 : ℤ) := by norm_num
  rw [h, ← zpow_add₀ (by norm_num : (2 : ℚ) ≠ 0)]
  congr 1
  ring

theorem binary64_mono_pos (a b : ℚ) (ha : 0 < a) (h : a ≤ b) : binary64 a ≤ binary64 b := by
  have hb : 0 < b := lt_of_lt_of_le ha h
  have habs : |a| ≤ |b| := by rw [abs_of_pos ha, abs_of_pos hb]; exact h
  have hk := binade_mono a b ha.ne' habs
  have hua := ulp_pos a
  have hub := ulp_pos b
  by_cases hg : max (binade a - 52) (-1074) = max (binade b - 52) (-1074)
  · have hu : ulp a = ulp b := by rw [ulp_eq, ulp_eq, hg]
    unfold binary64
    rw [hu]
    have hr := roundHalfEven_mono (a / ulp b) (b / ulp b) (div_le_div_of_nonneg_right h hub.le)
    have hr2 : (roundHalfEven (a / ulp b) : ℚ) ≤ (roundHalfEven (b / ulp b) : ℚ) := by
      exact_mod_cast hr
    exact mul_le_mul_of_nonneg_right hr2 hub.le
  · have hgb : max (binade b - 52) (-1074) = binade b - 52 := by
      rcases max_cases (binade b - 52) (-1074) with ⟨hm, -⟩ | ⟨hm, hm2⟩
      · exact hm
      · exfalso
        apply hg
        rcases max_cases (binade a - 52) (-1074) with ⟨hn, hn2⟩ | ⟨hn, hn2⟩ <;> omega
    have hlt : max (binade a - 52) (-1074) < binade b - 52 := by
      rcases max_cases (binade a - 52) (-1074) with ⟨hn, hn2⟩ | ⟨hn, hn2⟩ <;> omega
    have hka : binade a + 1 ≤ binade b := by
      rcases max_cases (binade a - 52) (-1074) with ⟨hn, hn2⟩ | ⟨hn, hn2⟩ <;> omega
    obtain ⟨-, a2⟩ := binade_spec a ha.ne'
    obtain ⟨b1, -⟩ := binade_spec b hb.ne'
    rw [abs_of_pos ha] at a2
    rw [abs_of_pos hb] at b1
    have two : (1 : ℚ) ≤ 2 := by norm_num
    have haP : a ≤ (2 : ℚ) ^ binade b :=
      le_trans a2.le (zpow_le_zpow_right₀ two hka)
    -- the power of two between the two values is a value of both grids
    have hPb : (2 : ℚ) ^ binade b ≤ binary64 b := by
      unfold binary64
      have hub2 : ulp b = (2 : ℚ) ^ (binade b - 52) := by rw [ulp_eq, hgb]
      have hq : (((2 ^ 52 : ℕ) : ℤ) : ℚ) ≤ b / ulp b := by
        rw [le_div_iff₀ hub, hub2]
        rw [two52_mul]
        exact b1
      have hr := roundHalfEven_mono _ _ hq
      rw [roundHalfEven_intCast] at hr
      have hr2 : (((2 ^ 52 : ℕ) : ℤ) : ℚ) ≤ (roundHalfEven (b / ulp b) : ℚ) := by
        exact_mod_cast hr
      have := mul_le_mul_of_nonneg_right hr2 hub.le
      have e : (((2 ^ 52 : ℕ) : ℤ) : ℚ) * ulp b = (2 : ℚ) ^ binade b := by
        rw [hub2, two52_mul]
      rw [e] at this
      exact this
    have haP2 : binary64 a ≤ (2 : ℚ) ^ binade b := by
      unfold binary64
      have hua2 := ulp_eq a
      obtain ⟨n, hn⟩ : ∃ n : ℕ, binade b - max (binade a - 52) (-1074) = n :=
        ⟨(binade b - max (binade a - 52) (-1074)).toNat, by omega⟩
      have e : (((2 ^ n : ℕ) : ℤ) : ℚ) * ulp a = (2 : ℚ) ^ binade b := by
        rw [hua2]
        push_cast
        rw [← zpow_natCast, ← zpow_add₀ (by norm_num : (2 : ℚ) ≠ 0), ← hn]
        congr 1
        ring
      have hq : a / ulp a ≤ (((2 ^ n : ℕ) : ℤ) : ℚ) := by
        rw [div_le_iff₀ hua, e]
        exact haP
      have hr := roundHalfEven_mono _ _ hq
      rw [roundHalfEven_intCast] at hr
      have hr2 : (roundHalfEven (a / ulp a) : ℚ) ≤ (((2 ^ n : ℕ) : ℤ) : ℚ) := by
        exact_mod_cast hr
      have := mul_le_mul_of_nonneg_right hr2 hua.le
      rw [e] at this
      exact this
    exact le_trans haP2 hPb

/-- Rounding to `double` keeps the order. -/
theorem binary64_mono (a b : ℚ) (h : a ≤ b) : binary64 a ≤ binary64 b := by
  rcases lt_trichotomy 0 a with ha | ha | ha
  · exact binary64_mono_pos a b ha h
  · subst ha
    rw [binary64_zero]
    exact binary64_nonneg b h
  · rcases le_or_lt 0 b with hb | hb
    · have h1 := binary64_nonneg (-a) (by linarith)
      rw [binary64_neg] at h1
      have h2 := binary64_nonneg b hb
      linarith
    · have h1 := binary64_mono_pos (-b) (-a) (by linarith) (by linarith)
      rw [binary64_neg, binary64_neg] at h1
      linarith

/-! ## Theorems: the comparison of points -/

/-- A comparison with `QPointF()` tests both coordinates with `qFuzzyIsNull`. -/
theorem QPointF.fuzzyEq_origin (p : QPointF) :
    p.fuzzyEq ⟨0, 0⟩ = (qFuzzyIsNull (binary64 p.x) && qFuzzyIsNull (binary64 p.y)) := by
  simp [QPointF.fuzzyEq, qFuzzyCoordinate]

theorem fuzzyEq_origin_origin : QPointF.fuzzyEq ⟨0, 0⟩ ⟨0, 0⟩ = true := by decide!

theorem fuzzyEq_3_3_origin : QPointF.fuzzyEq ⟨3, 3⟩ ⟨0, 0⟩ = false := by decide!

theorem fuzzyEq_5_5_origin : QPointF.fuzzyEq ⟨5, 5⟩ ⟨0, 0⟩ = false := by decide!

theorem fuzzyEq_8_8_origin : QPointF.fuzzyEq ⟨8, 8⟩ ⟨0, 0⟩ = false := by decide!

/-! ## Theorems: Calculator -/

/-- Without rounding, `addPointR` is `addPoint`. -/
theorem Calculator.addPointR_id (c : Calculator) (p : QPointF) :
    c.addPointR id p = c.addPoint p := rfl

/-- Without rounding, `addPointsR` is `addPoints`. -/
theorem Calculator.addPointsR_id (c : Calculator) (pts : List QPointF) :
    c.addPointsR id pts = c.addPoints pts := rfl

/-- Without rounding, `finaliseR` is `finalise`. -/
theorem Calculator.finaliseR_id (c : Calculator) : c.finaliseR id = c.finalise := rfl

/-- Without rounding, `slopeDenominatorR` is `slopeDenominator`. -/
theorem Calculator.slopeDenominatorR_id (c : Calculator) :
    c.slopeDenominatorR id = c.slopeDenominator := rfl

theorem Calculator.addPoints_nil (c : Calculator) : c.addPoints [] = c := rfl

theorem Calculator.addPoints_snoc (c : Calculator) (pts : List QPointF) (p : QPointF) :
    c.addPoints (pts ++ [p]) = (c.addPoints pts).addPoint p := by
  simp [Calculator.addPoints, List.foldl_append]

theorem sumX_snoc (pts : List QPointF) (p : QPointF) : sumX (pts ++ [p]) = sumX pts + p.x := by
  simp [sumX]

theorem sumY_snoc (pts : List QPointF) (p : QPointF) : sumY (pts ++ [p]) = sumY pts + p.y := by
  simp [sumY]

theorem sumXY_snoc (pts : List QPointF) (p : QPointF) :
    sumXY (pts ++ [p]) = sumXY pts + p.x * p.y := by
  simp [sumXY]

theorem sumXX_snoc (pts : List QPointF) (p : QPointF) :
    sumXX (pts ++ [p]) = sumXX pts + p.x * p.x := by
  simp [sumXX]

/-- The counter and the four running sums after folding `pts` into an initialised calculator. -/
theorem Calculator.sums_after (c0 : Calculator) (pts : List QPointF) :
    (c0.initialise.addPoints pts).count = (pts.length : Int) ∧
    (c0.initialise.addPoints pts).x.sum = sumX pts ∧
    (c0.initialise.addPoints pts).y.sum = sumY pts ∧
    (c0.initialise.addPoints pts).sumxy = sumXY pts ∧
    (c0.initialise.addPoints pts).sumx2 = sumXX pts := by
  induction pts using List.reverseRecOn with
  | nil => simp [Calculator.addPoints, Calculator.initialise, sumX, sumY, sumXY, sumXX]
  | append_singleton pts p ih =>
    obtain ⟨h1, h2, h3, h4, h5⟩ := ih
    rw [Calculator.addPoints_snoc, sumX_snoc, sumY_snoc, sumXY_snoc, sumXX_snoc]
    simp [Calculator.addPoint, h1, h2, h3, h4, h5]

/-- The regression coefficients are not touched by `addPoint`. -/
theorem Calculator.coeffs_after (c : Calculator) (pts : List QPointF) :
    (c.addPoints pts).m = c.m ∧ (c.addPoints pts).b = c.b := by
  induction pts using List.reverseRecOn with
  | nil => simp [Calculator.addPoints]
  | append_singleton pts p ih =>
    rw [Calculator.addPoints_snoc]
    simpa [Calculator.addPoint] using ih

theorem Calculator.addPoint_extrema (c : Calculator) (p : QPointF) (h : c.count > 0) :
    (c.addPoint p).x.min = (if p.x < c.x.min then p.x else c.x.min) ∧
    (c.addPoint p).x.max = (if p.x > c.x.max then p.x else c.x.max) ∧
    (c.addPoint p).y.min = (if p.y < c.y.min then p.y else c.y.min) ∧
    (c.addPoint p).y.max = (if p.y > c.y.max then p.y else c.y.max) := by
  simp [Calculator.addPoint, h]

theorem Calculator.addPoint_mean (c : Calculator) (p : QPointF) :
    (c.addPoint p).x.mean = (c.addPoint p).x.sum / ((c.addPoint p).count : ℚ) ∧
    (c.addPoint p).y.mean = (c.addPoint p).y.sum / ((c.addPoint p).count : ℚ) := by
  simp [Calculator.addPoint]

/-- One step of a running minimum keeps "attained and a lower bound". -/
theorem running_min_step (f : QPointF → ℚ) (pts : List QPointF) (p : QPointF) (cur : ℚ)
    (hin : ∃ q ∈ pts, cur = f q) (hle : ∀ q ∈ pts, cur ≤ f q) :
    (∃ q ∈ pts ++ [p], (if f p < cur then f p else cur) = f q) ∧
    (∀ q ∈ pts ++ [p], (if f p < cur then f p else cur) ≤ f q) := by
  obtain ⟨a, ha, ea⟩ := hin
  constructor
  · split_ifs with h
    · exact ⟨p, by simp, rfl⟩
    · exact ⟨a, by simp [ha], ea⟩
  · intro q hq
    rcases List.mem_append.1 hq with hq | hq
    · have := hle q hq
      split_ifs with h <;> linarith
    · rw [List.mem_singleton] at hq
      subst hq
      split_ifs with h <;> linarith

/-- One step of a running maximum keeps "attained and an upper bound". -/
theorem running_max_step (f : QPointF → ℚ) (pts : List QPointF) (p : QPointF) (cur : ℚ)
    (hin : ∃ q ∈ pts, cur = f q) (hle : ∀ q ∈ pts, f q ≤ cur) :
    (∃ q ∈ pts ++ [p], (if f p > cur then f p else cur) = f q) ∧
    (∀ q ∈ pts ++ [p], f q ≤ (if f p > cur then f p else cur)) := by
  obtain ⟨a, ha, ea⟩ := hin
  constructor
  · split_ifs with h
    · exact ⟨p, by simp, rfl⟩
    · exact ⟨a, by simp [ha], ea⟩
  · intro q hq
    rcases List.mem_append.1 hq with hq | hq
    · have := hle q hq
      split_ifs with h <;> linarith
    · rw [List.mem_singleton] at hq
      subst hq
      split_ifs with h <;> linarith

/-- The mean, minimum and maximum of each axis after folding a non-empty list. -/
theorem Calculator.extrema_after (c0 : Calculator) (pts : List QPointF) (hne : pts ≠ []) :
    ((c0.initialise.addPoints pts).x.mean =
        (c0.initialise.addPoints pts).x.sum / ((c0.initialise.addPoints pts).count : ℚ) ∧
     (c0.initialise.addPoints pts).y.mean =
        (c0.initialise.addPoints pts).y.sum / ((c0.initialise.addPoints pts).count : ℚ)) ∧
    ((∃ p ∈ pts, (c0.initialise.addPoints pts).x.min = p.x) ∧
     (∀ p ∈ pts, (c0.initialise.addPoints pts).x.min ≤ p.x)) ∧
    ((∃ p ∈ pts, (c0.initialise.addPoints pts).x.max = p.x) ∧
     (∀ p ∈ pts, p.x ≤ (c0.initialise.addPoints pts).x.max)) ∧
    ((∃ p ∈ pts, (c0.initialise.addPoints pts).y.min = p.y) ∧
     (∀ p ∈ pts, (c0.initialise.addPoints pts).y.min ≤ p.y)) ∧
    ((∃ p ∈ pts, (c0.initialise.addPoints pts).y.max = p.y) ∧
     (∀ p ∈ pts, p.y ≤ (c0.initialise.addPoints pts).y.max)) := by
  induction pts using List.reverseRecOn with
  | nil => exact absurd rfl hne
  | append_singleton pts p ih =>
    have hcnt := (Calculator.sums_after c0 pts).1
    rw [Calculator.addPoints_snoc]
    refine ⟨Calculator.addPoint_mean _ _, ?_⟩
    by_cases hnil : pts = []
    · subst hnil
      simp [Calculator.addPoints, Calculator.addPoint, Calculator.initialise]
    · have hpos : (c0.initialise.addPoints pts).count > 0 := by
        rw [hcnt]
        have := List.length_pos.2 hnil
        omega
      obtain ⟨-, ⟨i1, l1⟩, ⟨i2, l2⟩, ⟨i3, l3⟩, ⟨i4, l4⟩⟩ := ih hnil
      obtain ⟨e1, e2, e3, e4⟩ := Calculator.addPoint_extrema _ p hpos
      rw [e1, e2, e3, e4]
      exact ⟨running_min_step (fun q => q.x) pts p _ i1 l1,
        running_max_step (fun q => q.x) pts p _ i2 l2,
        running_min_step (fun q => q.y) pts p _ i3 l3,
        running_max_step (fun q => q.y) pts p _ i4 l4⟩

theorem paintStats_filter (charttype : ChartType) (stats : List (Nat × Calculator)) :
    paintStats charttype (stats.filter (fun e => decide (2 ≤ e.2.count))) =
      paintStats charttype stats := by
  induction stats with
  | nil => rfl
  | cons e rest ih =>
    by_cases h : 2 ≤ e.2.count
    · simp [List.filter, h, paintStats, ih]
    · have h2 : e.2.count < 2 := by omega
      simp [List.filter, h, paintStats, ih, paintCalc, h2]

/-! ## Claims C1-C4: the Calculator -/

/-- C1: for a list of at least two points folded into a Calculator by `initialise`
and `addPoint`, `finalise` sets `m = (n*Sxy - Sx*Sy) / (n*Sxx - Sx*Sx)` and
`b = (Sy - m*Sx) / n`, the denominator being assumed non-zero. -/
theorem C1_finalise_slope_intercept (c0 : Calculator) (pts : List QPointF)
    (hlen : 2 ≤ pts.length)
    (_hden : (pts.length : ℚ) * sumXX pts - sumX pts * sumX pts ≠ 0) :
    (c0.initialise.addPoints pts).finalise.m =
      ((pts.length : ℚ) * sumXY pts - sumX pts * sumY pts) /
        ((pts.length : ℚ) * sumXX pts - sumX pts * sumX pts) ∧
    (c0.initialise.addPoints pts).finalise.b =
      (sumY pts - (c0.initialise.addPoints pts).finalise.m * sumX pts) / (pts.length : ℚ) := by
  obtain ⟨h1, h2, h3, h4, h5⟩ := Calculator.sums_after c0 pts
  simp [Calculator.finalise, hlen, h1, h2, h3, h4, h5]

theorem C1_witness :
    (Calculator.initialise ⟨7, 1, 1, 1, 1, ⟨1, 1, 1, 1⟩, ⟨1, 1, 1, 1⟩, 0, none, none, none⟩
        |>.addPoints [⟨0, 1⟩, ⟨1, 3⟩]).finalise.m =
      (((2 : Nat) : ℚ) * sumXY [⟨0, 1⟩, ⟨1, 3⟩] - sumX [⟨0, 1⟩, ⟨1, 3⟩] * sumY [⟨0, 1⟩, ⟨1, 3⟩]) /
        (((2 : Nat) : ℚ) * sumXX [⟨0, 1⟩, ⟨1, 3⟩] - sumX [⟨0, 1⟩, ⟨1, 3⟩] * sumX [⟨0, 1⟩, ⟨1, 3⟩]) ∧
    (Calculator.initialise ⟨7, 1, 1, 1, 1, ⟨1, 1, 1, 1⟩, ⟨1, 1, 1, 1⟩, 0, none, none, none⟩
        |>.addPoints [⟨0, 1⟩, ⟨1, 3⟩]).finalise.b =
      (sumY [⟨0, 1⟩, ⟨1, 3⟩] -
        (Calculator.initialise ⟨7, 1, 1, 1, 1, ⟨1, 1, 1, 1⟩, ⟨1, 1, 1, 1⟩, 0, none, none, none⟩
          |>.addPoints [⟨0, 1⟩, ⟨1, 3⟩]).finalise.m * sumX [⟨0, 1⟩, ⟨1, 3⟩]) / ((2 : Nat) : ℚ) :=
  C1_finalise_slope_intercept _ [⟨0, 1⟩, ⟨1, 3⟩] (by decide)
    (by norm_num [sumX, sumXX])

theorem Calculator.addPointsR_snoc (r : ℚ → ℚ) (c : Calculator) (pts : List QPointF)
    (p : QPointF) : c.addPointsR r (pts ++ [p]) = (c.addPointsR r pts).addPointR r p := by
  simp [Calculator.addPointsR, List.foldl_append]

/-- The counter, the minima and the maxima do not depend on the rounding. -/
theorem Calculator.addPointsR_frame (r : ℚ → ℚ) (c : Calculator) (pts : List QPointF) :
    (c.addPointsR r pts).count = (c.addPoints pts).count ∧
    (c.addPointsR r pts).x.min = (c.addPoints pts).x.min ∧
    (c.addPointsR r pts).x.max = (c.addPoints pts).x.max ∧
    (c.addPointsR r pts).y.min = (c.addPoints pts).y.min ∧
    (c.addPointsR r pts).y.max = (c.addPoints pts).y.max := by
  induction pts using List.reverseRecOn with
  | nil => exact ⟨rfl, rfl, rfl, rfl, rfl⟩
  | append_singleton pts p ih =>
    obtain ⟨h1, h2, h3, h4, h5⟩ := ih
    rw [Calculator.addPointsR_snoc, Calculator.addPoints_snoc]
    simp [Calculator.addPointR, Calculator.addPoint, h1, h2, h3, h4, h5]

/-- After a non-empty list the means are the rounded quotients of the sums by the counter. -/
theorem Calculator.addPointsR_mean (r : ℚ → ℚ) (c : Calculator) (pts : List QPointF)
    (hne : pts ≠ []) :
    (c.addPointsR r pts).x.mean =
      r ((c.addPointsR r pts).x.sum / r ((c.addPointsR r pts).count : ℚ)) ∧
    (c.addPointsR r pts).y.mean =
      r ((c.addPointsR r pts).y.sum / r ((c.addPointsR r pts).count : ℚ)) := by
  induction pts using List.reverseRecOn with
  | nil => exact absurd rfl hne
  | append_singleton pts p _ =>
    rw [Calculator.addPointsR_snoc]
    exact ⟨rfl, rfl⟩

/-- When no partial sum is changed by the rounding, the sums are the exact sums. -/
theorem Calculator.addPointsR_sums (r : ℚ → ℚ) (c0 : Calculator) (pts : List QPointF) :
    ((∀ k, k ≤ pts.length → r (sumX (pts.take k)) = sumX (pts.take k)) →
      (c0.initialise.addPointsR r pts).x.sum = sumX pts) ∧
    ((∀ k, k ≤ pts.length → r (sumY (pts.take k)) = sumY (pts.take k)) →
      (c0.initialise.addPointsR r pts).y.sum = sumY pts) := by
  induction pts using List.reverseRecOn with
  | nil =>
    exact ⟨fun _ => by simp [Calculator.addPointsR, Calculator.initialise, sumX],
      fun _ => by simp [Calculator.addPointsR, Calculator.initialise, sumY]⟩
  | append_singleton pts p ih =>
    obtain ⟨ihx, ihy⟩ := ih
    have htake : ∀ k, k ≤ pts.length → (pts ++ [p]).take k = pts.take k := by
      intro k hk
      rw [List.take_append_of_le_length hk]
    have hfull : (pts ++ [p]).take (pts ++ [p]).length = pts ++ [p] := List.take_length _
    constructor
    · intro h
      have hprev := ihx (fun k hk => by
        have := h k (by rw [List.length_append]; omega)
        rwa [htake k hk] at this)
      have hlast := h (pts ++ [p]).length le_rfl
      rw [hfull] at hlast
      rw [Calculator.addPointsR_snoc]
      show r ((c0.initialise.addPointsR r pts).x.sum + p.x) = _
      rw [hprev, ← sumX_snoc, hlast]
    · intro h
      have hprev := ihy (fun k hk => by
        have := h k (by rw [List.length_append]; omega)
        rwa [htake k hk] at this)
      have hlast := h (pts ++ [p]).length le_rfl
      rw [hfull] at hlast
      rw [Calculator.addPointsR_snoc]
      show r ((c0.initialise.addPointsR r pts).y.sum + p.y) = _
      rw [hprev, ← sumY_snoc, hlast]

/-- The running statistics over exact arithmetic. -/
theorem Calculator.running_exact (c0 : Calculator) (pts : List QPointF) (hne : pts ≠ []) :
    (c0.initialise.addPoints pts).count = (pts.length : Int) ∧
    ((c0.initialise.addPoints pts).x.sum = sumX pts ∧
     (c0.initialise.addPoints pts).y.sum = sumY pts) ∧
    ((c0.initialise.addPoints pts).x.mean = sumX pts / (pts.length : ℚ) ∧
     (c0.initialise.addPoints pts).y.mean = sumY pts / (pts.length : ℚ)) ∧
    ((∃ p ∈ pts, (c0.initialise.addPoints pts).x.min = p.x) ∧
     (∀ p ∈ pts, (c0.initialise.addPoints pts).x.min ≤ p.x)) ∧
    ((∃ p ∈ pts, (c0.initialise.addPoints pts).x.max = p.x) ∧
     (∀ p ∈ pts, p.x ≤ (c0.initialise.addPoints pts).x.max)) ∧
    ((∃ p ∈ pts, (c0.initialise.addPoints pts).y.min = p.y) ∧
     (∀ p ∈ pts, (c0.initialise.addPoints pts).y.min ≤ p.y)) ∧
    ((∃ p ∈ pts, (c0.initialise.addPoints pts).y.max = p.y) ∧
     (∀ p ∈ pts, p.y ≤ (c0.initialise.addPoints pts).y.max)) := by
  obtain ⟨h1, h2, h3, -, -⟩ := Calculator.sums_after c0 pts
  obtain ⟨⟨m1, m2⟩, hx1, hx2, hy1, hy2⟩ := Calculator.extrema_after c0 pts hne
  refine ⟨h1, ⟨h2, h3⟩, ⟨?_, ?_⟩, hx1, hx2, hy1, hy2⟩
  · rw [m1, h1, h2]; simp
  · rw [m2, h1, h3]; simp

/-- C2 (as amended): for a non-empty list of points folded into a Calculator by
`initialise` and `addPoint`, in the `double` arithmetic of the program `count` is the
length of the list, `min` and `max` of each axis are values of the coordinate that
occur in the list and bound all of them from below and above, `mean` is the `double`
quotient of `sum` by `count`, and `sum` is the sum of the coordinate whenever no
partial sum is changed by the rounding (each is a finite `double`); over exact
arithmetic `sum` is the sum of the coordinate and `mean` is `sum/count`. -/
theorem C2_running_statistics (c0 : Calculator) (pts : List QPointF) (hne : pts ≠ []) :
    (c0.initialise.addPointsR binary64 pts).count = (pts.length : Int) ∧
    ((c0.initialise.addPointsR binary64 pts).x.mean =
        binary64 ((c0.initialise.addPointsR binary64 pts).x.sum /
          binary64 ((pts.length : Int) : ℚ)) ∧
     (c0.initialise.addPointsR binary64 pts).y.mean =
        binary64 ((c0.initialise.addPointsR binary64 pts).y.sum /
          binary64 ((pts.length : Int) : ℚ))) ∧
    (((∀ k, k ≤ pts.length → binary64 (sumX (pts.take k)) = sumX (pts.take k) ∧
          |sumX (pts.take k)| < 2 ^ 1024) →
        (c0.initialise.addPointsR binary64 pts).x.sum = sumX pts) ∧
     ((∀ k, k ≤ pts.length → binary64 (sumY (pts.take k)) = sumY (pts.take k) ∧
          |sumY (pts.take k)| < 2 ^ 1024) →
        (c0.initialise.addPointsR binary64 pts).y.sum = sumY pts)) ∧
    ((∃ p ∈ pts, (c0.initialise.addPointsR binary64 pts).x.min = p.x) ∧
     (∀ p ∈ pts, (c0.initialise.addPointsR binary64 pts).x.min ≤ p.x)) ∧
    ((∃ p ∈ pts, (c0.initialise.addPointsR binary64 pts).x.max = p.x) ∧
     (∀ p ∈ pts, p.x ≤ (c0.initialise.addPointsR binary64 pts).x.max)) ∧
    ((∃ p ∈ pts, (c0.initialise.addPointsR binary64 pts).y.min = p.y) ∧
     (∀ p ∈ pts, (c0.initialise.addPointsR binary64 pts).y.min ≤ p.y)) ∧
    ((∃ p ∈ pts, (c0.initialise.addPointsR binary64 pts).y.max = p.y) ∧
     (∀ p ∈ pts, p.y ≤ (c0.initialise.addPointsR binary64 pts).y.max)) ∧
    ((c0.initialise.addPointsR id pts).count = (pts.length : Int) ∧
     (c0.initialise.addPointsR id pts).x.sum = sumX pts ∧
     (c0.initialise.addPointsR id pts).y.sum = sumY pts ∧
     (c0.initialise.addPointsR id pts).x.mean = sumX pts / (pts.length : ℚ) ∧
     (c0.initialise.addPointsR id pts).y.mean = sumY pts / (pts.length : ℚ)) := by
  obtain ⟨e1, ⟨e2, e3⟩, ⟨e4, e5⟩, hx1, hx2, hy1, hy2⟩ := Calculator.running_exact c0 pts hne
  obtain ⟨f1, f2, f3, f4, f5⟩ := Calculator.addPointsR_frame binary64 c0.initialise pts
  obtain ⟨m1, m2⟩ := Calculator.addPointsR_mean binary64 c0.initialise pts hne
  have hcount : (c0.initialise.addPointsR binary64 pts).count = (pts.length : Int) := f1.trans e1
  rw [hcount] at m1 m2
  rw [f2, f3, f4, f5]
  exact ⟨hcount, ⟨m1, m2⟩,
    ⟨fun h => (Calculator.addPointsR_sums binary64 c0 pts).1 (fun k hk => (h k hk).1),
      fun h => (Calculator.addPointsR_sums binary64 c0 pts).2 (fun k hk => (h k hk).1)⟩,
    hx1, hx2, hy1, hy2, e1, e2, e3, e4, e5⟩

theorem C2_witness :
    ([⟨3, 4⟩, ⟨1, 7⟩] : List QPointF) ≠ [] ∧
    (Calculator.initialise ⟨7, 1, 1, 1, 1, ⟨1, 1, 1, 1⟩, ⟨1, 1, 1, 1⟩, 0, none, none, none⟩
        |>.addPointsR binary64 [⟨3, 4⟩, ⟨1, 7⟩]).count = 2 ∧
    (Calculator.initialise ⟨7, 1, 1, 1, 1, ⟨1, 1, 1, 1⟩, ⟨1, 1, 1, 1⟩, 0, none, none, none⟩
        |>.addPointsR binary64 [⟨3, 4⟩, ⟨1, 7⟩]).x.sum = sumX [⟨3, 4⟩, ⟨1, 7⟩] ∧
    (Calculator.initialise ⟨7, 1, 1, 1, 1, ⟨1, 1, 1, 1⟩, ⟨1, 1, 1, 1⟩, 0, none, none, none⟩
        |>.addPointsR binary64 [⟨3, 4⟩, ⟨1, 7⟩]).y.sum = sumY [⟨3, 4⟩, ⟨1, 7⟩] :=
  ⟨by simp, (C2_running_statistics _ [⟨3, 4⟩, ⟨1, 7⟩] (by simp)).1,
    (C2_running_statistics _ [⟨3, 4⟩, ⟨1, 7⟩] (by simp)).2.2.1.1
      (by intro k hk; simp only [List.length_cons, List.length_nil] at hk
          interval_cases k <;> constructor <;> decide!),
    (C2_running_statistics _ [⟨3, 4⟩, ⟨1, 7⟩] (by simp)).2.2.1.2
      (by intro k hk; simp only [List.length_cons, List.length_nil] at hk
          interval_cases k <;> constructor <;> decide!)⟩

/-- C2 as stated fails: for the points with the x values `10^16`, `1` and `-10^16`, of
sum 1, the program leaves `x.sum = 0` and `x.mean = 0`, since the `double` sum
`10^16 + 1` is `10^16`; `sum` is not the sum of the coordinate and `mean` is not
`sum/count` of it. -/
theorem C2_counterexample :
    (Calculator.initialise ⟨7, 1, 1, 1, 1, ⟨1, 1, 1, 1⟩, ⟨1, 1, 1, 1⟩, 0, none, none, none⟩
        |>.addPointsR binary64 [⟨10000000000000000, 0⟩, ⟨1, 0⟩, ⟨-10000000000000000, 0⟩]).x.sum
      = 0 ∧
    (Calculator.initialise ⟨7, 1, 1, 1, 1, ⟨1, 1, 1, 1⟩, ⟨1, 1, 1, 1⟩, 0, none, none, none⟩
        |>.addPointsR binary64 [⟨10000000000000000, 0⟩, ⟨1, 0⟩, ⟨-10000000000000000, 0⟩]).x.mean
      = 0 ∧
    sumX [⟨10000000000000000, 0⟩, ⟨1, 0⟩, ⟨-10000000000000000, 0⟩] = 1 ∧
    binary64 (10000000000000000 + 1) = 10000000000000000 ∧
    binary64 10000000000000000 = 10000000000000000 ∧ binary64 1 = 1 := by
  refine ⟨?_, ?_, ?_, ?_, ?_, ?_⟩ <;> decide!

/-- C3: `initialise`, `addPoint((1,2))`, `addPoint((2,4))`, `addPoint((3,6))`, `finalise`
yields `x.mean = 2`, `y.mean = 4`, slope `m = 2` and intercept `b = 0`. -/
theorem C3_example_line (c0 : Calculator) :
    ((((c0.initialise.addPoint ⟨1, 2⟩).addPoint ⟨2, 4⟩).addPoint ⟨3, 6⟩).finalise).x.mean = 2 ∧
    ((((c0.initialise.addPoint ⟨1, 2⟩).addPoint ⟨2, 4⟩).addPoint ⟨3, 6⟩).finalise).y.mean = 4 ∧
    ((((c0.initialise.addPoint ⟨1, 2⟩).addPoint ⟨2, 4⟩).addPoint ⟨3, 6⟩).finalise).m = 2 ∧
    ((((c0.initialise.addPoint ⟨1, 2⟩).addPoint ⟨2, 4⟩).addPoint ⟨3, 6⟩).finalise).b = 0 := by
  simp [Calculator.initialise, Calculator.addPoint, Calculator.finalise]
  norm_num

/-- C4: for a Calculator initialised and given zero points or one point, `finalise`
changes nothing, so `m` and `b` keep the value 0 set by `initialise`; the painter
draws nothing for a statistics entry whose count is below 2, so what it draws is
what it draws for the entries of count 2 or more alone. -/
theorem C4_no_regression_below_two_points (c0 : Calculator) (pts : List QPointF)
    (hlen : pts.length ≤ 1) :
    (c0.initialise.addPoints pts).finalise = c0.initialise.addPoints pts ∧
    (c0.initialise.addPoints pts).finalise.m = 0 ∧
    (c0.initialise.addPoints pts).finalise.b = 0 ∧
    (∀ charttype, paintCalc charttype (c0.initialise.addPoints pts).finalise = []) ∧
    (∀ charttype (cal : Calculator), cal.count < 2 → paintCalc charttype cal = []) ∧
    (∀ t : SelectionTool,
      t.paintSelection =
        SelectionTool.paintSelection
          { t with stats := t.stats.filter (fun e => decide (2 ≤ e.2.count)) }) := by
  have hcnt := (Calculator.sums_after c0 pts).1
  have hlt : ¬ (c0.initialise.addPoints pts).count ≥ 2 := by rw [hcnt]; omega
  have hlt2 : (c0.initialise.addPoints pts).count < 2 := by omega
  have hfin : (c0.initialise.addPoints pts).finalise = c0.initialise.addPoints pts := by
    simp [Calculator.finalise, hlt]
  obtain ⟨hm, hb⟩ := Calculator.coeffs_after c0.initialise pts
  refine ⟨hfin, ?_, ?_, ?_, ?_, ?_⟩
  · rw [hfin, hm]; rfl
  · rw [hfin, hb]; rfl
  · intro ct; rw [hfin]; simp [paintCalc, hlt2]
  · intro ct cal h; simp [paintCalc, h]
  · intro t
    simp only [SelectionTool.paintSelection, paintStats_filter]

theorem C4_witness :
    (Calculator.initialise ⟨7, 1, 1, 1, 1, ⟨1, 1, 1, 1⟩, ⟨1, 1, 1, 1⟩, 0, none, none, none⟩
        |>.addPoints [⟨3, 4⟩]).finalise.m = 0 ∧
    (Calculator.initialise ⟨7, 1, 1, 1, 1, ⟨1, 1, 1, 1⟩, ⟨1, 1, 1, 1⟩, 0, none, none, none⟩
        |>.addPoints [⟨3, 4⟩]).finalise.b = 0 :=
  ⟨(C4_no_regression_below_two_points _ [⟨3, 4⟩] (by decide)).2.1,
   (C4_no_regression_below_two_points _ [⟨3, 4⟩] (by decide)).2.2.1⟩

/-! ## Claims C5-C10: the selection state machine -/

/-- The tool after `clicked(pos)` when the press starts a new sizing gesture. -/
theorem SelectionTool.clicked_sizing (t : SelectionTool) (pos : QPointF)
    (hmode : t.mode = Mode.RECTANGLE ∨ t.mode = Mode.XRANGE) (hnew : ¬ t.pressMoves pos) :
    t.clicked pos =
      ({ t with
          state := State.SIZING, start := pos, finish := ⟨0, 0⟩,
          rect := if t.mode = Mode.RECTANGLE then ⟨-5, -5, 5, 5⟩
                  else ⟨0, 0, 5, t.host.plotArea.height⟩,
          pos := if t.mode = Mode.RECTANGLE then pos else ⟨pos.x, t.host.plotArea.y⟩,
          drag := { interval := 400, singleShot := true, active := true } }, true) := by
  unfold SelectionTool.pressMoves at hnew
  rcases hmode with h | h
  · simp [SelectionTool.clicked, h, hnew]
  · simp [SelectionTool.clicked, h, hnew]

/-- C5 (as amended): in RECTANGLE or X-RANGE mode `clicked(pos)` returns true and, if
the state is ACTIVE and `pos` lies inside the region, only sets the state to MOVING,
the anchor to `pos` and the origin to the item position; in every other case it sets
the state to SIZING, the anchor to `pos`, arms the one-shot timer with 400 ms and
replaces the region by a seed 5 pixels wide: in RECTANGLE mode the rectangle
`(-5,-5,5,5)` at item position `pos`, in X-RANGE mode the rectangle
`(0,0,5,plot height)` at item position `(pos.x, plot top)`. -/
theorem C5_clicked_transition (t : SelectionTool) (pos : QPointF)
    (hmode : t.mode = Mode.RECTANGLE ∨ t.mode = Mode.XRANGE) :
    (t.clicked pos).2 = true ∧
    (t.pressMoves pos →
      (t.clicked pos).1 = { t with state := State.MOVING, start := pos, startingpos := t.pos }) ∧
    (¬ t.pressMoves pos →
      (t.clicked pos).1.state = State.SIZING ∧ (t.clicked pos).1.start = pos ∧
      (t.clicked pos).1.drag = { interval := 400, singleShot := true, active := true } ∧
      (t.clicked pos).1.rect.width = 5 ∧
      (t.mode = Mode.RECTANGLE →
        (t.clicked pos).1.rect = ⟨-5, -5, 5, 5⟩ ∧ (t.clicked pos).1.pos = pos) ∧
      (t.mode = Mode.XRANGE →
        (t.clicked pos).1.rect = ⟨0, 0, 5, t.host.plotArea.height⟩ ∧
        (t.clicked pos).1.pos = ⟨pos.x, t.host.plotArea.y⟩)) := by
  refine ⟨?_, ?_, ?_⟩
  · by_cases h : t.pressMoves pos
    · have h2 := h
      unfold SelectionTool.pressMoves at h2
      rcases hmode with hm | hm <;> simp [SelectionTool.clicked, hm, h2]
    · rw [SelectionTool.clicked_sizing t pos hmode h]
  · intro h
    unfold SelectionTool.pressMoves at h
    rcases hmode with hm | hm <;> simp [SelectionTool.clicked, hm, h]
  · intro h
    rw [SelectionTool.clicked_sizing t pos hmode h]
    refine ⟨rfl, rfl, rfl, ?_, ?_, ?_⟩
    · rcases hmode with hm | hm <;> simp [hm]
    · intro hm; simp [hm]
    · intro hm; simp [hm]

theorem C5_witness :
    ((SelectionTool.new exampleHost).clicked ⟨20, 30⟩).2 = true ∧
    ((SelectionTool.new exampleHost).pressMoves ⟨20, 30⟩ →
      ((SelectionTool.new exampleHost).clicked ⟨20, 30⟩).1 =
        { SelectionTool.new exampleHost with
          state := State.MOVING, start := ⟨20, 30⟩,
          startingpos := (SelectionTool.new exampleHost).pos }) ∧
    (¬ (SelectionTool.new exampleHost).pressMoves ⟨20, 30⟩ →
      ((SelectionTool.new exampleHost).clicked ⟨20, 30⟩).1.state = State.SIZING ∧
      ((SelectionTool.new exampleHost).clicked ⟨20, 30⟩).1.start = ⟨20, 30⟩ ∧
      ((SelectionTool.new exampleHost).clicked ⟨20, 30⟩).1.drag =
        { interval := 400, singleShot := true, active := true } ∧
      ((SelectionTool.new exampleHost).clicked ⟨20, 30⟩).1.rect.width = 5 ∧
      ((SelectionTool.new exampleHost).mode = Mode.RECTANGLE →
        ((SelectionTool.new exampleHost).clicked ⟨20, 30⟩).1.rect = ⟨-5, -5, 5, 5⟩ ∧
        ((SelectionTool.new exampleHost).clicked ⟨20, 30⟩).1.pos = ⟨20, 30⟩) ∧
      ((SelectionTool.new exampleHost).mode = Mode.XRANGE →
        ((SelectionTool.new exampleHost).clicked ⟨20, 30⟩).1.rect =
          ⟨0, 0, 5, (SelectionTool.new exampleHost).host.plotArea.height⟩ ∧
        ((SelectionTool.new exampleHost).clicked ⟨20, 30⟩).1.pos =
          ⟨(⟨20, 30⟩ : QPointF).x, (SelectionTool.new exampleHost).host.plotArea.y⟩)) :=
  C5_clicked_transition (SelectionTool.new exampleHost) ⟨20, 30⟩ (Or.inl rfl)

/-- C5 as stated fails: in X-RANGE mode a press at `(20,30)` on a chart whose plot
area starts at `y = 10` starts a sizing gesture, and the seed is placed at `(20,10)`,
not at the press position. -/
theorem C5_counterexample :
    ({ SelectionTool.new exampleHost with mode := Mode.XRANGE } : SelectionTool).mode = Mode.XRANGE ∧
    ¬ SelectionTool.pressMoves { SelectionTool.new exampleHost with mode := Mode.XRANGE } ⟨20, 30⟩ ∧
    (SelectionTool.clicked { SelectionTool.new exampleHost with mode := Mode.XRANGE } ⟨20, 30⟩).1.state
      = State.SIZING ∧
    (SelectionTool.clicked { SelectionTool.new exampleHost with mode := Mode.XRANGE } ⟨20, 30⟩).1.pos
      = ⟨20, 10⟩ ∧
    (SelectionTool.clicked { SelectionTool.new exampleHost with mode := Mode.XRANGE } ⟨20, 30⟩).1.pos
      ≠ ⟨20, 30⟩ ∧
    (SelectionTool.clicked { SelectionTool.new exampleHost with mode := Mode.XRANGE } ⟨20, 30⟩).1.rect
      = ⟨0, 0, 5, 50⟩ := by
  refine ⟨rfl, ?_, ?_, ?_, ?_, ?_⟩ <;>
    simp [SelectionTool.pressMoves, SelectionTool.new, SelectionTool.clicked, exampleHost]

/-- The tool after `clicked(p0)` then `moved(p1)` when the press starts a new sizing gesture. -/
theorem SelectionTool.clicked_moved_sizing (t : SelectionTool) (p0 p1 : QPointF)
    (hmode : t.mode = Mode.RECTANGLE ∨ t.mode = Mode.XRANGE) (hnew : ¬ t.pressMoves p0) :
    (t.clicked p0).1.moved p1 =
      some ({ t with
          state := State.SIZING, start := p0, finish := p1,
          rect := if t.mode = Mode.RECTANGLE then ⟨0, 0, p1.x - p0.x, p1.y - p0.y⟩
                  else ⟨0, 0, p1.x - p0.x, t.host.plotArea.height⟩,
          pos := if t.mode = Mode.RECTANGLE then p0 else ⟨p0.x, t.host.plotArea.y⟩,
          drag := { interval := 400, singleShot := true, active := false } }, true) := by
  rw [SelectionTool.clicked_sizing t p0 hmode hnew]
  rcases hmode with h | h
  · simp [SelectionTool.moved, h, QRectF.ofCorners, QPointF.sub]
  · simp [SelectionTool.moved, h, QRectF.setWidth]

/-- What `released` does to a tool that is not DRAGGING, by the test of line 619. -/
theorem SelectionTool.released_not_dragging (t : SelectionTool) (pos : QPointF)
    (hmode : t.mode = Mode.RECTANGLE ∨ t.mode = Mode.XRANGE) (hstate : t.state ≠ State.DRAGGING) :
    (t.tiny → t.released pos = (t.reset.1, true)) ∧
    (¬ t.tiny → t.state = State.SIZING ∨ t.state = State.MOVING →
      t.released pos = ({ t with state := State.ACTIVE }, true)) := by
  constructor
  · intro h
    unfold SelectionTool.tiny at h
    unfold SelectionTool.released
    rw [if_pos hmode, if_neg hstate, if_pos h]
  · intro h hs
    unfold SelectionTool.tiny at h
    unfold SelectionTool.released
    rw [if_pos hmode, if_neg hstate, if_neg h, if_pos hs]

/-- A difference of at least 10 in absolute value is outside the open interval `(-10, 10)`. -/
theorem not_within_ten (d : ℚ) (h : 10 ≤ |d|) : ¬ (d < 10 ∧ d > -10) := by
  rintro ⟨a, b⟩
  exact absurd (abs_lt.2 ⟨b, a⟩) (not_lt.2 h)

/-- The facts about the tool after `clicked(p0)` then `moved(p1)` used below. -/
theorem SelectionTool.clicked_moved_facts (t : SelectionTool) (p0 p1 : QPointF)
    (hmode : t.mode = Mode.RECTANGLE ∨ t.mode = Mode.XRANGE) (hnew : ¬ t.pressMoves p0) :
    ∃ t2, (t.clicked p0).1.moved p1 = some (t2, true) ∧ t2.state = State.SIZING ∧
      t2.mode = t.mode ∧ t2.rect.width = p1.x - p0.x ∧
      (t.mode = Mode.RECTANGLE → t2.rect = ⟨0, 0, p1.x - p0.x, p1.y - p0.y⟩ ∧ t2.pos = p0) := by
  refine ⟨_, SelectionTool.clicked_moved_sizing t p0 p1 hmode hnew, rfl, rfl, ?_, ?_⟩
  · rcases hmode with h | h <;> simp [h]
  · intro h; simp [h]

/-- C6: in RECTANGLE or X-RANGE mode, when the press starts a new sizing gesture and
`p1` differs from `p0` by at least 10 pixels in a required dimension (x or y in
RECTANGLE mode, x in X-RANGE mode), `clicked(p0)`, `moved(p1)`, `released(p1)` all
return and leave the state ACTIVE. -/
theorem C6_press_move_release_active (t : SelectionTool) (p0 p1 : QPointF)
    (hmode : t.mode = Mode.RECTANGLE ∨ t.mode = Mode.XRANGE) (hnew : ¬ t.pressMoves p0)
    (hfar : (t.mode = Mode.RECTANGLE ∧ (10 ≤ |p1.x - p0.x| ∨ 10 ≤ |p1.y - p0.y|)) ∨
            (t.mode = Mode.XRANGE ∧ 10 ≤ |p1.x - p0.x|)) :
    (t.pressMoveRelease p0 p1).map (fun r => r.state) = some State.ACTIVE := by
  obtain ⟨t2, h2, hs, hm2, hw, hr⟩ := SelectionTool.clicked_moved_facts t p0 p1 hmode hnew
  have hnt : ¬ t2.tiny := by
    intro htiny
    unfold SelectionTool.tiny at htiny
    obtain ⟨a, b, c⟩ := htiny
    rw [hw] at a b
    rcases hfar with ⟨hm, hd⟩ | ⟨hm, hd⟩
    · rcases c with c | ⟨c, d⟩
      · rw [hm2, hm] at c
        exact absurd c (by decide)
      · rw [(hr hm).1] at c d
        rcases hd with hd | hd
        · exact not_within_ten _ hd ⟨a, b⟩
        · exact not_within_ten _ hd ⟨c, d⟩
    · exact not_within_ten _ hd ⟨a, b⟩
  have hrel := (SelectionTool.released_not_dragging t2 p1 (hm2 ▸ hmode)
    (by rw [hs]; decide)).2 hnt (Or.inl hs)
  unfold SelectionTool.pressMoveRelease
  rw [h2]
  simp only [Option.map_some', hrel]

theorem C6_witness :
    ((SelectionTool.new exampleHost).pressMoveRelease ⟨0, 0⟩ ⟨-3, 40⟩).map (fun r => r.state)
      = some State.ACTIVE :=
  C6_press_move_release_active (SelectionTool.new exampleHost) ⟨0, 0⟩ ⟨-3, 40⟩ (Or.inl rfl)
    (by simp [SelectionTool.pressMoves, SelectionTool.new])
    (Or.inl ⟨rfl, Or.inr (by norm_num)⟩)

/-- C7 (as amended): in RECTANGLE mode, when the press starts a new sizing gesture and
`p1` is at least 10 pixels from `p0` in x or in y, after `clicked(p0)`, `moved(p1)`,
`released(p1)` the rectangle read back is `(0, 0, p1.x - p0.x, p1.y - p0.y)` at item
position `p0`: in the scene it has the corners `p0` and `p1`, and it is not normalized,
its width (height) being non-negative exactly when `p1` is not left of (above) `p0`. -/
theorem C7_region_spans_corners (t : SelectionTool) (p0 p1 : QPointF)
    (hmode : t.mode = Mode.RECTANGLE) (hnew : ¬ t.pressMoves p0)
    (hfar : 10 ≤ |p1.x - p0.x| ∨ 10 ≤ |p1.y - p0.y|) :
    ∃ r, t.pressMoveRelease p0 p1 = some r ∧ r.state = State.ACTIVE ∧
      r.boundingRect = ⟨0, 0, p1.x - p0.x, p1.y - p0.y⟩ ∧ r.pos = p0 ∧
      r.sceneBoundingRect.topLeft = p0 ∧ r.sceneBoundingRect.bottomRight = p1 ∧
      (0 ≤ r.boundingRect.width ↔ p0.x ≤ p1.x) ∧
      (0 ≤ r.boundingRect.height ↔ p0.y ≤ p1.y) := by
  obtain ⟨t2, h2, hs, hm2, -, hr⟩ :=
    SelectionTool.clicked_moved_facts t p0 p1 (Or.inl hmode) hnew
  obtain ⟨hrect, hpos⟩ := hr hmode
  have hnt : ¬ t2.tiny := by
    intro htiny
    unfold SelectionTool.tiny at htiny
    rw [hrect] at htiny
    obtain ⟨a, b, c⟩ := htiny
    rcases c with c | ⟨c, d⟩
    · rw [hm2, hmode] at c
      exact absurd c (by decide)
    · rcases hfar with hd | hd
      · exact not_within_ten _ hd ⟨a, b⟩
      · exact not_within_ten _ hd ⟨c, d⟩
  have hrel := (SelectionTool.released_not_dragging t2 p1 (Or.inl (hm2.trans hmode))
    (by rw [hs]; decide)).2 hnt (Or.inl hs)
  refine ⟨{ t2 with state := State.ACTIVE }, ?_, rfl, ?_, hpos, ?_, ?_, ?_, ?_⟩
  · unfold SelectionTool.pressMoveRelease
    rw [h2]
    simp only [hrel]
  · simpa [SelectionTool.boundingRect] using hrect
  · simp [SelectionTool.sceneBoundingRect, SelectionTool.boundingRect, QRectF.translated,
      QRectF.topLeft, hrect, hpos]
  · simp [SelectionTool.sceneBoundingRect, SelectionTool.boundingRect, QRectF.translated,
      QRectF.bottomRight, hrect, hpos]
  · simp [SelectionTool.boundingRect, hrect]
  · simp [SelectionTool.boundingRect, hrect]

theorem C7_witness :
    ∃ r, (SelectionTool.new exampleHost).pressMoveRelease ⟨20, 20⟩ ⟨50, 5⟩ = some r ∧
      r.state = State.ACTIVE ∧
      r.boundingRect = ⟨0, 0, (50 : ℚ) - 20, (5 : ℚ) - 20⟩ ∧ r.pos = ⟨20, 20⟩ ∧
      r.sceneBoundingRect.topLeft = ⟨20, 20⟩ ∧ r.sceneBoundingRect.bottomRight = ⟨50, 5⟩ ∧
      (0 ≤ r.boundingRect.width ↔ (20 : ℚ) ≤ 50) ∧
      (0 ≤ r.boundingRect.height ↔ (20 : ℚ) ≤ 5) :=
  C7_region_spans_corners (SelectionTool.new exampleHost) ⟨20, 20⟩ ⟨50, 5⟩ rfl
    (by simp [SelectionTool.pressMoves, SelectionTool.new])
    (Or.inl (by norm_num))

/-- C7 as stated fails: from the constructed tool (RECTANGLE mode), `clicked((20,20))`,
`moved((0,0))`, `released((0,0))` leaves the state ACTIVE and the rectangle read back
is `(0, 0, -20, -20)`, of negative width and height. -/
theorem C7_counterexample :
    ∃ r, (SelectionTool.new exampleHost).pressMoveRelease ⟨20, 20⟩ ⟨0, 0⟩ = some r ∧
      r.state = State.ACTIVE ∧ r.boundingRect = ⟨0, 0, -20, -20⟩ ∧
      ¬ (0 ≤ r.boundingRect.width ∧ 0 ≤ r.boundingRect.height) := by
  refine ⟨_, rfl, ?_, ?_, ?_⟩ <;>
    simp [SelectionTool.pressMoveRelease, SelectionTool.new, SelectionTool.clicked,
      SelectionTool.moved, SelectionTool.released, SelectionTool.sceneBoundingRect,
      SelectionTool.boundingRect, QRectF.ofCorners, QPointF.sub] <;> norm_num

/-- The loop body of `resetSelections` changes nothing but the chart of the host. -/
theorem SelectionTool.resetSelectionOf_frame (t : SelectionTool) (x : QAbstractSeries) :
    t.resetSelectionOf x = t.withHost (t.resetSelectionOf x).host := by
  unfold SelectionTool.resetSelectionOf SelectionTool.withHost
  split_ifs
  · rfl
  · split <;> rfl
  · rfl

/-- The loop of `resetSelections` changes nothing but the chart of the host. -/
theorem SelectionTool.resetSelections_loop_frame (xs : List QAbstractSeries) (t : SelectionTool) :
    xs.foldl SelectionTool.resetSelectionOf t =
      t.withHost (xs.foldl SelectionTool.resetSelectionOf t).host := by
  induction xs generalizing t with
  | nil => rfl
  | cons x rest ih =>
    simp only [List.foldl_cons]
    have e2 : (t.resetSelectionOf x).withHost
          (rest.foldl SelectionTool.resetSelectionOf (t.resetSelectionOf x)).host =
        (t.withHost (t.resetSelectionOf x).host).withHost
          (rest.foldl SelectionTool.resetSelectionOf (t.resetSelectionOf x)).host :=
      congrArg (fun u => SelectionTool.withHost u
        (rest.foldl SelectionTool.resetSelectionOf (t.resetSelectionOf x)).host)
        (SelectionTool.resetSelectionOf_frame t x)
    exact (ih (t.resetSelectionOf x)).trans (e2.trans rfl)

/-- After `reset` the state is INACTIVE and the rectangle is zero. -/
theorem SelectionTool.reset_state_rect (t : SelectionTool) :
    t.reset.1.state = State.INACTIVE ∧ t.reset.1.rect = ⟨0, 0, 0, 0⟩ := by
  unfold SelectionTool.reset SelectionTool.resetSelections
  simp only []
  split_ifs
  · rw [SelectionTool.resetSelections_loop_frame]
    exact ⟨rfl, rfl⟩
  · exact ⟨rfl, rfl⟩

/-- After `clicked` in RECTANGLE or X-RANGE mode the mode is the same and the state is
MOVING or SIZING. -/
theorem SelectionTool.clicked_mode_state (t : SelectionTool) (p : QPointF)
    (hmode : t.mode = Mode.RECTANGLE ∨ t.mode = Mode.XRANGE) :
    (t.clicked p).1.mode = t.mode ∧
    ((t.clicked p).1.state = State.MOVING ∨ (t.clicked p).1.state = State.SIZING) := by
  by_cases h : t.pressMoves p
  · have h2 := h
    unfold SelectionTool.pressMoves at h2
    rcases hmode with hm | hm <;> simp [SelectionTool.clicked, hm, h2]
  · rw [SelectionTool.clicked_sizing t p hmode h]
    exact ⟨rfl, Or.inr rfl⟩

/-- C8: in RECTANGLE or X-RANGE mode, `clicked(p)` immediately followed by
`released(p)` leaves the state INACTIVE and the rectangle zero whenever the rectangle
after the press is below the 10 pixel threshold; and it is below the threshold
whenever the press starts a new sizing gesture. -/
theorem C8_press_release_inactive (t : SelectionTool) (p : QPointF)
    (hmode : t.mode = Mode.RECTANGLE ∨ t.mode = Mode.XRANGE) :
    ((t.clicked p).1.tiny →
      ((t.clicked p).1.released p).1.state = State.INACTIVE ∧
      ((t.clicked p).1.released p).1.rect = ⟨0, 0, 0, 0⟩ ∧
      ((t.clicked p).1.released p).2 = true) ∧
    (¬ t.pressMoves p → (t.clicked p).1.tiny) := by
  obtain ⟨hm, hs⟩ := SelectionTool.clicked_mode_state t p hmode
  constructor
  · intro htiny
    have hnd : (t.clicked p).1.state ≠ State.DRAGGING := by
      rcases hs with hs | hs <;> rw [hs] <;> decide
    rw [(SelectionTool.released_not_dragging (t.clicked p).1 p (hm ▸ hmode) hnd).1 htiny]
    exact ⟨(SelectionTool.reset_state_rect _).1, (SelectionTool.reset_state_rect _).2, rfl⟩
  · intro hnew
    rw [SelectionTool.clicked_sizing t p hmode hnew]
    unfold SelectionTool.tiny
    rcases hmode with h | h
    · simp [h]; norm_num
    · simp [h]; norm_num

theorem C8_witness :
    ((SelectionTool.clicked { SelectionTool.new exampleHost with mode := Mode.XRANGE } ⟨3, 4⟩).1.tiny →
      ((SelectionTool.clicked { SelectionTool.new exampleHost with mode := Mode.XRANGE }
          ⟨3, 4⟩).1.released ⟨3, 4⟩).1.state = State.INACTIVE ∧
      ((SelectionTool.clicked { SelectionTool.new exampleHost with mode := Mode.XRANGE }
          ⟨3, 4⟩).1.released ⟨3, 4⟩).1.rect = ⟨0, 0, 0, 0⟩ ∧
      ((SelectionTool.clicked { SelectionTool.new exampleHost with mode := Mode.XRANGE }
          ⟨3, 4⟩).1.released ⟨3, 4⟩).2 = true) ∧
    (¬ SelectionTool.pressMoves { SelectionTool.new exampleHost with mode := Mode.XRANGE } ⟨3, 4⟩ →
      (SelectionTool.clicked { SelectionTool.new exampleHost with mode := Mode.XRANGE } ⟨3, 4⟩).1.tiny) :=
  C8_press_release_inactive { SelectionTool.new exampleHost with mode := Mode.XRANGE } ⟨3, 4⟩
    (Or.inr rfl)

/-- C9: in RECTANGLE or X-RANGE mode, `dragStart` turns the state SIZING into DRAGGING
and changes nothing in any other state; `released` in state DRAGGING sets the state to
INACTIVE and the rectangle to zero whatever the position, so after the timer fired in
SIZING a release commits no selection. -/
theorem C9_drag_then_release (t : SelectionTool) (pos : QPointF)
    (hmode : t.mode = Mode.RECTANGLE ∨ t.mode = Mode.XRANGE) :
    (t.state = State.SIZING → t.dragStart.state = State.DRAGGING) ∧
    (t.state ≠ State.SIZING → t.dragStart = t) ∧
    (t.state = State.DRAGGING →
      (t.released pos).1.state = State.INACTIVE ∧ (t.released pos).1.rect = ⟨0, 0, 0, 0⟩ ∧
      (t.released pos).2 = true) ∧
    (t.state = State.SIZING →
      (t.dragStart.released pos).1.state = State.INACTIVE ∧
      (t.dragStart.released pos).1.rect = ⟨0, 0, 0, 0⟩) := by
  refine ⟨?_, ?_, ?_, ?_⟩
  · intro hs
    simp [SelectionTool.dragStart, hmode, hs]
  · intro hs
    simp [SelectionTool.dragStart, hs]
  · intro hs
    simp [SelectionTool.released, hmode, hs]
  · intro hs
    simp [SelectionTool.dragStart, SelectionTool.released, hmode, hs]

theorem C9_witness :
    (((SelectionTool.new exampleHost).clicked ⟨3, 4⟩).1.state = State.SIZING ∧
      ((SelectionTool.new exampleHost).clicked ⟨3, 4⟩).1.dragStart.state = State.DRAGGING ∧
      ((((SelectionTool.new exampleHost).clicked ⟨3, 4⟩).1.dragStart.released ⟨70, 80⟩).1.state
          = State.INACTIVE ∧
        (((SelectionTool.new exampleHost).clicked ⟨3, 4⟩).1.dragStart.released ⟨70, 80⟩).1.rect
          = ⟨0, 0, 0, 0⟩)) ∧
    (SelectionTool.new exampleHost).dragStart = SelectionTool.new exampleHost ∧
    ((SelectionTool.clicked { SelectionTool.new exampleHost with mode := Mode.XRANGE }
          ⟨3, 4⟩).1.dragStart.state = State.DRAGGING ∧
      ((SelectionTool.clicked { SelectionTool.new exampleHost with mode := Mode.XRANGE }
          ⟨3, 4⟩).1.dragStart.released ⟨70, 80⟩).1.state = State.INACTIVE ∧
      ((SelectionTool.clicked { SelectionTool.new exampleHost with mode := Mode.XRANGE }
          ⟨3, 4⟩).1.dragStart.released ⟨70, 80⟩).1.rect = ⟨0, 0, 0, 0⟩ ∧
      ((SelectionTool.clicked { SelectionTool.new exampleHost with mode := Mode.XRANGE }
          ⟨3, 4⟩).1.dragStart.released ⟨70, 80⟩).2 = true) :=
  ⟨⟨by decide,
      (C9_drag_then_release ((SelectionTool.new exampleHost).clicked ⟨3, 4⟩).1 ⟨70, 80⟩
        (Or.inl (by decide))).1 (by decide),
      (C9_drag_then_release ((SelectionTool.new exampleHost).clicked ⟨3, 4⟩).1 ⟨70, 80⟩
        (Or.inl (by decide))).2.2.2 (by decide)⟩,
    (C9_drag_then_release (SelectionTool.new exampleHost) ⟨70, 80⟩
      (Or.inl (by decide))).2.1 (by decide),
    (C9_drag_then_release
      (SelectionTool.clicked { SelectionTool.new exampleHost with mode := Mode.XRANGE }
        ⟨3, 4⟩).1 ⟨70, 80⟩ (Or.inr (by decide))).1 (by decide),
    (C9_drag_then_release
      (SelectionTool.clicked { SelectionTool.new exampleHost with mode := Mode.XRANGE }
        ⟨3, 4⟩).1.dragStart ⟨70, 80⟩ (Or.inr (by decide))).2.2.1 (by decide)⟩

/-- Without rounding, `wheelR` is `wheel`. -/
theorem SelectionTool.wheelR_id (t : SelectionTool) (delta : Int) :
    t.wheelR id delta = t.wheel delta := by
  unfold SelectionTool.wheelR SelectionTool.wheel QRectF.scaleSizeR QRectF.scaleSize
  norm_num

/-- The `double` values of the literals `0.9` and `1.1`. -/
theorem binary64_wheel_literals :
    binary64 (9 / 10) = 8106479329266893 / 9007199254740992 ∧
    binary64 (11 / 10) = 2476979795053773 / 2251799813685248 := by
  constructor <;> decide!

/-- The product of `w` and the `double` `c` that stands for the factor `k`, rounded to
`double`, is within `|w| / 2^52` of `w * k` (and `2^-1075` in the subnormal range)
when `c` is as close to `k` as the `double` literals of `wheel` are to 0.9 and 1.1. -/
theorem scale_error (w k c : ℚ) (hc : |c| / 2 ^ 53 + |c - k| ≤ 1 / 2 ^ 52) :
    |binary64 (w * c) - w * k| ≤ |w| / 2 ^ 52 + 1 / 2 ^ 1075 := by
  have h1 := binary64_error (w * c)
  have h2 : |binary64 (w * c) - w * k| ≤ |binary64 (w * c) - w * c| + |w * c - w * k| :=
    abs_sub_le _ _ _
  have h3 : |w * c - w * k| = |w| * |c - k| := by rw [← mul_sub, abs_mul]
  have h4 : |w * c| = |w| * |c| := abs_mul w c
  have h5 : |w| * (|c| / 2 ^ 53 + |c - k|) ≤ |w| * (1 / 2 ^ 52) :=
    mul_le_mul_of_nonneg_left hc (abs_nonneg w)
  rw [h3] at h2
  rw [h4] at h1
  have h6 : |w| * |c| / 2 ^ 53 = |w| * (|c| / 2 ^ 53) := by ring
  have h7 : |w| / 2 ^ 52 = |w| * (1 / 2 ^ 52) := by ring
  rw [h7]
  rw [h6] at h1
  have h8 : |w| * (|c| / 2 ^ 53 + |c - k|) = |w| * (|c| / 2 ^ 53) + |w| * |c - k| := by ring
  linarith

/-- A value within the rounding error of `w * k`, for a factor `k` of at most 11/10 and
`|w| < 2^1023`, is below `2^1024` in magnitude: the product does not overflow. -/
theorem scale_finite (w k v : ℚ) (hk0 : 0 ≤ k) (hk : k ≤ 11 / 10) (hw : |w| < 2 ^ 1023)
    (hb : |v - w * k| ≤ |w| / 2 ^ 52 + 1 / 2 ^ 1075) : |v| < 2 ^ 1024 := by
  have h1 : |v| ≤ |v - w * k| + |w * k| := by
    have := abs_add (v - w * k) (w * k)
    simpa using this
  have h2 : |w * k| = |w| * k := by rw [abs_mul, abs_of_nonneg hk0]
  have h3 : |w| * k ≤ |w| * (11 / 10) := mul_le_mul_of_nonneg_left hk (abs_nonneg w)
  have h4 : |w| / 2 ^ 52 ≤ |w| / 10 := by
    apply div_le_div_of_nonneg_left (abs_nonneg w) (by norm_num) (by norm_num)
  have h5 : (1 : ℚ) / 2 ^ 1075 < 1 := by
    rw [div_lt_one (by positivity)]
    exact one_lt_pow₀ (by norm_num) (by norm_num)
  have h6 : (2 : ℚ) ^ 1024 = 2 * 2 ^ 1023 := by rw [pow_succ]; ring
  have h7 : (1 : ℚ) ≤ 2 ^ 1023 := one_le_pow₀ (by norm_num)
  rw [h2] at h1
  rw [h6]
  linarith

/-- What `wheel` does in RECTANGLE mode with state ACTIVE, whatever the rounding. -/
theorem SelectionTool.wheelR_active (r : ℚ → ℚ) (t : SelectionTool) (delta : Int)
    (hmode : t.mode = Mode.RECTANGLE) (hactive : t.state = State.ACTIVE) :
    (delta < 0 →
      (t.wheelR r delta).1.rect.width = r (t.rect.width * r (9 / 10)) ∧
      (t.wheelR r delta).1.rect.height = r (t.rect.height * r (9 / 10)) ∧
      (t.wheelR r delta).1.state = State.ACTIVE ∧ (t.wheelR r delta).2 = true) ∧
    (delta > 0 →
      (t.wheelR r delta).1.rect.width = r (t.rect.width * r (11 / 10)) ∧
      (t.wheelR r delta).1.rect.height = r (t.rect.height * r (11 / 10)) ∧
      (t.wheelR r delta).1.state = State.ACTIVE ∧ (t.wheelR r delta).2 = true) := by
  constructor
  · intro hd
    simp [SelectionTool.wheelR, hmode, hactive, hd, QRectF.scaleSizeR]
  · intro hd
    have hn : ¬ delta < 0 := by omega
    simp [SelectionTool.wheelR, hmode, hactive, hn, QRectF.scaleSizeR]

/-- C10 (as amended): in RECTANGLE mode with state ACTIVE, `wheel(delta)` with
`delta < 0` multiplies the width and the height of the region by the `double` literal
`0.9`, and with `delta > 0` by the `double` literal `1.1`, each product rounded to
`double`: for a width and a height below `2^1023` in magnitude the new width and
height are finite and within a relative `2^-52` (and `2^-1075` in the subnormal
range) of 9/10, respectively 11/10, of the old ones, not always equal to them; over
exact arithmetic
they are exactly 9/10, respectively 11/10, of the old ones.  The state stays ACTIVE. -/
theorem C10_wheel_scales (t : SelectionTool) (delta : Int)
    (hmode : t.mode = Mode.RECTANGLE) (hactive : t.state = State.ACTIVE)
    (hfinite : |t.rect.width| < 2 ^ 1023 ∧ |t.rect.height| < 2 ^ 1023) :
    (delta < 0 →
      (t.wheelR binary64 delta).1.rect.width =
        binary64 (t.rect.width * binary64 (9 / 10)) ∧
      (t.wheelR binary64 delta).1.rect.height =
        binary64 (t.rect.height * binary64 (9 / 10)) ∧
      |(t.wheelR binary64 delta).1.rect.width - t.rect.width * (9 / 10)| ≤
        |t.rect.width| / 2 ^ 52 + 1 / 2 ^ 1075 ∧
      |(t.wheelR binary64 delta).1.rect.height - t.rect.height * (9 / 10)| ≤
        |t.rect.height| / 2 ^ 52 + 1 / 2 ^ 1075 ∧
      |(t.wheelR binary64 delta).1.rect.width| < 2 ^ 1024 ∧
      |(t.wheelR binary64 delta).1.rect.height| < 2 ^ 1024 ∧
      (t.wheelR binary64 delta).1.state = State.ACTIVE) ∧
    (delta > 0 →
      (t.wheelR binary64 delta).1.rect.width =
        binary64 (t.rect.width * binary64 (11 / 10)) ∧
      (t.wheelR binary64 delta).1.rect.height =
        binary64 (t.rect.height * binary64 (11 / 10)) ∧
      |(t.wheelR binary64 delta).1.rect.width - t.rect.width * (11 / 10)| ≤
        |t.rect.width| / 2 ^ 52 + 1 / 2 ^ 1075 ∧
      |(t.wheelR binary64 delta).1.rect.height - t.rect.height * (11 / 10)| ≤
        |t.rect.height| / 2 ^ 52 + 1 / 2 ^ 1075 ∧
      |(t.wheelR binary64 delta).1.rect.width| < 2 ^ 1024 ∧
      |(t.wheelR binary64 delta).1.rect.height| < 2 ^ 1024 ∧
      (t.wheelR binary64 delta).1.state = State.ACTIVE) ∧
    (delta < 0 →
      (t.wheelR id delta).1.rect.width = t.rect.width * (9 / 10) ∧
      (t.wheelR id delta).1.rect.height = t.rect.height * (9 / 10) ∧
      (t.wheelR id delta).1.state = State.ACTIVE) ∧
    (delta > 0 →
      (t.wheelR id delta).1.rect.width = t.rect.width * (11 / 10) ∧
      (t.wheelR id delta).1.rect.height = t.rect.height * (11 / 10) ∧
      (t.wheelR id delta).1.state = State.ACTIVE) := by
  obtain ⟨l9, l11⟩ := binary64_wheel_literals
  have hc9 : |binary64 (9 / 10)| / 2 ^ 53 + |binary64 (9 / 10) - 9 / 10| ≤ (1 : ℚ) / 2 ^ 52 := by
    rw [l9]
    norm_num [abs_of_pos, abs_of_neg]
  have hc11 : |binary64 (11 / 10)| / 2 ^ 53 + |binary64 (11 / 10) - 11 / 10| ≤
      (1 : ℚ) / 2 ^ 52 := by
    rw [l11]
    norm_num [abs_of_pos, abs_of_neg]
  obtain ⟨b1, b2⟩ := SelectionTool.wheelR_active binary64 t delta hmode hactive
  obtain ⟨i1, i2⟩ := SelectionTool.wheelR_active id t delta hmode hactive
  refine ⟨?_, ?_, ?_, ?_⟩
  · intro hd
    obtain ⟨w, h, st, -⟩ := b1 hd
    have ew : |(t.wheelR binary64 delta).1.rect.width - t.rect.width * (9 / 10)| ≤
        |t.rect.width| / 2 ^ 52 + 1 / 2 ^ 1075 := by
      rw [w]; exact scale_error _ _ _ hc9
    have eh : |(t.wheelR binary64 delta).1.rect.height - t.rect.height * (9 / 10)| ≤
        |t.rect.height| / 2 ^ 52 + 1 / 2 ^ 1075 := by
      rw [h]; exact scale_error _ _ _ hc9
    exact ⟨w, h, ew, eh,
      scale_finite _ _ _ (by norm_num) (by norm_num) hfinite.1 ew,
      scale_finite _ _ _ (by norm_num) (by norm_num) hfinite.2 eh, st⟩
  · intro hd
    obtain ⟨w, h, st, -⟩ := b2 hd
    have ew : |(t.wheelR binary64 delta).1.rect.width - t.rect.width * (11 / 10)| ≤
        |t.rect.width| / 2 ^ 52 + 1 / 2 ^ 1075 := by
      rw [w]; exact scale_error _ _ _ hc11
    have eh : |(t.wheelR binary64 delta).1.rect.height - t.rect.height * (11 / 10)| ≤
        |t.rect.height| / 2 ^ 52 + 1 / 2 ^ 1075 := by
      rw [h]; exact scale_error _ _ _ hc11
    exact ⟨w, h, ew, eh,
      scale_finite _ _ _ (by norm_num) (by norm_num) hfinite.1 ew,
      scale_finite _ _ _ (by norm_num) (by norm_num) hfinite.2 eh, st⟩
  · intro hd
    obtain ⟨w, h, st, -⟩ := i1 hd
    exact ⟨w, h, st⟩
  · intro hd
    obtain ⟨w, h, st, -⟩ := i2 hd
    exact ⟨w, h, st⟩

theorem C10_witness :
    (|(SelectionTool.wheelR binary64 { SelectionTool.new exampleHost with
          state := State.ACTIVE, rect := ⟨0, 0, 100, 50⟩ } (-1)).1.rect.width
        - (100 : ℚ) * (9 / 10)| ≤ |(100 : ℚ)| / 2 ^ 52 + 1 / 2 ^ 1075 ∧
      (SelectionTool.wheelR binary64 { SelectionTool.new exampleHost with
          state := State.ACTIVE, rect := ⟨0, 0, 100, 50⟩ } (-1)).1.state = State.ACTIVE) ∧
    (|(SelectionTool.wheelR binary64 { SelectionTool.new exampleHost with
          state := State.ACTIVE, rect := ⟨0, 0, 100, 50⟩ } 1).1.rect.width
        - (100 : ℚ) * (11 / 10)| ≤ |(100 : ℚ)| / 2 ^ 52 + 1 / 2 ^ 1075 ∧
      (SelectionTool.wheelR binary64 { SelectionTool.new exampleHost with
          state := State.ACTIVE, rect := ⟨0, 0, 100, 50⟩ } 1).1.state = State.ACTIVE) ∧
    (SelectionTool.wheelR id { SelectionTool.new exampleHost with
        state := State.ACTIVE, rect := ⟨0, 0, 100, 50⟩ } 1).1.rect.width
      = (100 : ℚ) * (11 / 10) :=
  ⟨⟨((C10_wheel_scales
        { SelectionTool.new exampleHost with state := State.ACTIVE, rect := ⟨0, 0, 100, 50⟩ }
        (-1) rfl rfl (by constructor <;> norm_num [abs_of_pos])).1 (by decide)).2.2.1,
      ((C10_wheel_scales
        { SelectionTool.new exampleHost with state := State.ACTIVE, rect := ⟨0, 0, 100, 50⟩ }
        (-1) rfl rfl (by constructor <;> norm_num [abs_of_pos])).1 (by decide)).2.2.2.2.2.2⟩,
    ⟨((C10_wheel_scales
        { SelectionTool.new exampleHost with state := State.ACTIVE, rect := ⟨0, 0, 100, 50⟩ }
        1 rfl rfl (by constructor <;> norm_num [abs_of_pos])).2.1 (by decide)).2.2.1,
      ((C10_wheel_scales
        { SelectionTool.new exampleHost with state := State.ACTIVE, rect := ⟨0, 0, 100, 50⟩ }
        1 rfl rfl (by constructor <;> norm_num [abs_of_pos])).2.1 (by decide)).2.2.2.2.2.2⟩,
    ((C10_wheel_scales
        { SelectionTool.new exampleHost with state := State.ACTIVE, rect := ⟨0, 0, 100, 50⟩ }
        1 rfl rfl (by constructor <;> norm_num [abs_of_pos])).2.2.2 (by decide)).1⟩

/-- C10 as stated fails: for the active region `(0,0,100,50)` a `wheel(1)` leaves the
width `100 * 1.1 = 110.00000000000001421...` and the height `55.0000000000000071...`
in `double` arithmetic, not exactly 11/10 of 100 and of 50. -/
theorem C10_counterexample :
    (SelectionTool.wheelR binary64 { SelectionTool.new exampleHost with
        state := State.ACTIVE, rect := ⟨0, 0, 100, 50⟩ } 1).1.rect.width
      = 7740561859543041 / 70368744177664 ∧
    (SelectionTool.wheelR binary64 { SelectionTool.new exampleHost with
        state := State.ACTIVE, rect := ⟨0, 0, 100, 50⟩ } 1).1.rect.height
      = 7740561859543041 / 140737488355328 ∧
    (7740561859543041 : ℚ) / 70368744177664 ≠ 100 * (11 / 10) ∧
    (7740561859543041 : ℚ) / 140737488355328 ≠ 50 * (11 / 10) := by
  refine ⟨by decide!, by decide!, by norm_num, by norm_num⟩

/-! ## Claims C11-C12: wheel outside ACTIVE, reset -/

/-- C11: in every state other than ACTIVE and for every delta, `wheel(delta)` leaves
the whole tool (state, rectangle and every other member) unchanged and returns false. -/
theorem C11_wheel_inactive_noop (t : SelectionTool) (delta : Int)
    (hstate : t.state ≠ State.ACTIVE) : t.wheel delta = (t, false) := by
  unfold SelectionTool.wheel
  split_ifs <;> rfl

theorem C11_witness :
    SelectionTool.wheel { SelectionTool.new exampleHost with
        state := State.SIZING, rect := ⟨0, 0, 100, 50⟩ } 1 =
      ({ SelectionTool.new exampleHost with state := State.SIZING, rect := ⟨0, 0, 100, 50⟩ }, false) :=
  C11_wheel_inactive_noop
    { SelectionTool.new exampleHost with state := State.SIZING, rect := ⟨0, 0, 100, 50⟩ } 1
    (by decide)

/-- What `resetSelections` leaves in the members other than the host. -/
theorem SelectionTool.resetSelections_members (t : SelectionTool) :
    t.resetSelections.selections = [] ∧ t.resetSelections.ignore = [] ∧
    t.resetSelections.stats = [] ∧
    t.resetSelections.state = t.state ∧ t.resetSelections.mode = t.mode ∧
    t.resetSelections.start = t.start ∧ t.resetSelections.finish = t.finish ∧
    t.resetSelections.rect = t.rect ∧ t.resetSelections.hoverpoint = t.hoverpoint ∧
    t.resetSelections.hoverseries = t.hoverseries ∧
    t.resetSelections.hoverpoints = t.hoverpoints := by
  unfold SelectionTool.resetSelections
  dsimp only
  by_cases h : t.selections.length ≠ 0
  · rw [if_pos h, SelectionTool.resetSelections_loop_frame]
    exact ⟨rfl, rfl, rfl, rfl, rfl, rfl, rfl, rfl, rfl, rfl, rfl⟩
  · rw [if_neg h]
    have hnil : t.selections = [] := List.length_eq_zero.1 (not_not.1 h)
    exact ⟨hnil, rfl, rfl, rfl, rfl, rfl, rfl, rfl, rfl, rfl, rfl⟩

/-- C12: from every state of the tool, `reset()` leaves the state INACTIVE, `start` and
`finish` at `(0,0)`, the rectangle `(0,0,0,0)`, no hover point, no hover series, no
hover points, empty `selections`, `ignore` and `stats`, and the mode as it was. -/
theorem C12_reset_clears (t : SelectionTool) :
    t.reset.1.state = State.INACTIVE ∧
    t.reset.1.start = ⟨0, 0⟩ ∧ t.reset.1.finish = ⟨0, 0⟩ ∧
    t.reset.1.rect = ⟨0, 0, 0, 0⟩ ∧
    t.reset.1.hoverpoint = ⟨0, 0⟩ ∧ t.reset.1.hoverseries = none ∧
    t.reset.1.hoverpoints = [] ∧
    t.reset.1.selections = [] ∧ t.reset.1.ignore = [] ∧ t.reset.1.stats = [] ∧
    t.reset.1.mode = t.mode ∧ t.reset.2 = true := by
  unfold SelectionTool.reset
  simp only []
  obtain ⟨h1, h2, h3, h4, h5, h6, h7, h8, h9, h10, h11⟩ :=
    SelectionTool.resetSelections_members
      { t with
        state := State.INACTIVE, start := ⟨0, 0⟩, finish := ⟨0, 0⟩, rect := ⟨0, 0, 0, 0⟩,
        hoverpoint := ⟨0, 0⟩, hoverseries := none, hoverpoints := [] }
  exact ⟨h4, h6, h7, h8, h9, h10, h11, h1, h2, h3, h5, trivial⟩

/-! ## Claim C13: the statistics published by `updateScene` -/

/-- The calculator the selection loop leaves is the one fed the points that pass the test. -/
theorem selectPoint_fold_calc (f : QPointF → Bool) (pts : List QPointF)
    (acc : List QPointF × Calculator) :
    (pts.foldl (selectPoint f) acc).2 = acc.2.addPoints (pts.filter f) := by
  induction pts generalizing acc with
  | nil => rfl
  | cons p rest ih =>
    simp only [List.foldl_cons]
    rw [ih]
    by_cases h : f p = true
    · simp [selectPoint, h, List.filter, Calculator.addPoints]
    · simp [selectPoint, h, List.filter]

theorem statsInsert_lookup_self (k : Nat) (v : Calculator) (l : List (Nat × Calculator)) :
    (statsInsert k v l).lookup k = some v := by
  induction l with
  | nil => simp [statsInsert, List.lookup]
  | cons e rest ih =>
    obtain ⟨k1, v1⟩ := e
    unfold statsInsert
    split_ifs with h1 h2
    · simp [List.lookup]
    · simp [List.lookup]
    · have hne : (k == k1) = false := by simpa using h2
      simp [List.lookup, hne, ih]

theorem statsInsert_lookup_other (k k2 : Nat) (v : Calculator) (l : List (Nat × Calculator))
    (hne : k2 ≠ k) : (statsInsert k v l).lookup k2 = l.lookup k2 := by
  have hk : (k2 == k) = false := by simpa using hne
  induction l with
  | nil => simp [statsInsert, List.lookup, hk]
  | cons e rest ih =>
    obtain ⟨k1, v1⟩ := e
    unfold statsInsert
    split_ifs with h1 h2
    · simp [List.lookup, hk]
    · subst h2
      simp [List.lookup, hk]
    · by_cases h3 : (k2 == k1) = true
      · simp [List.lookup, h3]
      · have h4 : (k2 == k1) = false := by simpa using h3
        simp [List.lookup, h4, ih]

/-- A new address is above every address on the chart. -/
theorem Host.lt_freshId (h : Host) (id : Nat) (hid : id ∈ h.ids) : id < h.freshId := by
  unfold Host.freshId
  unfold Host.ids at hid
  have key : ∀ (l : List Nat) (a : Nat), (a ≤ l.foldl max a) ∧ ∀ b ∈ l, b ≤ l.foldl max a := by
    intro l
    induction l with
    | nil => intro a; simp
    | cons c rest ih =>
      intro a
      simp only [List.foldl_cons]
      obtain ⟨h1, h2⟩ := ih (max a c)
      refine ⟨le_trans (le_max_left a c) h1, ?_⟩
      intro b hb
      rcases List.mem_cons.1 hb with hb | hb
      · subst hb; exact le_trans (le_max_right a b) h1
      · exact h2 b hb
  have := (key (h.series.map (fun s => s.id)) 0).2 id hid
  omega

/-- What `selectionFor` keeps and what it changes. -/
theorem SelectionTool.selectionFor_facts (t : SelectionTool) (y : QAbstractSeries)
    (xa ya : Option AxisRef) :
    (t.selectionFor y xa ya).1.pos = t.pos ∧ (t.selectionFor y xa ya).1.rect = t.rect ∧
    (t.selectionFor y xa ya).1.host.mapToValue = t.host.mapToValue ∧
    (t.selectionFor y xa ya).1.stats = t.stats ∧
    (∀ id, id ∈ t.host.ids → id ∈ (t.selectionFor y xa ya).1.host.ids) ∧
    (∀ id, id ∈ t.host.ids → id ∉ t.ignore → id ∉ (t.selectionFor y xa ya).1.ignore) ∧
    (∀ id, id ≠ y.id →
      (t.selectionFor y xa ya).1.selections.lookup id = t.selections.lookup id) ∧
    (t.selectionFor y xa ya).2.color = t.selectionColor y := by
  unfold SelectionTool.selectionFor SelectionTool.selectionColor
  cases hl : t.selections.lookup y.id with
  | some sel =>
    exact ⟨rfl, rfl, rfl, rfl, fun _ h => h, fun _ _ h => h, fun _ _ => rfl, rfl⟩
  | none =>
    refine ⟨rfl, rfl, rfl, rfl, ?_, ?_, ?_, rfl⟩
    · intro id hid
      unfold Host.ids at hid ⊢
      simp only [List.map_append, List.mem_append]
      left
      by_cases hgl : y.useOpenGL = true
      · simpa [hgl] using hid
      · simp only [hgl]
        rw [List.mem_map] at hid ⊢
        obtain ⟨s0, hs0, he⟩ := hid
        simp only [List.mem_map, Bool.false_eq_true, if_false]
        by_cases hsy : s0.id = y.id
        · exact ⟨{ s0 with color := QtGray }, ⟨s0, hs0, by simp [hsy]⟩, he⟩
        · exact ⟨s0, ⟨s0, hs0, by simp [hsy]⟩, he⟩
    · intro id hid hni
      have hlt := Host.lt_freshId t.host id hid
      simp only [List.mem_append, List.mem_singleton, not_or]
      exact ⟨hni, by omega⟩
    · intro id hne
      have hb : (id == y.id) = false := by simpa using hne
      simp [List.lookup, hb]

/-- What `publishSelection` keeps and what it changes. -/
theorem SelectionTool.publishSelection_facts (t : SelectionTool) (y sel : QAbstractSeries)
    (xa ya : Option AxisRef) (f : QPointF → Bool) :
    (t.publishSelection y sel xa ya f).pos = t.pos ∧
    (t.publishSelection y sel xa ya f).rect = t.rect ∧
    (t.publishSelection y sel xa ya f).host.mapToValue = t.host.mapToValue ∧
    (t.publishSelection y sel xa ya f).ignore = t.ignore ∧
    (t.publishSelection y sel xa ya f).selections = t.selections ∧
    (t.publishSelection y sel xa ya f).host.ids = t.host.ids ∧
    (t.publishSelection y sel xa ya f).stats =
      statsInsert y.id ((Calculator.fresh sel.color xa ya y.id).addPoints
        (y.points.filter f)).finalise t.stats := by
  refine ⟨rfl, rfl, rfl, rfl, rfl, ?_, ?_⟩
  · unfold SelectionTool.publishSelection Host.ids
    simp only [List.map_map]
    apply List.map_congr_left
    intro s0 _
    simp only [Function.comp]
    split_ifs <;> rfl
  · unfold SelectionTool.publishSelection
    simp only [selectPoint_fold_calc]

/-- One pass of the loop of `updateScene` either leaves the tool as it is or ends in
`publishSelection` with the overlay series of `selectionFor`. -/
theorem SelectionTool.updateSceneSeries_cases (t : SelectionTool) (y : QAbstractSeries) :
    t.updateSceneSeries y = t ∨
    ∃ f, t.updateSceneSeries y =
      SelectionTool.publishSelection
        (t.selectionFor y (y.attachedAxes.find? (fun ax => !ax.vertical))
          (y.attachedAxes.find? (fun ax => ax.vertical))).1 y
        (t.selectionFor y (y.attachedAxes.find? (fun ax => !ax.vertical))
          (y.attachedAxes.find? (fun ax => ax.vertical))).2
        (y.attachedAxes.find? (fun ax => !ax.vertical))
        (y.attachedAxes.find? (fun ax => ax.vertical)) f := by
  unfold SelectionTool.updateSceneSeries
  by_cases h1 : t.ignore.contains y.id = true
  · left; rw [if_pos h1]
  · rw [if_neg h1]
    by_cases h2 : y.points.length < 1
    · left
      cases y.type <;> simp only [h2, if_true]
    · cases y.type
      · right; exact ⟨t.inLineBounds y.id, by simp only [h2, if_false]⟩
      · right; exact ⟨t.inScatterBounds y.id, by simp only [h2, if_false]⟩
      · left; rfl

/-- One pass of the loop of `updateScene` for a scatter series with points that is not
an overlay series. -/
theorem SelectionTool.updateSceneSeries_scatter (t : SelectionTool) (x : QAbstractSeries)
    (hni : x.id ∉ t.ignore) (hty : x.type = SeriesType.SeriesTypeScatter)
    (hpts : x.points ≠ []) :
    t.updateSceneSeries x =
      SelectionTool.publishSelection
        (t.selectionFor x (x.attachedAxes.find? (fun ax => !ax.vertical))
          (x.attachedAxes.find? (fun ax => ax.vertical))).1 x
        (t.selectionFor x (x.attachedAxes.find? (fun ax => !ax.vertical))
          (x.attachedAxes.find? (fun ax => ax.vertical))).2
        (x.attachedAxes.find? (fun ax => !ax.vertical))
        (x.attachedAxes.find? (fun ax => ax.vertical)) (t.inScatterBounds x.id) := by
  unfold SelectionTool.updateSceneSeries
  have h1 : ¬ (t.ignore.contains x.id = true) := by simpa using hni
  have h2 : ¬ (x.points.length < 1) := by
    have := List.length_pos.2 hpts
    omega
  rw [if_neg h1]
  simp only [hty, h2, if_false]

/-- What one pass of the loop of `updateScene` keeps, whatever the series `y`. -/
theorem SelectionTool.updateSceneSeries_frame (t : SelectionTool) (y : QAbstractSeries) :
    (t.updateSceneSeries y).pos = t.pos ∧ (t.updateSceneSeries y).rect = t.rect ∧
    (t.updateSceneSeries y).host.mapToValue = t.host.mapToValue ∧
    (∀ id, id ∈ t.host.ids → id ∈ (t.updateSceneSeries y).host.ids) ∧
    (∀ id, id ∈ t.host.ids → id ∉ t.ignore → id ∉ (t.updateSceneSeries y).ignore) ∧
    (∀ id, id ≠ y.id →
      (t.updateSceneSeries y).selections.lookup id = t.selections.lookup id ∧
      (t.updateSceneSeries y).stats.lookup id = t.stats.lookup id) := by
  have hsame : (t.pos = t.pos ∧ t.rect = t.rect ∧ t.host.mapToValue = t.host.mapToValue ∧
      (∀ id, id ∈ t.host.ids → id ∈ t.host.ids) ∧
      (∀ id, id ∈ t.host.ids → id ∉ t.ignore → id ∉ t.ignore) ∧
      (∀ id, id ≠ y.id →
        t.selections.lookup id = t.selections.lookup id ∧ t.stats.lookup id = t.stats.lookup id)) :=
    ⟨rfl, rfl, rfl, fun _ h => h, fun _ _ h => h, fun _ _ => ⟨rfl, rfl⟩⟩
  have hpub : ∀ (f : QPointF → Bool),
      (SelectionTool.publishSelection
          (t.selectionFor y (y.attachedAxes.find? (fun ax => !ax.vertical))
            (y.attachedAxes.find? (fun ax => ax.vertical))).1 y
          (t.selectionFor y (y.attachedAxes.find? (fun ax => !ax.vertical))
            (y.attachedAxes.find? (fun ax => ax.vertical))).2
          (y.attachedAxes.find? (fun ax => !ax.vertical))
          (y.attachedAxes.find? (fun ax => ax.vertical)) f).pos = t.pos ∧
      (SelectionTool.publishSelection
          (t.selectionFor y (y.attachedAxes.find? (fun ax => !ax.vertical))
            (y.attachedAxes.find? (fun ax => ax.vertical))).1 y
          (t.selectionFor y (y.attachedAxes.find? (fun ax => !ax.vertical))
            (y.attachedAxes.find? (fun ax => ax.vertical))).2
          (y.attachedAxes.find? (fun ax => !ax.vertical))
          (y.attachedAxes.find? (fun ax => ax.vertical)) f).rect = t.rect ∧
      (SelectionTool.publishSelection
          (t.selectionFor y (y.attachedAxes.find? (fun ax => !ax.vertical))
            (y.attachedAxes.find? (fun ax => ax.vertical))).1 y
          (t.selectionFor y (y.attachedAxes.find? (fun ax => !ax.vertical))
            (y.attachedAxes.find? (fun ax => ax.vertical))).2
          (y.attachedAxes.find? (fun ax => !ax.vertical))
          (y.attachedAxes.find? (fun ax => ax.vertical)) f).host.mapToValue = t.host.mapToValue ∧
      (∀ id, id ∈ t.host.ids → id ∈ (SelectionTool.publishSelection
          (t.selectionFor y (y.attachedAxes.find? (fun ax => !ax.vertical))
            (y.attachedAxes.find? (fun ax => ax.vertical))).1 y
          (t.selectionFor y (y.attachedAxes.find? (fun ax => !ax.vertical))
            (y.attachedAxes.find? (fun ax => ax.vertical))).2
          (y.attachedAxes.find? (fun ax => !ax.vertical))
          (y.attachedAxes.find? (fun ax => ax.vertical)) f).host.ids) ∧
      (∀ id, id ∈ t.host.ids → id ∉ t.ignore → id ∉ (SelectionTool.publishSelection
          (t.selectionFor y (y.attachedAxes.find? (fun ax => !ax.vertical))
            (y.attachedAxes.find? (fun ax => ax.vertical))).1 y
          (t.selectionFor y (y.attachedAxes.find? (fun ax => !ax.vertical))
            (y.attachedAxes.find? (fun ax => ax.vertical))).2
          (y.attachedAxes.find? (fun ax => !ax.vertical))
          (y.attachedAxes.find? (fun ax => ax.vertical)) f).ignore) ∧
      (∀ id, id ≠ y.id →
        (SelectionTool.publishSelection
          (t.selectionFor y (y.attachedAxes.find? (fun ax => !ax.vertical))
            (y.attachedAxes.find? (fun ax => ax.vertical))).1 y
          (t.selectionFor y (y.attachedAxes.find? (fun ax => !ax.vertical))
            (y.attachedAxes.find? (fun ax => ax.vertical))).2
          (y.attachedAxes.find? (fun ax => !ax.vertical))
          (y.attachedAxes.find? (fun ax => ax.vertical)) f).selections.lookup id =
            t.selections.lookup id ∧
        (SelectionTool.publishSelection
          (t.selectionFor y (y.attachedAxes.find? (fun ax => !ax.vertical))
            (y.attachedAxes.find? (fun ax => ax.vertical))).1 y
          (t.selectionFor y (y.attachedAxes.find? (fun ax => !ax.vertical))
            (y.attachedAxes.find? (fun ax => ax.vertical))).2
          (y.attachedAxes.find? (fun ax => !ax.vertical))
          (y.attachedAxes.find? (fun ax => ax.vertical)) f).stats.lookup id =
            t.stats.lookup id) := by
    intro f
    obtain ⟨s1, s2, s3, s4, s5, s6, s7, -⟩ := SelectionTool.selectionFor_facts t y
      (y.attachedAxes.find? (fun ax => !ax.vertical)) (y.attachedAxes.find? (fun ax => ax.vertical))
    obtain ⟨p1, p2, p3, p4, p5, p6, p7⟩ := SelectionTool.publishSelection_facts
      (t.selectionFor y (y.attachedAxes.find? (fun ax => !ax.vertical))
        (y.attachedAxes.find? (fun ax => ax.vertical))).1 y
      (t.selectionFor y (y.attachedAxes.find? (fun ax => !ax.vertical))
        (y.attachedAxes.find? (fun ax => ax.vertical))).2
      (y.attachedAxes.find? (fun ax => !ax.vertical))
      (y.attachedAxes.find? (fun ax => ax.vertical)) f
    refine ⟨p1.trans s1, p2.trans s2, p3.trans s3, ?_, ?_, ?_⟩
    · intro id hid
      rw [p6]
      exact s5 id hid
    · intro id hid hni
      rw [p4]
      exact s6 id hid hni
    · intro id hne
      refine ⟨?_, ?_⟩
      · rw [p5]
        exact s7 id hne
      · rw [p7, statsInsert_lookup_other _ _ _ _ hne, s4]
  rcases SelectionTool.updateSceneSeries_cases t y with h | ⟨f, h⟩
  · rw [h]; exact hsame
  · rw [h]; exact hpub f

/-- The passes of the loop of `updateScene` over series other than `x` keep what the
pass for `x` reads. -/
theorem SelectionTool.updateScene_loop_before (x : QAbstractSeries)
    (pre : List QAbstractSeries) (t : SelectionTool)
    (hpre : ∀ y ∈ pre, y.id ≠ x.id) (hin : x.id ∈ t.host.ids) (hni : x.id ∉ t.ignore) :
    (pre.foldl SelectionTool.updateSceneSeries t).pos = t.pos ∧
    (pre.foldl SelectionTool.updateSceneSeries t).rect = t.rect ∧
    (pre.foldl SelectionTool.updateSceneSeries t).host.mapToValue = t.host.mapToValue ∧
    x.id ∈ (pre.foldl SelectionTool.updateSceneSeries t).host.ids ∧
    x.id ∉ (pre.foldl SelectionTool.updateSceneSeries t).ignore ∧
    (pre.foldl SelectionTool.updateSceneSeries t).selections.lookup x.id =
      t.selections.lookup x.id := by
  induction pre generalizing t with
  | nil => exact ⟨rfl, rfl, rfl, hin, hni, rfl⟩
  | cons y rest ih =>
    simp only [List.foldl_cons]
    obtain ⟨f1, f2, f3, f4, f5, f6⟩ := SelectionTool.updateSceneSeries_frame t y
    have hne : x.id ≠ y.id := fun h => hpre y (List.mem_cons_self y rest) h.symm
    obtain ⟨g1, g2, g3, g4, g5, g6⟩ := ih (t.updateSceneSeries y)
      (fun z hz => hpre z (List.mem_cons_of_mem y hz)) (f4 x.id hin) (f5 x.id hin hni)
    exact ⟨g1.trans f1, g2.trans f2, g3.trans f3, g4, g5, g6.trans (f6 x.id hne).1⟩

/-- The passes of the loop of `updateScene` over series other than `x` keep the entry
of `x` in `stats`. -/
theorem SelectionTool.updateScene_loop_after (x : QAbstractSeries)
    (post : List QAbstractSeries) (t : SelectionTool) (hpost : ∀ y ∈ post, y.id ≠ x.id) :
    (post.foldl SelectionTool.updateSceneSeries t).stats.lookup x.id = t.stats.lookup x.id := by
  induction post generalizing t with
  | nil => rfl
  | cons y rest ih =>
    simp only [List.foldl_cons]
    have hne : x.id ≠ y.id := fun h => hpost y (List.mem_cons_self y rest) h.symm
    rw [ih (t.updateSceneSeries y) (fun z hz => hpost z (List.mem_cons_of_mem y hz))]
    exact ((SelectionTool.updateSceneSeries_frame t y).2.2.2.2.2 x.id hne).2

/-- The test on the points of a scatter series reads the position, the rectangle and
the coordinate mapping only. -/
theorem SelectionTool.inScatterBounds_congr (t t2 : SelectionTool) (h1 : t2.pos = t.pos)
    (h2 : t2.rect = t.rect) (h3 : t2.host.mapToValue = t.host.mapToValue) (id : Nat) :
    t2.inScatterBounds id = t.inScatterBounds id := by
  funext p
  unfold SelectionTool.inScatterBounds SelectionTool.xBounds SelectionTool.yBounds
    SelectionTool.minx SelectionTool.maxx SelectionTool.miny SelectionTool.maxy
  rw [h1, h2, h3]

theorem SelectionTool.selectionColor_congr (t t2 : SelectionTool) (x : QAbstractSeries)
    (h : t2.selections.lookup x.id = t.selections.lookup x.id) :
    t2.selectionColor x = t.selectionColor x := by
  unfold SelectionTool.selectionColor
  rw [h]

/-- The entry `updateScene` publishes for a scatter series of the chart. -/
theorem SelectionTool.updateScene_scatter_stats (t : SelectionTool) (x : QAbstractSeries)
    (hstate : t.state ≠ State.INACTIVE) (hdistinct : t.host.ids.Nodup)
    (hx : x ∈ t.host.series) (hni : x.id ∉ t.ignore)
    (hty : x.type = SeriesType.SeriesTypeScatter) (hpts : x.points ≠ []) :
    t.updateScene.stats.lookup x.id =
      some ((Calculator.fresh (t.selectionColor x)
          (x.attachedAxes.find? (fun ax => !ax.vertical))
          (x.attachedAxes.find? (fun ax => ax.vertical)) x.id).addPoints
        (x.points.filter (t.inScatterBounds x.id))).finalise := by
  unfold SelectionTool.updateScene
  rw [if_pos hstate]
  obtain ⟨pre, post, hsplit⟩ := List.append_of_mem hx
  have hids : t.host.ids = pre.map (fun s => s.id) ++ x.id :: post.map (fun s => s.id) := by
    unfold Host.ids
    rw [hsplit]
    simp
  rw [hids] at hdistinct
  have hnd := List.nodup_append.1 hdistinct
  have hpre : ∀ y ∈ pre, y.id ≠ x.id := by
    intro y hy heq
    exact hnd.2.2 (List.mem_map.2 ⟨y, hy, rfl⟩) (by rw [heq]; exact List.mem_cons_self _ _)
  have hpost : ∀ y ∈ post, y.id ≠ x.id := by
    intro y hy heq
    exact (List.nodup_cons.1 hnd.2.1).1 (by rw [← heq]; exact List.mem_map.2 ⟨y, hy, rfl⟩)
  have hin : x.id ∈ t.host.ids := by
    rw [hids]
    simp
  obtain ⟨b1, b2, b3, b4, b5, b6⟩ :=
    SelectionTool.updateScene_loop_before x pre t hpre hin hni
  rw [hsplit, List.foldl_append, List.foldl_cons,
    SelectionTool.updateScene_loop_after x post _ hpost,
    SelectionTool.updateSceneSeries_scatter _ x b5 hty hpts,
    (SelectionTool.publishSelection_facts _ _ _ _ _ _).2.2.2.2.2.2,
    statsInsert_lookup_self,
    (SelectionTool.selectionFor_facts _ _ _ _).2.2.2.2.2.2.2,
    SelectionTool.selectionColor_congr t _ x b6,
    SelectionTool.inScatterBounds_congr t _ b1 b2 b3]

/-- The counter of a calculator is not changed by `finalise`. -/
theorem Calculator.finalise_count (c : Calculator) : c.finalise.count = c.count := by
  unfold Calculator.finalise
  split_ifs <;> rfl

/-- The counter of a fresh calculator fed a list of points is the length of the list. -/
theorem Calculator.fresh_count (color : Nat) (xa ya : Option AxisRef) (id : Nat)
    (pts : List QPointF) :
    ((Calculator.fresh color xa ya id).addPoints pts).finalise.count = (pts.length : Int) := by
  rw [Calculator.finalise_count]
  exact (Calculator.sums_after
    { count := 0, m := 0, b := 0, sumxy := 0, sumx2 := 0, x := ⟨0, 0, 0, 0⟩, y := ⟨0, 0, 0, 0⟩,
      color := color, xaxis := xa, yaxis := ya, series := some id } pts).1

/-- C13 (as amended): for every scatter series with points on a chart of distinct
series, not an overlay series, `updateScene()` in a state other than INACTIVE
publishes in `stats` the result of a fresh Calculator (initialise, addPoint, finalise)
fed every point of the series that lies within the normalized value-space bounds of
the region, in order and repetitions included; the published count is the number of
in-bounds points counted with repetitions. -/
theorem C13_scatter_statistics (t : SelectionTool) (x : QAbstractSeries)
    (hstate : t.state ≠ State.INACTIVE) (hdistinct : t.host.ids.Nodup)
    (hx : x ∈ t.host.series) (hni : x.id ∉ t.ignore)
    (hty : x.type = SeriesType.SeriesTypeScatter) (hpts : x.points ≠ []) :
    ∃ c, t.updateScene.stats.lookup x.id = some c ∧
      c = ((Calculator.fresh (t.selectionColor x)
          (x.attachedAxes.find? (fun ax => !ax.vertical))
          (x.attachedAxes.find? (fun ax => ax.vertical)) x.id).addPoints
        (x.points.filter (t.inScatterBounds x.id))).finalise ∧
      c.count = ((x.points.filter (t.inScatterBounds x.id)).length : Int) :=
  ⟨_, SelectionTool.updateScene_scatter_stats t x hstate hdistinct hx hni hty hpts, rfl,
    Calculator.fresh_count _ _ _ _ _⟩

theorem C13_witness :
    ∃ c, scatterTool.updateScene.stats.lookup 1 = some c ∧
      c = ((Calculator.fresh 5 none none 1).addPoints
        (([⟨1, 1⟩, ⟨1, 1⟩] : List QPointF).filter (scatterTool.inScatterBounds 1))).finalise ∧
      c.count = ((([⟨1, 1⟩, ⟨1, 1⟩] : List QPointF).filter
        (scatterTool.inScatterBounds 1)).length : Int) :=
  C13_scatter_statistics scatterTool
    { id := 1, name := "s", type := SeriesType.SeriesTypeScatter,
      points := [⟨1, 1⟩, ⟨1, 1⟩], color := 5, useOpenGL := false, attachedAxes := [] }
    (by decide) (by decide) (by simp [scatterTool, SelectionTool.new, scatterHost])
    (by simp [scatterTool, SelectionTool.new]) rfl (by simp)

/-- C13 as stated fails: for the scatter series that holds the in-bounds point `(1,1)`
twice, `updateScene()` publishes the count 2, while the series has one distinct
in-bounds point and a Calculator fed the deduplicated points has the count 1. -/
theorem C13_counterexample :
    ∃ c, scatterTool.updateScene.stats.lookup 1 = some c ∧ c.count = 2 ∧
      dedupPoints (([⟨1, 1⟩, ⟨1, 1⟩] : List QPointF).filter (scatterTool.inScatterBounds 1))
        = [⟨1, 1⟩] ∧
      ((Calculator.fresh 5 none none 1).addPoints
        (dedupPoints (([⟨1, 1⟩, ⟨1, 1⟩] : List QPointF).filter
          (scatterTool.inScatterBounds 1)))).finalise.count = 1 ∧
      c ≠ ((Calculator.fresh 5 none none 1).addPoints
        (dedupPoints (([⟨1, 1⟩, ⟨1, 1⟩] : List QPointF).filter
          (scatterTool.inScatterBounds 1)))).finalise := by
  have hb : scatterTool.inScatterBounds 1 ⟨1, 1⟩ = true := by
    simp [SelectionTool.inScatterBounds, SelectionTool.xBounds, SelectionTool.yBounds,
      SelectionTool.minx, SelectionTool.maxx, SelectionTool.miny, SelectionTool.maxy,
      scatterTool, SelectionTool.new, scatterHost, exampleHost, QPointF.add]
    norm_num
  have hstats := SelectionTool.updateScene_scatter_stats scatterTool
    { id := 1, name := "s", type := SeriesType.SeriesTypeScatter,
      points := [⟨1, 1⟩, ⟨1, 1⟩], color := 5, useOpenGL := false, attachedAxes := [] }
    (by decide) (by decide) (by simp [scatterTool, SelectionTool.new, scatterHost])
    (by simp [scatterTool, SelectionTool.new]) rfl (by simp)
  have hfilter : ([⟨1, 1⟩, ⟨1, 1⟩] : List QPointF).filter (scatterTool.inScatterBounds 1)
      = [⟨1, 1⟩, ⟨1, 1⟩] := by
    simp [List.filter, hb]
  have hdedup : dedupPoints ([⟨1, 1⟩, ⟨1, 1⟩] : List QPointF) = [⟨1, 1⟩] := by
    simp [dedupPoints]
  refine ⟨_, hstats, ?_, ?_, ?_, ?_⟩
  · rw [Calculator.fresh_count]
    simp only [hfilter]
    rfl
  · rw [hfilter, hdedup]
  · rw [hfilter, hdedup, Calculator.fresh_count]
    rfl
  · intro heq
    have h1 := congrArg Calculator.count heq
    simp only [Calculator.fresh_count] at h1
    simp only [hfilter, hdedup] at h1
    exact absurd h1 (by decide)

/-! ## Claim C14: the hover point chosen in RECTANGLE mode -/

/-- The tool of the hover example: INACTIVE, in RECTANGLE mode, at item position `(3,3)`. -/
theorem hoverTool_eq :
    hoverTool = { SelectionTool.new hoverHost with
      pos := ⟨3, 3⟩, drag := { interval := 400, singleShot := true, active := true } } := by
  simp [hoverTool, SelectionTool.clicked, SelectionTool.released, SelectionTool.reset,
    SelectionTool.resetSelections, SelectionTool.new, SelectionTool.sceneBoundingRect]
  norm_num

/-- C14 (failing input): the tool is INACTIVE at item position `(3,3)` after a click
there, the index of the series returns the candidates `(3,3)` and `(8,8)`, and the
cursor moves to `(4,3)`.  The candidate `(3,3)` is at Manhattan distance 1 from the
cursor and `(8,8)` at distance 9, yet `moved` chooses `(8,8)`: the first candidate
lies at `(0,0)` in item coordinates, the value that also stands for "no hover point
yet", so the second candidate replaces it without any comparison. -/
theorem C14_failing_input :
    ∃ r, hoverTool.moved ⟨4, 3⟩ = some (r, true) ∧
      r.hoverpoint = ⟨5, 5⟩ ∧ r.hoverseries = some 1 ∧
      r.emitted = [Signal.hover ⟨8, 8⟩ "s" 1] ∧
      ((hoverTool.mapFromScene ⟨4, 3⟩).sub
        (hoverTool.mapFromScene (hoverTool.host.mapToPosition ⟨3, 3⟩ 1))).manhattanLength = 1 ∧
      ((hoverTool.mapFromScene ⟨4, 3⟩).sub
        (hoverTool.mapFromScene (hoverTool.host.mapToPosition ⟨8, 8⟩ 1))).manhattanLength = 9 ∧
      hoverTool.mapFromScene (hoverTool.host.mapToPosition ⟨8, 8⟩ 1) = r.hoverpoint := by
  rw [hoverTool_eq]
  refine ⟨_, rfl, ?_, ?_, ?_, ?_, ?_, ?_⟩ <;>
    simp [SelectionTool.hoverRectangle, SelectionTool.hoverSeries, SelectionTool.hoverCandidate,
      SelectionTool.hoverSignals, SelectionTool.mapFromScene, SelectionTool.new, hoverHost,
      exampleHost, QPointF.sub, QPointF.manhattanLength, Host.nameOf, fuzzyEq_origin_origin,
      fuzzyEq_8_8_origin, fuzzyEq_5_5_origin, fuzzyEq_3_3_origin] <;> norm_num

/-! ## Claims C15-C16: the dispatch flag, the spatial index -/

/-- C15: with the flag `block` as explicit state, a call of `eventHandler` made while
the flag is set returns false, calls nothing on the selector and leaves the state,
flag included, as it was; a call that starts with the flag clear and returns, returns
false with the flag clear, and it returns unless it is a mouse move on which `moved`
reads a series past its end. -/
theorem C15_dispatch_flag (g : PlotState) (e : QEvent) :
    (g.block = true → eventHandler g e = some ⟨g, false, []⟩) ∧
    (g.block = false →
      (∀ r, eventHandler g e = some r → r.plot.block = false ∧ r.result = false) ∧
      (eventHandler g e = none ↔
        ∃ p, e = QEvent.GraphicsSceneMouseMove p ∧ g.selector.moved p = none)) := by
  constructor
  · intro hb
    simp [eventHandler, hb]
  · intro hb
    constructor
    · intro r hr
      unfold eventHandler at hr
      rw [hb] at hr
      simp only [Bool.false_eq_true, if_false] at hr
      cases hd : dispatchEvent g.selector e with
      | none => rw [hd] at hr; exact absurd hr (by simp)
      | some d =>
        rw [hd] at hr
        simp only [] at hr
        split_ifs at hr
        · cases hr; exact ⟨rfl, rfl⟩
        · cases hr; exact ⟨rfl, rfl⟩
    · unfold eventHandler
      rw [hb]
      simp only [Bool.false_eq_true, if_false]
      cases e with
      | GraphicsSceneMousePress p => simp [dispatchEvent]; split_ifs <;> simp
      | GraphicsSceneMouseRelease p => simp [dispatchEvent]; split_ifs <;> simp
      | GraphicsSceneMouseMove p =>
        cases hm : g.selector.moved p with
        | none => simp [dispatchEvent, hm]
        | some r => simp [dispatchEvent, hm]; split_ifs <;> simp
      | GraphicsSceneWheel d => simp [dispatchEvent]; split_ifs <;> simp
      | Other => simp [dispatchEvent]

/-- The points passed to the index are the data points with `x ≠ 0` and `y ≠ 0`. -/
theorem mem_addCurveInserts (xseries yseries : List ℚ) (p : QPointF) :
    p ∈ addCurveInserts xseries yseries ↔
      (p.x, p.y) ∈ xseries.zip yseries ∧ p.x ≠ 0 ∧ p.y ≠ 0 := by
  unfold addCurveInserts
  simp only [List.mem_map, List.mem_filter, decide_eq_true_eq]
  constructor
  · rintro ⟨a, ⟨ha, hx, hy⟩, rfl⟩
    exact ⟨ha, hx, hy⟩
  · rintro ⟨ha, hx, hy⟩
    exact ⟨(p.x, p.y), ⟨ha, hx, hy⟩, rfl⟩

/-- C16 (failing input): for the data `x = [0, 3]`, `y = [5, 4]` the only point passed
to the index is `(3,4)`; the point `(0,5)` is not passed although it is not `(0,0)`. -/
theorem C16_failing_input :
    addCurveInserts [0, 3] [5, 4] = [⟨3, 4⟩] ∧
    (⟨0, 5⟩ : QPointF) ∉ addCurveInserts [0, 3] [5, 4] ∧
    (⟨0, 5⟩ : QPointF) ≠ ⟨0, 0⟩ := by
  refine ⟨?_, ?_, ?_⟩
  · simp [addCurveInserts, List.filter]
  · simp [addCurveInserts, List.filter]
  · simp

/-! ## Claims C17-C20: moving the pointer, the wheel -/

/-- The result of `moved(pos)` in state SIZING and RECTANGLE mode. -/
theorem SelectionTool.moved_sizing_rectangle (t : SelectionTool) (pos : QPointF)
    (hstate : t.state = State.SIZING) (hm : t.mode = Mode.RECTANGLE) :
    t.moved pos = some ({ t with
      drag := { t.drag with active := false }, finish := pos,
      rect := ⟨0, 0, pos.x - t.start.x, pos.y - t.start.y⟩ }, true) := by
  simp [SelectionTool.moved, hstate, hm, QRectF.ofCorners, QPointF.sub]

/-- The result of `moved(pos)` in state SIZING in a mode other than RECTANGLE. -/
theorem SelectionTool.moved_sizing_other (t : SelectionTool) (pos : QPointF)
    (hstate : t.state = State.SIZING) (hm : ¬ t.mode = Mode.RECTANGLE) :
    t.moved pos = some ({ t with
      drag := { t.drag with active := false }, finish := pos,
      rect := { t.rect with width := pos.x - t.start.x } }, true) := by
  simp [SelectionTool.moved, hstate, hm, QRectF.setWidth]

/-- C17: `moved(pos)` in state SIZING returns true, stops the gesture timer, records
`pos` in `finish` and keeps the state SIZING; in RECTANGLE mode the rectangle becomes
`(0, 0, pos - start)`, whose width (height) is negative exactly when `pos` is left of
(above) the anchor, and which spans anchor..pos in the scene when the item is at
the anchor; in X-RANGE mode only the width changes, to `pos.x - start.x`. -/
theorem C17_moved_sizing (t : SelectionTool) (pos : QPointF) (hstate : t.state = State.SIZING) :
    ∃ r, t.moved pos = some (r, true) ∧
      r.drag.active = false ∧ r.state = State.SIZING ∧ r.finish = pos ∧
      r.start = t.start ∧ r.pos = t.pos ∧
      (t.mode = Mode.RECTANGLE →
        r.rect = ⟨0, 0, pos.x - t.start.x, pos.y - t.start.y⟩ ∧
        (r.rect.width < 0 ↔ pos.x < t.start.x) ∧ (r.rect.height < 0 ↔ pos.y < t.start.y) ∧
        (t.pos = t.start →
          r.sceneBoundingRect.topLeft = t.start ∧ r.sceneBoundingRect.bottomRight = pos)) ∧
      (t.mode = Mode.XRANGE →
        r.rect = { t.rect with width := pos.x - t.start.x } ∧
        r.rect.height = t.rect.height ∧ r.rect.x = t.rect.x ∧ r.rect.y = t.rect.y) := by
  by_cases hm : t.mode = Mode.RECTANGLE
  · refine ⟨{ t with
        drag := { t.drag with active := false }, finish := pos,
        rect := ⟨0, 0, pos.x - t.start.x, pos.y - t.start.y⟩ },
      SelectionTool.moved_sizing_rectangle t pos hstate hm, rfl, hstate, rfl, rfl, rfl, ?_, ?_⟩
    · intro _
      refine ⟨rfl, by simp, by simp, ?_⟩
      intro hp
      simp [SelectionTool.sceneBoundingRect, SelectionTool.boundingRect, QRectF.translated,
        QRectF.topLeft, QRectF.bottomRight, hp]
    · intro hx
      rw [hm] at hx
      exact absurd hx (by decide)
  · refine ⟨{ t with
        drag := { t.drag with active := false }, finish := pos,
        rect := { t.rect with width := pos.x - t.start.x } },
      SelectionTool.moved_sizing_other t pos hstate hm, rfl, hstate, rfl, rfl, rfl, ?_, ?_⟩
    · intro h
      exact absurd h hm
    · intro _
      exact ⟨rfl, rfl, rfl, rfl⟩

theorem C17_witness :
    ∃ r, SelectionTool.moved ((SelectionTool.new exampleHost).clicked ⟨20, 20⟩).1 ⟨5, 30⟩
        = some (r, true) ∧
      r.drag.active = false ∧ r.state = State.SIZING ∧ r.rect = ⟨0, 0, -15, 10⟩ ∧
      r.rect.width < 0 := by
  obtain ⟨r, h1, h2, h3, -, -, -, h4, -⟩ :=
    C17_moved_sizing ((SelectionTool.new exampleHost).clicked ⟨20, 20⟩).1 ⟨5, 30⟩
      (by simp [SelectionTool.clicked, SelectionTool.new])
  have hmode : ((SelectionTool.new exampleHost).clicked ⟨20, 20⟩).1.mode = Mode.RECTANGLE := by
    simp [SelectionTool.clicked, SelectionTool.new]
  have hstart : ((SelectionTool.new exampleHost).clicked ⟨20, 20⟩).1.start = ⟨20, 20⟩ := by
    simp [SelectionTool.clicked, SelectionTool.new]
  obtain ⟨hr, hw, -, -⟩ := h4 hmode
  rw [hstart] at hr hw
  refine ⟨r, h1, h2, h3, ?_, ?_⟩
  · rw [hr]; norm_num
  · rw [hw]; norm_num

/-- C18: `moved(pos)` in state MOVING returns true and changes nothing but the item
position, which becomes `startingpos + (pos - start)` in RECTANGLE mode and
`startingpos + ((pos - start).x, 0)` in X-RANGE mode; the rectangle, the anchor, the
origin and the state stay as they were. -/
theorem C18_moved_moving (t : SelectionTool) (pos : QPointF) (hstate : t.state = State.MOVING) :
    (t.mode = Mode.RECTANGLE →
      t.moved pos = some ({ t with pos :=
        ⟨t.startingpos.x + (pos.x - t.start.x), t.startingpos.y + (pos.y - t.start.y)⟩ }, true)) ∧
    (t.mode = Mode.XRANGE →
      t.moved pos = some ({ t with pos :=
        ⟨t.startingpos.x + (pos.x - t.start.x), t.startingpos.y⟩ }, true)) ∧
    (∀ r b, t.moved pos = some (r, b) →
      r.rect = t.rect ∧ r.start = t.start ∧ r.startingpos = t.startingpos ∧
      r.state = State.MOVING) := by
  have hns : ¬ (t.state = State.SIZING) := by rw [hstate]; decide
  refine ⟨?_, ?_, ?_⟩
  · intro hm
    simp [SelectionTool.moved, hstate, hm, QPointF.add, QPointF.sub]
  · intro hm
    simp [SelectionTool.moved, hstate, hm, QPointF.add, QPointF.sub]
  · intro r b h
    unfold SelectionTool.moved at h
    rw [if_neg hns, if_pos hstate] at h
    split_ifs at h <;> cases h <;> exact ⟨rfl, rfl, rfl, hstate⟩

theorem C18_witness :
    SelectionTool.moved
        { SelectionTool.new exampleHost with
          state := State.MOVING, start := ⟨10, 10⟩, startingpos := ⟨2, 3⟩,
          rect := ⟨0, 0, 40, 30⟩ } ⟨15, 8⟩ =
      some ({ SelectionTool.new exampleHost with
          state := State.MOVING, start := ⟨10, 10⟩, startingpos := ⟨2, 3⟩,
          rect := ⟨0, 0, 40, 30⟩,
          pos := ⟨(2 : ℚ) + (15 - 10), (3 : ℚ) + (8 - 10)⟩ }, true) :=
  (C18_moved_moving
    { SelectionTool.new exampleHost with
      state := State.MOVING, start := ⟨10, 10⟩, startingpos := ⟨2, 3⟩,
      rect := ⟨0, 0, 40, 30⟩ } ⟨15, 8⟩ rfl).1 rfl

/-- The result of `wheel(delta)` in RECTANGLE mode and state ACTIVE. -/
theorem SelectionTool.wheel_active (t : SelectionTool) (delta : Int)
    (hmode : t.mode = Mode.RECTANGLE) (hactive : t.state = State.ACTIVE) :
    t.wheel delta =
      ({ t with rect := t.rect.scaleSize (if delta < 0 then 0.9 else 1.1) }, true) := by
  unfold SelectionTool.wheel
  rw [if_pos hmode, if_pos hactive]
  split_ifs <;> rfl

/-- C19 (as amended): in RECTANGLE mode with state ACTIVE, `wheel(delta)` resizes the
region from its top-left corner: the corner `(x, y)` of the rectangle and the item
position are the same before and after the call, and the center of the rectangle is
the same only for a rectangle of zero width and zero height. -/
theorem C19_wheel_keeps_corner (t : SelectionTool) (delta : Int)
    (hmode : t.mode = Mode.RECTANGLE) (hactive : t.state = State.ACTIVE) :
    (t.wheel delta).1.rect.topLeft = t.rect.topLeft ∧
    (t.wheel delta).1.pos = t.pos ∧
    ((t.wheel delta).1.rect.center = t.rect.center ↔
      (t.rect.width = 0 ∧ t.rect.height = 0)) := by
  rw [SelectionTool.wheel_active t delta hmode hactive]
  refine ⟨rfl, rfl, ?_⟩
  simp only [QRectF.center, QRectF.scaleSize, QPointF.mk.injEq]
  split_ifs
  · constructor
    · rintro ⟨h1, h2⟩
      constructor <;> linarith
    · rintro ⟨h1, h2⟩
      rw [h1, h2]
      norm_num
  · constructor
    · rintro ⟨h1, h2⟩
      constructor <;> linarith
    · rintro ⟨h1, h2⟩
      rw [h1, h2]
      norm_num

theorem C19_witness :
    (SelectionTool.wheel { SelectionTool.new exampleHost with
        state := State.ACTIVE, rect := ⟨3, 4, 100, 50⟩ } 1).1.rect.topLeft = ⟨3, 4⟩ :=
  (C19_wheel_keeps_corner
    { SelectionTool.new exampleHost with state := State.ACTIVE, rect := ⟨3, 4, 100, 50⟩ } 1
    rfl rfl).1

/-- C19 as stated fails: in RECTANGLE mode with state ACTIVE and the rectangle
`(0, 0, 100, 50)`, whose center is `(50, 25)`, `wheel(-1)` leaves the rectangle
`(0, 0, 90, 45)`, whose center is `(45, 45/2)`. -/
theorem C19_counterexample :
    (SelectionTool.wheel { SelectionTool.new exampleHost with
        state := State.ACTIVE, rect := ⟨0, 0, 100, 50⟩ } (-1)).1.rect = ⟨0, 0, 90, 45⟩ ∧
    (⟨0, 0, 100, 50⟩ : QRectF).center = ⟨50, 25⟩ ∧
    (SelectionTool.wheel { SelectionTool.new exampleHost with
        state := State.ACTIVE, rect := ⟨0, 0, 100, 50⟩ } (-1)).1.rect.center = ⟨45, 45 / 2⟩ ∧
    (SelectionTool.wheel { SelectionTool.new exampleHost with
        state := State.ACTIVE, rect := ⟨0, 0, 100, 50⟩ } (-1)).1.rect.center
      ≠ (⟨0, 0, 100, 50⟩ : QRectF).center := by
  refine ⟨?_, ?_, ?_, ?_⟩ <;>
    simp [SelectionTool.wheel, SelectionTool.new, QRectF.scaleSize, QRectF.center] <;> norm_num

/-- C20 (as amended): the wheel transition applies in RECTANGLE mode only; in X-RANGE
mode, `wheel(delta)` leaves the region and every other member of the tool unchanged
and returns false, in state ACTIVE as in every other state. -/
theorem C20_wheel_xrange_noop (t : SelectionTool) (delta : Int) (hmode : t.mode = Mode.XRANGE) :
    t.wheel delta = (t, false) := by
  unfold SelectionTool.wheel
  rw [if_neg (by rw [hmode]; decide)]

theorem C20_witness :
    SelectionTool.wheel { SelectionTool.new exampleHost with
        mode := Mode.XRANGE, state := State.ACTIVE, rect := ⟨0, 0, 100, 50⟩ } (-1) =
      ({ SelectionTool.new exampleHost with
        mode := Mode.XRANGE, state := State.ACTIVE, rect := ⟨0, 0, 100, 50⟩ }, false) :=
  C20_wheel_xrange_noop
    { SelectionTool.new exampleHost with
      mode := Mode.XRANGE, state := State.ACTIVE, rect := ⟨0, 0, 100, 50⟩ } (-1) rfl

/-- C20 as stated fails: in X-RANGE mode with state ACTIVE and a region 100 wide,
`wheel(-1)` returns false and leaves the width 100, not 90. -/
theorem C20_counterexample :
    (SelectionTool.wheel { SelectionTool.new exampleHost with
        mode := Mode.XRANGE, state := State.ACTIVE, rect := ⟨0, 0, 100, 50⟩ } (-1)).2 = false ∧
    (SelectionTool.wheel { SelectionTool.new exampleHost with
        mode := Mode.XRANGE, state := State.ACTIVE, rect := ⟨0, 0, 100, 50⟩ } (-1)).1.rect.width
      = 100 ∧
    (SelectionTool.wheel { SelectionTool.new exampleHost with
        mode := Mode.XRANGE, state := State.ACTIVE, rect := ⟨0, 0, 100, 50⟩ } (-1)).1.rect.width
      ≠ 100 * (9 / 10) := by
  refine ⟨?_, ?_, ?_⟩
  · simp [SelectionTool.wheel, SelectionTool.new]
  · simp [SelectionTool.wheel, SelectionTool.new]
  · simp [SelectionTool.wheel, SelectionTool.new]
    norm_num

/-! ## Claim C21: the gesture timer after a move or a release -/

/-- The function `reset` does not touch the timer. -/
theorem SelectionTool.reset_drag (t : SelectionTool) : t.reset.1.drag = t.drag := by
  unfold SelectionTool.reset SelectionTool.resetSelections
  dsimp only
  split_ifs
  · rw [SelectionTool.resetSelections_loop_frame]
    rfl
  · rfl

/-- The function `released` does not touch the timer. -/
theorem SelectionTool.released_drag (t : SelectionTool) (pos : QPointF) :
    (t.released pos).1.drag = t.drag := by
  unfold SelectionTool.released
  split_ifs
  · rfl
  · exact SelectionTool.reset_drag t
  · rfl
  · rfl
  · rfl

/-- After `released` the state is not SIZING. -/
theorem SelectionTool.released_not_sizing (t : SelectionTool) (pos : QPointF)
    (hmode : t.mode = Mode.RECTANGLE ∨ t.mode = Mode.XRANGE) :
    (t.released pos).1.state ≠ State.SIZING := by
  unfold SelectionTool.released
  rw [if_pos hmode]
  split_ifs with h1 h2 h3
  · simp
  · rw [(SelectionTool.reset_state_rect t).1]
    decide
  · simp
  · intro h
    exact h3 (Or.inl h)

/-- The mode is not changed by `released`. -/
theorem SelectionTool.released_mode (t : SelectionTool) (pos : QPointF) :
    (t.released pos).1.mode = t.mode := by
  unfold SelectionTool.released
  split_ifs
  · rfl
  · exact (SelectionTool.resetSelections_members _).2.2.2.2.1
  · rfl
  · rfl
  · rfl

/-- The hovering branches of `moved` do not touch the timer. -/
theorem SelectionTool.moved_drag_other (t : SelectionTool) (pos : QPointF)
    (hstate : t.state ≠ State.SIZING) (r : SelectionTool) (b : Bool)
    (h : t.moved pos = some (r, b)) : r.drag = t.drag := by
  unfold SelectionTool.moved at h
  rw [if_neg hstate] at h
  by_cases h1 : t.state = State.MOVING
  · rw [if_pos h1] at h
    split_ifs at h <;> cases h <;> rfl
  · rw [if_neg h1] at h
    by_cases h2 : t.state = State.DRAGGING
    · rw [if_pos h2] at h
      cases h
      rfl
    · rw [if_neg h2] at h
      by_cases h3 : t.mode = Mode.RECTANGLE
      · rw [if_pos h3] at h
        cases h
        rfl
      · rw [if_neg h3] at h
        by_cases h4 : t.mode = Mode.XRANGE
        · rw [if_pos h4] at h
          unfold SelectionTool.hoverXRange at h
          split at h
          · exact absurd h (by simp)
          · cases h
            rfl
        · rw [if_neg h4] at h
          cases h
          rfl

/-- C21 (as amended): with the timer as the flag `drag.active`, `moved()` disarms the
timer in state SIZING and leaves the timer as it is in every other state;
`released()` leaves the timer as it is in every state.  A timer still armed after a
release does no harm: in RECTANGLE and X-RANGE mode the state after `released()` is
never SIZING, and `dragStart()` then changes nothing. -/
theorem C21_timer_after_move_release (t : SelectionTool) (pos : QPointF) :
    (t.state = State.SIZING → ∃ r, t.moved pos = some (r, true) ∧ r.drag.active = false) ∧
    (t.state ≠ State.SIZING → ∀ r b, t.moved pos = some (r, b) → r.drag = t.drag) ∧
    (t.released pos).1.drag = t.drag ∧
    (t.released pos).1.dragStart = (t.released pos).1 := by
  refine ⟨?_, ?_, SelectionTool.released_drag t pos, ?_⟩
  · intro hs
    by_cases hm : t.mode = Mode.RECTANGLE
    · exact ⟨_, SelectionTool.moved_sizing_rectangle t pos hs hm, rfl⟩
    · exact ⟨_, SelectionTool.moved_sizing_other t pos hs hm, rfl⟩
  · intro hs r b h
    exact SelectionTool.moved_drag_other t pos hs r b h
  · unfold SelectionTool.dragStart
    by_cases hmode : t.mode = Mode.RECTANGLE ∨ t.mode = Mode.XRANGE
    · rw [if_pos (by rw [SelectionTool.released_mode]; exact hmode),
        if_neg (SelectionTool.released_not_sizing t pos hmode)]
    · rw [if_neg (by rw [SelectionTool.released_mode]; exact hmode)]

/-- C21 as stated fails: from the constructed tool, `clicked((3,4))` arms the timer
and `released((3,4))` leaves the state INACTIVE with the timer still armed; a
`moved((3,4))` after that still leaves it armed. -/
theorem C21_counterexample :
    ((SelectionTool.new exampleHost).clicked ⟨3, 4⟩).1.drag.active = true ∧
    (((SelectionTool.new exampleHost).clicked ⟨3, 4⟩).1.released ⟨3, 4⟩).1.state
      = State.INACTIVE ∧
    (((SelectionTool.new exampleHost).clicked ⟨3, 4⟩).1.released ⟨3, 4⟩).1.drag.active = true ∧
    ∃ r, SelectionTool.moved
        (((SelectionTool.new exampleHost).clicked ⟨3, 4⟩).1.released ⟨3, 4⟩).1 ⟨3, 4⟩
          = some (r, true) ∧ r.drag.active = true := by
  have hc : ((SelectionTool.new exampleHost).clicked ⟨3, 4⟩).1 =
      { SelectionTool.new exampleHost with
        state := State.SIZING, start := ⟨3, 4⟩, rect := ⟨-5, -5, 5, 5⟩, pos := ⟨3, 4⟩,
        drag := { interval := 400, singleShot := true, active := true } } := by
    simp [SelectionTool.clicked, SelectionTool.new]
  have hr : (((SelectionTool.new exampleHost).clicked ⟨3, 4⟩).1.released ⟨3, 4⟩).1 =
      { SelectionTool.new exampleHost with
        pos := ⟨3, 4⟩, drag := { interval := 400, singleShot := true, active := true } } := by
    rw [hc]
    simp [SelectionTool.released, SelectionTool.reset, SelectionTool.resetSelections,
      SelectionTool.new]
    norm_num
  refine ⟨by rw [hc], by rw [hr]; rfl, by rw [hr], ?_⟩
  rw [hr]
  exact ⟨_, rfl, rfl⟩

/-! ## Claim C22: the signals of the hover search -/

/-- The result of `moved` for a hovering tool in RECTANGLE mode. -/
theorem SelectionTool.moved_hover_rectangle (t : SelectionTool) (pos : QPointF)
    (hhover : t.hovering) (hmode : t.mode = Mode.RECTANGLE) :
    t.moved pos = some ({ t with
      spos := pos, hoverpoint := (t.hoverSearch pos).hoverpoint,
      hoverseries := (t.hoverSearch pos).hoverseries,
      emitted := t.emitted ++ t.hoverSignals t.hoverseries (t.hoverSearch pos) }, true) := by
  obtain ⟨h1, h2, h3⟩ := hhover
  unfold SelectionTool.moved
  rw [if_neg h1, if_neg h2, if_neg h3, if_pos hmode]
  rfl

/-- An `unhover` signal is emitted only when the series found differs from the one
hovered before. -/
theorem SelectionTool.hoverSignals_unhover (t : SelectionTool) (original : Option Nat)
    (acc : HoverAcc) (name : String) (h : Signal.unhover name ∈ t.hoverSignals original acc) :
    original ≠ acc.hoverseries := by
  unfold SelectionTool.hoverSignals at h
  intro heq
  subst heq
  cases ha : acc.hoverseries with
  | none =>
    simp only [ha] at h
    split_ifs at h <;> simp at h
  | some o =>
    simp only [ha] at h
    split_ifs at h with h1 h2 h3 <;> first | exact h2 rfl | simp at h

/-- When a series is found with a value that does not compare equal to `QPointF()`,
`hover` is emitted, also when the series is the one hovered before. -/
theorem SelectionTool.hoverSignals_same (t : SelectionTool) (acc : HoverAcc) (h : Nat)
    (hs : acc.hoverseries = some h) (hv : acc.hoverv.fuzzyEq ⟨0, 0⟩ = false) :
    t.hoverSignals (some h) acc = [Signal.hover acc.hoverv (t.host.nameOf h) h] := by
  unfold SelectionTool.hoverSignals
  simp [hs, hv]

/-- The signals of a hovering `moved()` in RECTANGLE mode: `unhover` is emitted only
when the series found differs from the series hovered before, but `hover` is emitted
whenever a series is found with a value that does not compare equal to `QPointF()`,
also when series and point are those of the call before. -/
theorem SelectionTool.moved_hover_signals (t : SelectionTool) (pos : QPointF)
    (hhover : t.hovering) (hmode : t.mode = Mode.RECTANGLE) :
    ∃ r, t.moved pos = some (r, true) ∧
      r.hoverseries = (t.hoverSearch pos).hoverseries ∧
      r.hoverpoint = (t.hoverSearch pos).hoverpoint ∧
      r.emitted = t.emitted ++ t.hoverSignals t.hoverseries (t.hoverSearch pos) ∧
      (∀ name, Signal.unhover name ∈ t.hoverSignals t.hoverseries (t.hoverSearch pos) →
        t.hoverseries ≠ r.hoverseries) ∧
      (∀ h, t.hoverseries = some h → r.hoverseries = some h →
        (t.hoverSearch pos).hoverv.fuzzyEq ⟨0, 0⟩ = false →
        r.emitted = t.emitted ++
          [Signal.hover (t.hoverSearch pos).hoverv (t.host.nameOf h) h]) := by
  refine ⟨_, SelectionTool.moved_hover_rectangle t pos hhover hmode, rfl, rfl, rfl, ?_, ?_⟩
  · intro name h
    exact SelectionTool.hoverSignals_unhover t _ _ name h
  · intro h h1 h2 hv
    simp only [h1]
    rw [SelectionTool.hoverSignals_same t _ h h2 hv]

/-- The search of the hover example from the constructed tool: the candidate `(3,3)`,
nearest to the cursor `(4,3)`, is found in series 1, whatever the tool hovered before. -/
theorem hoverHost_search (t : SelectionTool) (hh : t.host = hoverHost) (hp : t.pos = ⟨0, 0⟩) :
    t.hoverSearch ⟨4, 3⟩ = ⟨⟨3, 3⟩, some 1, ⟨3, 3⟩⟩ := by
  simp [SelectionTool.hoverSearch, SelectionTool.hoverSeries, SelectionTool.hoverCandidate,
    SelectionTool.mapFromScene, hh, hp, hoverHost, exampleHost, QPointF.sub,
    QPointF.manhattanLength, fuzzyEq_origin_origin, fuzzyEq_3_3_origin]
  norm_num

/-- C22 (failing input): on the hover example (one series `"s"` whose index returns the
candidates `(3,3)` and `(8,8)`), two calls `moved((4,3))` in a row from the constructed
tool find the same series and the same point `(3,3)`; the second call emits no
`unhover` but emits `hover((3,3), "s")` again, where the claim (and the comment of line
741, "hoverpoint changed") has no event: the test of line 742 asks whether a point was
found, not whether it changed. -/
theorem C22_failing_input :
    ∃ r1 r2, (SelectionTool.new hoverHost).moved ⟨4, 3⟩ = some (r1, true) ∧
      r1.moved ⟨4, 3⟩ = some (r2, true) ∧
      r1.hoverseries = some 1 ∧ r2.hoverseries = some 1 ∧
      r1.hoverpoint = ⟨3, 3⟩ ∧ r2.hoverpoint = ⟨3, 3⟩ ∧
      r1.emitted = [Signal.hover ⟨3, 3⟩ "s" 1] ∧
      r2.emitted = r1.emitted ++ [Signal.hover ⟨3, 3⟩ "s" 1] := by
  have hs0 := hoverHost_search (SelectionTool.new hoverHost) rfl rfl
  have h1 := SelectionTool.moved_hover_rectangle (SelectionTool.new hoverHost) ⟨4, 3⟩
    (by simp [SelectionTool.hovering, SelectionTool.new]) rfl
  rw [hs0] at h1
  have hs1 := hoverHost_search
    { SelectionTool.new hoverHost with
      spos := ⟨4, 3⟩, hoverpoint := ⟨3, 3⟩, hoverseries := some 1,
      emitted := (SelectionTool.new hoverHost).emitted ++
        (SelectionTool.new hoverHost).hoverSignals (SelectionTool.new hoverHost).hoverseries
          ⟨⟨3, 3⟩, some 1, ⟨3, 3⟩⟩ } rfl rfl
  have h2 := SelectionTool.moved_hover_rectangle
    { SelectionTool.new hoverHost with
      spos := ⟨4, 3⟩, hoverpoint := ⟨3, 3⟩, hoverseries := some 1,
      emitted := (SelectionTool.new hoverHost).emitted ++
        (SelectionTool.new hoverHost).hoverSignals (SelectionTool.new hoverHost).hoverseries
          ⟨⟨3, 3⟩, some 1, ⟨3, 3⟩⟩ } ⟨4, 3⟩
    (by simp [SelectionTool.hovering, SelectionTool.new]) rfl
  rw [hs1] at h2
  refine ⟨_, _, h1, h2, rfl, rfl, rfl, rfl, ?_, ?_⟩
  · simp [SelectionTool.hoverSignals, SelectionTool.new, Host.nameOf, hoverHost,
      fuzzyEq_3_3_origin]
  · simp [SelectionTool.hoverSignals, SelectionTool.new, Host.nameOf, hoverHost,
      fuzzyEq_3_3_origin]

/-! ## Claim C26: an INACTIVE tool has the zero rectangle -/

/-- The function `moved` keeps the state, and keeps the rectangle outside state SIZING. -/
theorem SelectionTool.moved_state_rect (t : SelectionTool) (pos : QPointF)
    (r : SelectionTool) (b : Bool) (h : t.moved pos = some (r, b)) :
    r.state = t.state ∧ (t.state ≠ State.SIZING → r.rect = t.rect) := by
  unfold SelectionTool.moved at h
  by_cases h0 : t.state = State.SIZING
  · rw [if_pos h0] at h
    dsimp only at h
    split_ifs at h <;> cases h <;> exact ⟨rfl, fun hn => absurd h0 hn⟩
  · rw [if_neg h0] at h
    by_cases h1 : t.state = State.MOVING
    · rw [if_pos h1] at h
      split_ifs at h <;> cases h <;> exact ⟨rfl, fun _ => rfl⟩
    · rw [if_neg h1] at h
      by_cases h2 : t.state = State.DRAGGING
      · rw [if_pos h2] at h
        cases h
        exact ⟨rfl, fun _ => rfl⟩
      · rw [if_neg h2] at h
        by_cases h3 : t.mode = Mode.RECTANGLE
        · rw [if_pos h3] at h
          cases h
          exact ⟨rfl, fun _ => rfl⟩
        · rw [if_neg h3] at h
          by_cases h4 : t.mode = Mode.XRANGE
          · rw [if_pos h4] at h
            unfold SelectionTool.hoverXRange at h
            split at h
            · exact absurd h (by simp)
            · cases h
              exact ⟨rfl, fun _ => rfl⟩
          · rw [if_neg h4] at h
            cases h
            exact ⟨rfl, fun _ => rfl⟩

/-- Every call keeps the invariant. -/
theorem SelectionTool.call_inactiveRectZero (t t1 : SelectionTool) (c : ToolCall)
    (hinv : t.inactiveRectZero) (h : t.call c = some t1) : t1.inactiveRectZero := by
  unfold SelectionTool.inactiveRectZero at hinv ⊢
  cases c with
  | clicked pos =>
    simp only [SelectionTool.call, Option.some.injEq] at h
    subst h
    by_cases hmode : t.mode = Mode.RECTANGLE ∨ t.mode = Mode.XRANGE
    · intro hs
      rcases (SelectionTool.clicked_mode_state t pos hmode).2 with h1 | h1 <;>
        rw [h1] at hs <;> exact absurd hs (by decide)
    · have hmode2 : ¬ (t.mode = Mode.XRANGE ∨ t.mode = Mode.RECTANGLE) :=
        fun h => hmode (Or.symm h)
      unfold SelectionTool.clicked
      rw [if_neg hmode2]
      exact hinv
  | moved pos =>
    simp only [SelectionTool.call] at h
    cases hm : t.moved pos with
    | none => rw [hm] at h; exact absurd h (by simp)
    | some r =>
      rw [hm] at h
      simp only [Option.some.injEq] at h
      subst h
      obtain ⟨r1, b⟩ := r
      obtain ⟨e1, e2⟩ := SelectionTool.moved_state_rect t pos r1 b hm
      intro hs
      have hst : t.state = State.INACTIVE := e1 ▸ hs
      have hne : t.state ≠ State.SIZING := by rw [hst]; decide
      show r1.rect = ⟨0, 0, 0, 0⟩
      rw [e2 hne]
      exact hinv hst
  | released pos =>
    simp only [SelectionTool.call, Option.some.injEq] at h
    subst h
    unfold SelectionTool.released
    split_ifs with h1 h2 h3 h4
    · intro _; rfl
    · intro _; exact (SelectionTool.reset_state_rect t).2
    · intro hs; exact absurd hs (by decide)
    · exact hinv
    · exact hinv
  | wheel delta =>
    simp only [SelectionTool.call, Option.some.injEq] at h
    subst h
    unfold SelectionTool.wheel
    split_ifs with h1 h2 h3
    · intro hs; exact absurd (h2.symm.trans hs) (by decide)
    · intro hs; exact absurd (h2.symm.trans hs) (by decide)
    · exact hinv
    · exact hinv
  | dragStart =>
    simp only [SelectionTool.call, Option.some.injEq] at h
    subst h
    unfold SelectionTool.dragStart
    split_ifs with h1 h2
    · intro hs; exact absurd hs (by decide)
    · exact hinv
    · exact hinv
  | reset =>
    simp only [SelectionTool.call, Option.some.injEq] at h
    subst h
    intro _
    exact (SelectionTool.reset_state_rect t).2

/-- Every sequence of calls keeps the invariant. -/
theorem SelectionTool.calls_inactiveRectZero (cs : List ToolCall) (t t1 : SelectionTool)
    (hinv : t.inactiveRectZero) (h : t.calls cs = some t1) : t1.inactiveRectZero := by
  induction cs generalizing t with
  | nil =>
    simp only [SelectionTool.calls, Option.some.injEq] at h
    subst h
    exact hinv
  | cons c rest ih =>
    simp only [SelectionTool.calls] at h
    cases hc : t.call c with
    | none => rw [hc] at h; exact absurd h (by simp)
    | some t2 =>
      rw [hc] at h
      exact ih t2 (SelectionTool.call_inactiveRectZero t t2 c hinv hc) h

/-- C26: in every state reached from the constructed tool, in any mode, by a sequence
of `clicked`, `moved`, `released`, `wheel`, `dragStart` and `reset` calls, if the state
is INACTIVE then the rectangle is `(0,0,0,0)`. -/
theorem C26_inactive_rect_zero (host : Host) (mode : Mode) (cs : List ToolCall)
    (t : SelectionTool)
    (hreach : SelectionTool.calls { SelectionTool.new host with mode := mode } cs = some t)
    (hstate : t.state = State.INACTIVE) : t.rect = ⟨0, 0, 0, 0⟩ :=
  SelectionTool.calls_inactiveRectZero cs _ t (fun _ => rfl) hreach hstate

/-- A click without a move, from the constructed tool, leaves the state INACTIVE. -/
theorem click_release_inactive :
    (((SelectionTool.new exampleHost).clicked ⟨3, 4⟩).1.released ⟨3, 4⟩).1.state
      = State.INACTIVE := by
  have hc : ((SelectionTool.new exampleHost).clicked ⟨3, 4⟩).1 =
      { SelectionTool.new exampleHost with
        state := State.SIZING, start := ⟨3, 4⟩, rect := ⟨-5, -5, 5, 5⟩, pos := ⟨3, 4⟩,
        drag := { interval := 400, singleShot := true, active := true } } := by
    simp [SelectionTool.clicked, SelectionTool.new]
  rw [hc]
  simp [SelectionTool.released, SelectionTool.reset, SelectionTool.resetSelections,
    SelectionTool.new]
  norm_num

theorem C26_witness :
    (((SelectionTool.new exampleHost).clicked ⟨3, 4⟩).1.released ⟨3, 4⟩).1.rect = ⟨0, 0, 0, 0⟩ :=
  C26_inactive_rect_zero exampleHost Mode.RECTANGLE
    [ToolCall.clicked ⟨3, 4⟩, ToolCall.released ⟨3, 4⟩]
    (((SelectionTool.new exampleHost).clicked ⟨3, 4⟩).1.released ⟨3, 4⟩).1 rfl
    click_release_inactive

/-! ## Claims C24, C27, C28: the algebra of the Calculator -/

theorem sumSqDev_expand (pts : List QPointF) (a b : ℚ) :
    sumSqDev pts a b = a ^ 2 * sumXX pts - 2 * a * b * sumX pts + (pts.length : ℚ) * b ^ 2 := by
  induction pts with
  | nil => simp [sumSqDev, sumXX, sumX]
  | cons p rest ih =>
    have h1 : sumSqDev (p :: rest) a b = (a * p.x - b) ^ 2 + sumSqDev rest a b := by
      simp [sumSqDev]
    have h2 : sumXX (p :: rest) = p.x * p.x + sumXX rest := by simp [sumXX]
    have h3 : sumX (p :: rest) = p.x + sumX rest := by simp [sumX]
    rw [h1, h2, h3, ih]
    simp only [List.length_cons]
    push_cast
    ring

theorem sumSqDev_nonneg (pts : List QPointF) (a b : ℚ) : 0 ≤ sumSqDev pts a b := by
  unfold sumSqDev
  apply List.sum_nonneg
  intro x hx
  obtain ⟨p, -, rfl⟩ := List.mem_map.1 hx
  exact sq_nonneg _

theorem sumSqDev_eq_zero (pts : List QPointF) (a b : ℚ) (h : sumSqDev pts a b = 0) :
    ∀ p ∈ pts, a * p.x = b := by
  induction pts with
  | nil => intro p hp; exact absurd hp (List.not_mem_nil p)
  | cons q rest ih =>
    have h1 : sumSqDev (q :: rest) a b = (a * q.x - b) ^ 2 + sumSqDev rest a b := by
      simp [sumSqDev]
    rw [h1] at h
    have hq := sq_nonneg (a * q.x - b)
    have hr := sumSqDev_nonneg rest a b
    have hq0 : (a * q.x - b) ^ 2 = 0 := by linarith
    have hr0 : sumSqDev rest a b = 0 := by linarith
    intro p hp
    rcases List.mem_cons.1 hp with hp | hp
    · subst hp
      have := pow_eq_zero_iff (two_ne_zero) |>.1 hq0
      linarith
    · exact ih hr0 p hp

/-- The divisor of the slope, times the number of points, is a sum of squares. -/
theorem length_mul_denominator (pts : List QPointF) :
    (pts.length : ℚ) * ((pts.length : ℚ) * sumXX pts - sumX pts * sumX pts) =
      sumSqDev pts (pts.length : ℚ) (sumX pts) := by
  rw [sumSqDev_expand]
  ring

/-- The sums of a list of points that share one `x`. -/
theorem sums_of_constant_x (pts : List QPointF) (v : ℚ) (h : ∀ p ∈ pts, p.x = v) :
    sumX pts = (pts.length : ℚ) * v ∧ sumXX pts = (pts.length : ℚ) * (v * v) := by
  induction pts with
  | nil => simp [sumX, sumXX]
  | cons q rest ih =>
    obtain ⟨i1, i2⟩ := ih (fun p hp => h p (List.mem_cons_of_mem q hp))
    have hq : q.x = v := h q (List.mem_cons_self q rest)
    have h2 : sumXX (q :: rest) = q.x * q.x + sumXX rest := by simp [sumXX]
    have h3 : sumX (q :: rest) = q.x + sumX rest := by simp [sumX]
    rw [h2, h3, i1, i2, hq]
    simp only [List.length_cons]
    push_cast
    constructor <;> ring

/-- The divisor of the slope is non-negative, and zero exactly when all points share
one `x`. -/
theorem denominator_facts (pts : List QPointF) (hne : pts ≠ []) :
    0 ≤ (pts.length : ℚ) * sumXX pts - sumX pts * sumX pts ∧
    ((pts.length : ℚ) * sumXX pts - sumX pts * sumX pts = 0 ↔
      ∀ p ∈ pts, ∀ q ∈ pts, p.x = q.x) := by
  have hpos : (0 : ℚ) < (pts.length : ℚ) := by
    have := List.length_pos.2 hne
    exact_mod_cast this
  have hkey := length_mul_denominator pts
  have hnn := sumSqDev_nonneg pts (pts.length : ℚ) (sumX pts)
  refine ⟨?_, ?_, ?_⟩
  · by_contra hneg
    push_neg at hneg
    have := mul_neg_of_pos_of_neg hpos hneg
    linarith
  · intro hz
    rw [hz, mul_zero] at hkey
    have hall := sumSqDev_eq_zero pts _ _ hkey.symm
    intro p hp q hq
    have e1 := hall p hp
    have e2 := hall q hq
    have : (pts.length : ℚ) * p.x = (pts.length : ℚ) * q.x := by rw [e1, e2]
    exact mul_left_cancel₀ (ne_of_gt hpos) this
  · intro hall
    obtain ⟨p0, hp0⟩ := List.exists_mem_of_ne_nil pts hne
    obtain ⟨e1, e2⟩ := sums_of_constant_x pts p0.x (fun p hp => hall p hp p0 hp0)
    rw [e1, e2]
    ring

/-- The slope and the intercept `finalise` leaves for a list of two points or more. -/
theorem Calculator.finalise_after (c0 : Calculator) (pts : List QPointF)
    (hlen : 2 ≤ pts.length) :
    (c0.initialise.addPoints pts).finalise.m =
      ((pts.length : ℚ) * sumXY pts - sumX pts * sumY pts) /
        ((pts.length : ℚ) * sumXX pts - sumX pts * sumX pts) ∧
    (c0.initialise.addPoints pts).finalise.b =
      (sumY pts - (c0.initialise.addPoints pts).finalise.m * sumX pts) / (pts.length : ℚ) := by
  obtain ⟨h1, h2, h3, h4, h5⟩ := Calculator.sums_after c0 pts
  simp [Calculator.finalise, hlen, h1, h2, h3, h4, h5]

/-- The divisor of the slope after a list of points is folded in. -/
theorem Calculator.slopeDenominator_after (c0 : Calculator) (pts : List QPointF) :
    (c0.initialise.addPoints pts).slopeDenominator =
      (pts.length : ℚ) * sumXX pts - sumX pts * sumX pts := by
  obtain ⟨h1, h2, -, -, h5⟩ := Calculator.sums_after c0 pts
  simp [Calculator.slopeDenominator, h1, h2, h5]

/-- Over exact arithmetic the divisor of the slope is non-negative and is zero exactly
when all points have the same `x`. -/
theorem Calculator.slopeDenominator_exact (c0 : Calculator) (pts : List QPointF)
    (hlen : 2 ≤ pts.length) :
    (c0.initialise.addPoints pts).finalise.m =
      (((c0.initialise.addPoints pts).count : ℚ) * (c0.initialise.addPoints pts).sumxy -
          (c0.initialise.addPoints pts).x.sum * (c0.initialise.addPoints pts).y.sum) /
        (c0.initialise.addPoints pts).slopeDenominator ∧
    (c0.initialise.addPoints pts).slopeDenominator =
      (pts.length : ℚ) * sumXX pts - sumX pts * sumX pts ∧
    0 ≤ (c0.initialise.addPoints pts).slopeDenominator ∧
    ((c0.initialise.addPoints pts).slopeDenominator = 0 ↔ ∀ p ∈ pts, ∀ q ∈ pts, p.x = q.x) ∧
    ((c0.initialise.addPoints pts).slopeDenominator ≠ 0 ↔ ∃ p ∈ pts, ∃ q ∈ pts, p.x ≠ q.x) := by
  have hne : pts ≠ [] := by
    intro h
    rw [h] at hlen
    simp at hlen
  have hcount : (c0.initialise.addPoints pts).count ≥ 2 := by
    rw [(Calculator.sums_after c0 pts).1]
    omega
  obtain ⟨d1, d2⟩ := denominator_facts pts hne
  rw [Calculator.slopeDenominator_after]
  refine ⟨?_, rfl, d1, d2, ?_⟩
  · rw [← Calculator.slopeDenominator_after c0 pts]
    simp [Calculator.finalise, hcount, Calculator.slopeDenominator]
  · rw [Ne, d2]
    push_neg
    rfl

/-- C24 (as amended): over exact arithmetic, that is with no result rounded, for every
list of two points or more folded into a Calculator the divisor `n*Sxx - Sx*Sx` that
`finalise` uses for the slope is non-negative and is zero exactly when all points have
the same `x`; so `finalise` then divides by a non-zero value exactly when the list has
two distinct `x` values. -/
theorem C24_slope_denominator (c0 : Calculator) (pts : List QPointF) (hlen : 2 ≤ pts.length) :
    ((c0.initialise.addPointsR id pts).finaliseR id).m =
      (((c0.initialise.addPointsR id pts).count : ℚ) * (c0.initialise.addPointsR id pts).sumxy -
          (c0.initialise.addPointsR id pts).x.sum * (c0.initialise.addPointsR id pts).y.sum) /
        (c0.initialise.addPointsR id pts).slopeDenominatorR id ∧
    (c0.initialise.addPointsR id pts).slopeDenominatorR id =
      (pts.length : ℚ) * sumXX pts - sumX pts * sumX pts ∧
    0 ≤ (c0.initialise.addPointsR id pts).slopeDenominatorR id ∧
    ((c0.initialise.addPointsR id pts).slopeDenominatorR id = 0 ↔
      ∀ p ∈ pts, ∀ q ∈ pts, p.x = q.x) ∧
    ((c0.initialise.addPointsR id pts).slopeDenominatorR id ≠ 0 ↔
      ∃ p ∈ pts, ∃ q ∈ pts, p.x ≠ q.x) :=
  Calculator.slopeDenominator_exact c0 pts hlen

theorem C24_witness :
    (Calculator.slopeDenominatorR id
      (Calculator.initialise ⟨7, 1, 1, 1, 1, ⟨1, 1, 1, 1⟩, ⟨1, 1, 1, 1⟩, 0, none, none, none⟩
        |>.addPointsR id [⟨2, 1⟩, ⟨2, 5⟩]) = 0 ↔
      ∀ p ∈ ([⟨2, 1⟩, ⟨2, 5⟩] : List QPointF), ∀ q ∈ ([⟨2, 1⟩, ⟨2, 5⟩] : List QPointF),
        p.x = q.x) :=
  (C24_slope_denominator _ [⟨2, 1⟩, ⟨2, 5⟩] (by decide)).2.2.2.1

/-- C24 as stated fails in the `double` arithmetic of the program, in both directions:
for the three points with the distinct x values `10^8`, `10^8 + 1` and `10^8 + 2` the
divisor of the slope is computed as 0; for five points that share the x value
`0.7` (the `double` nearest to it) the divisor is computed as `-2^-49`, negative and
not zero. -/
theorem C24_counterexample :
    (Calculator.slopeDenominatorR binary64
      (Calculator.initialise ⟨7, 1, 1, 1, 1, ⟨1, 1, 1, 1⟩, ⟨1, 1, 1, 1⟩, 0, none, none, none⟩
        |>.addPointsR binary64 [⟨100000000, 1⟩, ⟨100000001, 2⟩, ⟨100000002, 3⟩]) = 0 ∧
      (100000000 : ℚ) ≠ 100000001) ∧
    (Calculator.slopeDenominatorR binary64
      (Calculator.initialise ⟨7, 1, 1, 1, 1, ⟨1, 1, 1, 1⟩, ⟨1, 1, 1, 1⟩, 0, none, none, none⟩
        |>.addPointsR binary64 (List.replicate 5 ⟨binary64 (7 / 10), 1⟩))
        = -(1 / 562949953421312) ∧
      ∀ p ∈ List.replicate 5 (⟨binary64 (7 / 10), 1⟩ : QPointF),
        ∀ q ∈ List.replicate 5 (⟨binary64 (7 / 10), 1⟩ : QPointF), p.x = q.x) := by
  refine ⟨⟨by decide!, by norm_num⟩, by decide!, ?_⟩
  intro p hp q hq
  rw [List.eq_of_mem_replicate hp, List.eq_of_mem_replicate hq]

/-- The sums over the points `(x, a*x + c)` of a line. -/
theorem sums_of_line (a c : ℚ) (xs : List ℚ) :
    sumX (xs.map (fun x => (⟨x, a * x + c⟩ : QPointF))) = xs.sum ∧
    sumY (xs.map (fun x => (⟨x, a * x + c⟩ : QPointF))) = a * xs.sum + (xs.length : ℚ) * c ∧
    sumXY (xs.map (fun x => (⟨x, a * x + c⟩ : QPointF))) =
      a * (xs.map (fun x => x * x)).sum + c * xs.sum ∧
    sumXX (xs.map (fun x => (⟨x, a * x + c⟩ : QPointF))) = (xs.map (fun x => x * x)).sum := by
  induction xs with
  | nil => simp [sumX, sumY, sumXY, sumXX]
  | cons x rest ih =>
    obtain ⟨i1, i2, i3, i4⟩ := ih
    simp only [sumX, sumY, sumXY, sumXX, List.map_cons, List.sum_cons, List.map_map,
      List.length_cons] at i1 i2 i3 i4 ⊢
    rw [i1, i2, i3, i4]
    push_cast
    refine ⟨rfl, ?_, ?_, rfl⟩ <;> ring

/-- Over exact arithmetic the regression of points on a line gives the line back. -/
theorem Calculator.recovers_line_exact (c0 : Calculator) (a c : ℚ) (xs : List ℚ)
    (hlen : 2 ≤ xs.length)
    (hdistinct : ∃ u ∈ xs, ∃ v ∈ xs, u ≠ v) :
    (c0.initialise.addPoints (xs.map (fun x => (⟨x, a * x + c⟩ : QPointF)))).finalise.m = a ∧
    (c0.initialise.addPoints (xs.map (fun x => (⟨x, a * x + c⟩ : QPointF)))).finalise.b = c := by
  have hlen2 : 2 ≤ (xs.map (fun x => (⟨x, a * x + c⟩ : QPointF))).length := by
    rw [List.length_map]; exact hlen
  have hne : xs.map (fun x => (⟨x, a * x + c⟩ : QPointF)) ≠ [] := by
    intro h
    rw [h] at hlen2
    simp at hlen2
  obtain ⟨hm, hb⟩ := Calculator.finalise_after c0 _ hlen2
  obtain ⟨s1, s2, s3, s4⟩ := sums_of_line a c xs
  have hden : ((xs.map (fun x => (⟨x, a * x + c⟩ : QPointF))).length : ℚ) *
      sumXX (xs.map (fun x => (⟨x, a * x + c⟩ : QPointF))) -
      sumX (xs.map (fun x => (⟨x, a * x + c⟩ : QPointF))) *
        sumX (xs.map (fun x => (⟨x, a * x + c⟩ : QPointF))) ≠ 0 := by
    intro hz
    have hall := (denominator_facts _ hne).2.1 hz
    obtain ⟨u, hu, v, hv, huv⟩ := hdistinct
    exact huv (hall ⟨u, a * u + c⟩ (List.mem_map.2 ⟨u, hu, rfl⟩)
      ⟨v, a * v + c⟩ (List.mem_map.2 ⟨v, hv, rfl⟩))
  have hn : ((xs.length : ℚ)) ≠ 0 := by
    have : 0 < xs.length := by omega
    exact_mod_cast (Nat.pos_iff_ne_zero.1 this)
  have hma : (c0.initialise.addPoints (xs.map (fun x => (⟨x, a * x + c⟩ : QPointF)))).finalise.m
      = a := by
    rw [hm]
    simp only [List.length_map, s1, s2, s3, s4] at hden ⊢
    rw [div_eq_iff hden]
    ring
  refine ⟨hma, ?_⟩
  rw [hb, hma, List.length_map, s1, s2, div_eq_iff hn]
  ring

/-- C27 (as amended): over exact arithmetic, that is with no result rounded, for all
rationals `a` and `c` and every list of two or more points `(x, a*x + c)` with at least
two distinct `x` values, a Calculator fed the list by `initialise`, `addPoint` and
`finalise` has `m = a` and `b = c`. -/
theorem C27_recovers_line (c0 : Calculator) (a c : ℚ) (xs : List ℚ) (hlen : 2 ≤ xs.length)
    (hdistinct : ∃ u ∈ xs, ∃ v ∈ xs, u ≠ v) :
    ((c0.initialise.addPointsR id
      (xs.map (fun x => (⟨x, a * x + c⟩ : QPointF)))).finaliseR id).m = a ∧
    ((c0.initialise.addPointsR id
      (xs.map (fun x => (⟨x, a * x + c⟩ : QPointF)))).finaliseR id).b = c :=
  Calculator.recovers_line_exact c0 a c xs hlen hdistinct

theorem C27_witness :
    ((Calculator.initialise ⟨7, 1, 1, 1, 1, ⟨1, 1, 1, 1⟩, ⟨1, 1, 1, 1⟩, 0, none, none, none⟩
      |>.addPointsR id
        (([1, 4, 4] : List ℚ).map (fun x => (⟨x, 3 * x + 5⟩ : QPointF)))).finaliseR id).m
        = 3 ∧
    ((Calculator.initialise ⟨7, 1, 1, 1, 1, ⟨1, 1, 1, 1⟩, ⟨1, 1, 1, 1⟩, 0, none, none, none⟩
      |>.addPointsR id
        (([1, 4, 4] : List ℚ).map (fun x => (⟨x, 3 * x + 5⟩ : QPointF)))).finaliseR id).b
        = 5 :=
  C27_recovers_line _ 3 5 [1, 4, 4] (by decide) ⟨1, by simp, 4, by simp, by norm_num⟩

/-- C27 as stated fails in the `double` arithmetic of the program: the three points
`(x, 3*x + 5)` for `x = 2^26`, `2^26 + 1`, `2^26 + 2` have coordinates that are exact
`double` values, and the program computes the divisor 8, the slope `m = 4` and the
intercept `b = -67108860` for them, not 3 and 5. -/
theorem C27_counterexample :
    ((Calculator.initialise ⟨7, 1, 1, 1, 1, ⟨1, 1, 1, 1⟩, ⟨1, 1, 1, 1⟩, 0, none, none, none⟩
      |>.addPointsR binary64 (([67108864, 67108865, 67108866] : List ℚ).map
        (fun x => (⟨x, 3 * x + 5⟩ : QPointF)))).finaliseR binary64).m = 4 ∧
    ((Calculator.initialise ⟨7, 1, 1, 1, 1, ⟨1, 1, 1, 1⟩, ⟨1, 1, 1, 1⟩, 0, none, none, none⟩
      |>.addPointsR binary64 (([67108864, 67108865, 67108866] : List ℚ).map
        (fun x => (⟨x, 3 * x + 5⟩ : QPointF)))).finaliseR binary64).b = -67108860 ∧
    (Calculator.initialise ⟨7, 1, 1, 1, 1, ⟨1, 1, 1, 1⟩, ⟨1, 1, 1, 1⟩, 0, none, none, none⟩
      |>.addPointsR binary64 (([67108864, 67108865, 67108866] : List ℚ).map
        (fun x => (⟨x, 3 * x + 5⟩ : QPointF)))).slopeDenominatorR binary64 = 8 ∧
    (([67108864, 67108865, 67108866] : List ℚ).map (fun x => (⟨x, 3 * x + 5⟩ : QPointF))).all
      (fun p => binary64 p.x = p.x ∧ binary64 p.y = p.y) = true := by
  refine ⟨?_, ?_, ?_, ?_⟩ <;> decide!

/-- The display attributes are not touched by `addPoint`. -/
theorem Calculator.attrs_after (c : Calculator) (pts : List QPointF) :
    (c.addPoints pts).color = c.color ∧ (c.addPoints pts).xaxis = c.xaxis ∧
    (c.addPoints pts).yaxis = c.yaxis ∧ (c.addPoints pts).series = c.series := by
  induction pts using List.reverseRecOn with
  | nil => simp [Calculator.addPoints]
  | append_singleton pts p ih =>
    rw [Calculator.addPoints_snoc]
    simpa [Calculator.addPoint] using ih

theorem AxisStats.axis_eq_of_fields (u v : AxisStats) (h1 : u.max = v.max) (h2 : u.min = v.min)
    (h3 : u.sum = v.sum) (h4 : u.mean = v.mean) : u = v := by
  cases u
  cases v
  simp_all

theorem Calculator.calc_eq_of_fields (c d : Calculator) (h1 : c.count = d.count) (h2 : c.m = d.m)
    (h3 : c.b = d.b) (h4 : c.sumxy = d.sumxy) (h5 : c.sumx2 = d.sumx2) (h6 : c.x = d.x)
    (h7 : c.y = d.y) (h8 : c.color = d.color) (h9 : c.xaxis = d.xaxis)
    (h10 : c.yaxis = d.yaxis) (h11 : c.series = d.series) : c = d := by
  cases c
  cases d
  simp_all

theorem sums_perm (l1 l2 : List QPointF) (h : l1.Perm l2) :
    sumX l1 = sumX l2 ∧ sumY l1 = sumY l2 ∧ sumXY l1 = sumXY l2 ∧ sumXX l1 = sumXX l2 := by
  unfold sumX sumY sumXY sumXX
  exact ⟨(h.map _).sum_eq, (h.map _).sum_eq, (h.map _).sum_eq, (h.map _).sum_eq⟩

/-- A Calculator fed a list of points is the Calculator fed any permutation of it. -/
theorem Calculator.addPoints_perm (c0 : Calculator) (l1 l2 : List QPointF) (h : l1.Perm l2) :
    c0.initialise.addPoints l1 = c0.initialise.addPoints l2 := by
  by_cases hnil : l1 = []
  · subst hnil
    rw [h.nil_eq]
  · have hnil2 : l2 ≠ [] := fun h2 => hnil (by rw [h2] at h; exact h.eq_nil)
    obtain ⟨a1, a2, a3, a4, a5⟩ := Calculator.sums_after c0 l1
    obtain ⟨b1, b2, b3, b4, b5⟩ := Calculator.sums_after c0 l2
    obtain ⟨s1, s2, s3, s4⟩ := sums_perm l1 l2 h
    obtain ⟨⟨m1, m2⟩, ⟨i1, l1x⟩, ⟨i2, l2x⟩, ⟨i3, l3x⟩, ⟨i4, l4x⟩⟩ :=
      Calculator.extrema_after c0 l1 hnil
    obtain ⟨⟨n1, n2⟩, ⟨j1, k1x⟩, ⟨j2, k2x⟩, ⟨j3, k3x⟩, ⟨j4, k4x⟩⟩ :=
      Calculator.extrema_after c0 l2 hnil2
    obtain ⟨c1, c2⟩ := Calculator.coeffs_after c0.initialise l1
    obtain ⟨d1, d2⟩ := Calculator.coeffs_after c0.initialise l2
    obtain ⟨e1, e2, e3, e4⟩ := Calculator.attrs_after c0.initialise l1
    obtain ⟨f1, f2, f3, f4⟩ := Calculator.attrs_after c0.initialise l2
    have hcount : (c0.initialise.addPoints l1).count = (c0.initialise.addPoints l2).count := by
      rw [a1, b1, h.length_eq]
    have hxsum : (c0.initialise.addPoints l1).x.sum = (c0.initialise.addPoints l2).x.sum := by
      rw [a2, b2, s1]
    have hysum : (c0.initialise.addPoints l1).y.sum = (c0.initialise.addPoints l2).y.sum := by
      rw [a3, b3, s2]
    apply Calculator.calc_eq_of_fields
    · exact hcount
    · rw [c1, d1]
    · rw [c2, d2]
    · rw [a4, b4, s3]
    · rw [a5, b5, s4]
    · apply AxisStats.axis_eq_of_fields
      · obtain ⟨p, hp, ep⟩ := i2
        obtain ⟨q, hq, eq⟩ := j2
        exact le_antisymm (ep ▸ k2x p (h.mem_iff.1 hp)) (eq ▸ l2x q (h.mem_iff.2 hq))
      · obtain ⟨p, hp, ep⟩ := i1
        obtain ⟨q, hq, eq⟩ := j1
        exact le_antisymm (eq ▸ l1x q (h.mem_iff.2 hq)) (ep ▸ k1x p (h.mem_iff.1 hp))
      · exact hxsum
      · rw [m1, n1, hxsum, hcount]
    · apply AxisStats.axis_eq_of_fields
      · obtain ⟨p, hp, ep⟩ := i4
        obtain ⟨q, hq, eq⟩ := j4
        exact le_antisymm (ep ▸ k4x p (h.mem_iff.1 hp)) (eq ▸ l4x q (h.mem_iff.2 hq))
      · obtain ⟨p, hp, ep⟩ := i3
        obtain ⟨q, hq, eq⟩ := j3
        exact le_antisymm (eq ▸ l3x q (h.mem_iff.2 hq)) (ep ▸ k3x p (h.mem_iff.1 hp))
      · exact hysum
      · rw [m2, n2, hysum, hcount]
    · rw [e1, f1]
    · rw [e2, f2]
    · rw [e3, f3]
    · rw [e4, f4]

/-- C28: the result of the Calculator does not depend on the order of the points: for
every list of points and every permutation of it, `initialise`, `addPoint` over the
list and `finalise` leave the same Calculator, hence the same count, per-axis min, max,
sum and mean, the same sums of `x*y` and `x*x`, and the same `m` and `b`. -/
theorem C28_order_independent (c0 : Calculator) (l1 l2 : List QPointF) (hperm : l1.Perm l2) :
    (c0.initialise.addPoints l1).finalise = (c0.initialise.addPoints l2).finalise ∧
    (c0.initialise.addPoints l1).finalise.count = (c0.initialise.addPoints l2).finalise.count ∧
    (c0.initialise.addPoints l1).finalise.x = (c0.initialise.addPoints l2).finalise.x ∧
    (c0.initialise.addPoints l1).finalise.y = (c0.initialise.addPoints l2).finalise.y ∧
    (c0.initialise.addPoints l1).finalise.sumxy = (c0.initialise.addPoints l2).finalise.sumxy ∧
    (c0.initialise.addPoints l1).finalise.sumx2 = (c0.initialise.addPoints l2).finalise.sumx2 ∧
    (c0.initialise.addPoints l1).finalise.m = (c0.initialise.addPoints l2).finalise.m ∧
    (c0.initialise.addPoints l1).finalise.b = (c0.initialise.addPoints l2).finalise.b := by
  rw [Calculator.addPoints_perm c0 l1 l2 hperm]
  exact ⟨rfl, rfl, rfl, rfl, rfl, rfl, rfl, rfl⟩

theorem C28_witness :
    (Calculator.initialise ⟨7, 1, 1, 1, 1, ⟨1, 1, 1, 1⟩, ⟨1, 1, 1, 1⟩, 0, none, none, none⟩
      |>.addPoints [⟨1, 2⟩, ⟨3, 5⟩, ⟨2, 2⟩]).finalise =
    (Calculator.initialise ⟨7, 1, 1, 1, 1, ⟨1, 1, 1, 1⟩, ⟨1, 1, 1, 1⟩, 0, none, none, none⟩
      |>.addPoints [⟨2, 2⟩, ⟨1, 2⟩, ⟨3, 5⟩]).finalise :=
  (C28_order_independent _ [⟨1, 2⟩, ⟨3, 5⟩, ⟨2, 2⟩] [⟨2, 2⟩, ⟨1, 2⟩, ⟨3, 5⟩]
    (by decide)).1

/-! ## Claim C23: the selection range is normalized -/

/-- The normalized x range is `(min, max)` of the two bounds. -/
theorem SelectionTool.xBounds_eq (t : SelectionTool) (id : Nat) :
    t.xBounds id = (min (t.minx id) (t.maxx id), max (t.minx id) (t.maxx id)) := by
  unfold SelectionTool.xBounds
  split_ifs with h
  · rw [min_eq_right (le_of_lt h), max_eq_left (le_of_lt h)]
  · rw [min_eq_left (not_lt.1 h), max_eq_right (not_lt.1 h)]

/-- The normalized y range is `(min, max)` of the two bounds. -/
theorem SelectionTool.yBounds_eq (t : SelectionTool) (id : Nat) :
    t.yBounds id = (min (t.miny id) (t.maxy id), max (t.miny id) (t.maxy id)) := by
  unfold SelectionTool.yBounds
  split_ifs with h
  · rw [min_eq_right (le_of_lt h), max_eq_left (le_of_lt h)]
  · rw [min_eq_left (not_lt.1 h), max_eq_right (not_lt.1 h)]

/-- The test on a point of a scatter series, in terms of the normalized ranges. -/
theorem SelectionTool.inScatterBounds_iff (t : SelectionTool) (id : Nat) (p : QPointF) :
    t.inScatterBounds id p = true ↔
      (min (t.minx id) (t.maxx id) ≤ p.x ∧ p.x ≤ max (t.minx id) (t.maxx id)) ∧
      (min (t.miny id) (t.maxy id) ≤ p.y ∧ p.y ≤ max (t.miny id) (t.maxy id)) := by
  unfold SelectionTool.inScatterBounds
  rw [decide_eq_true_iff, SelectionTool.xBounds_eq, SelectionTool.yBounds_eq]
  constructor
  · rintro ⟨a, b, c, d⟩
    exact ⟨⟨c, d⟩, ⟨a, b⟩⟩
  · rintro ⟨⟨c, d⟩, ⟨a, b⟩⟩
    exact ⟨a, b, c, d⟩

/-- On a Cartesian chart the region dragged backwards in x, in y or in both selects
the same points of a scatter series. -/
theorem SelectionTool.flip_inScatterBounds (t : SelectionTool)
    (haxis : t.host.axisAligned) (fx fy : Bool) (id : Nat) :
    (t.flip fx fy).inScatterBounds id = t.inScatterBounds id := by
  have hx : ((t.flip fx fy).minx id = t.minx id ∧ (t.flip fx fy).maxx id = t.maxx id) ∨
      ((t.flip fx fy).minx id = t.maxx id ∧ (t.flip fx fy).maxx id = t.minx id) := by
    unfold SelectionTool.flip SelectionTool.minx SelectionTool.maxx
    cases fx
    · left
      exact ⟨(haxis _ _ id).1 (by simp [QPointF.add]), (haxis _ _ id).1 (by simp [QPointF.add])⟩
    · right
      exact ⟨(haxis _ _ id).1 (by simp [QPointF.add]), (haxis _ _ id).1 (by simp [QPointF.add])⟩
  have hy : ((t.flip fx fy).miny id = t.miny id ∧ (t.flip fx fy).maxy id = t.maxy id) ∨
      ((t.flip fx fy).miny id = t.maxy id ∧ (t.flip fx fy).maxy id = t.miny id) := by
    unfold SelectionTool.flip SelectionTool.miny SelectionTool.maxy
    cases fy
    · left
      exact ⟨(haxis _ _ id).2 (by simp [QPointF.add]), (haxis _ _ id).2 (by simp [QPointF.add])⟩
    · right
      exact ⟨(haxis _ _ id).2 (by simp [QPointF.add]), (haxis _ _ id).2 (by simp [QPointF.add])⟩
  funext p
  rw [Bool.eq_iff_iff, SelectionTool.inScatterBounds_iff, SelectionTool.inScatterBounds_iff]
  rcases hx with ⟨a1, a2⟩ | ⟨a1, a2⟩ <;> rcases hy with ⟨b1, b2⟩ | ⟨b1, b2⟩ <;>
    rw [a1, a2, b1, b2]
  · rw [min_comm (t.maxy id), max_comm (t.maxy id)]
  · rw [min_comm (t.maxx id), max_comm (t.maxx id)]
  · rw [min_comm (t.maxx id), max_comm (t.maxx id), min_comm (t.maxy id), max_comm (t.maxy id)]

/-- C23: `updateScene()` normalizes an inverted range: a point of a scatter series is
selected exactly when `min(a,b) <= x <= max(a,b)` and `min(c,d) <= y <= max(c,d)` for
the x bounds `a`, `b` and the y bounds `c`, `d` derived from the region; hence, on a
Cartesian chart, the region dragged backwards in x, in y or in both selects the same
points and `updateScene()` publishes the same statistics for it. -/
theorem C23_normalized_range (t : SelectionTool) (x : QAbstractSeries) (fx fy : Bool)
    (haxis : t.host.axisAligned)
    (hstate : t.state ≠ State.INACTIVE) (hdistinct : t.host.ids.Nodup)
    (hx : x ∈ t.host.series) (hni : x.id ∉ t.ignore)
    (hty : x.type = SeriesType.SeriesTypeScatter) (hpts : x.points ≠ []) :
    (∀ p, t.inScatterBounds x.id p = true ↔
      (min (t.minx x.id) (t.maxx x.id) ≤ p.x ∧ p.x ≤ max (t.minx x.id) (t.maxx x.id)) ∧
      (min (t.miny x.id) (t.maxy x.id) ≤ p.y ∧ p.y ≤ max (t.miny x.id) (t.maxy x.id))) ∧
    x.points.filter ((t.flip fx fy).inScatterBounds x.id) =
      x.points.filter (t.inScatterBounds x.id) ∧
    (t.flip fx fy).updateScene.stats.lookup x.id = t.updateScene.stats.lookup x.id ∧
    t.updateScene.stats.lookup x.id =
      some ((Calculator.fresh (t.selectionColor x)
          (x.attachedAxes.find? (fun ax => !ax.vertical))
          (x.attachedAxes.find? (fun ax => ax.vertical)) x.id).addPoints
        (x.points.filter (t.inScatterBounds x.id))).finalise := by
  have h1 := SelectionTool.updateScene_scatter_stats t x hstate hdistinct hx hni hty hpts
  have h2 := SelectionTool.updateScene_scatter_stats (t.flip fx fy) x hstate hdistinct hx hni
    hty hpts
  have hf := SelectionTool.flip_inScatterBounds t haxis fx fy x.id
  have hc : (t.flip fx fy).selectionColor x = t.selectionColor x := rfl
  refine ⟨fun p => SelectionTool.inScatterBounds_iff t x.id p, by rw [hf], ?_, h1⟩
  rw [h1, h2, hf, hc]

theorem C23_witness :
    (scatterTool.flip true false).updateScene.stats.lookup 1 =
      scatterTool.updateScene.stats.lookup 1 :=
  (C23_normalized_range scatterTool
    { id := 1, name := "s", type := SeriesType.SeriesTypeScatter,
      points := [⟨1, 1⟩, ⟨1, 1⟩], color := 5, useOpenGL := false, attachedAxes := [] }
    true false
    (by
      intro p q id
      exact ⟨fun h => h, fun h => h⟩)
    (by decide) (by decide) (by simp [scatterTool, SelectionTool.new, scatterHost])
    (by simp [scatterTool, SelectionTool.new]) rfl (by simp)).2.2.1

/-! ## Claim C30: line series in `updateScene` -/

/-- The list `points` the selection loop leaves is what collecting gives on the points
that pass the test. -/
theorem selectPoint_fold_points (f : QPointF → Bool) (pts : List QPointF)
    (acc : List QPointF × Calculator) :
    (pts.foldl (selectPoint f) acc).1 =
      (pts.filter f).foldl (fun l p => if containsPoint l p then l else l ++ [p]) acc.1 := by
  induction pts generalizing acc with
  | nil => rfl
  | cons p rest ih =>
    simp only [List.foldl_cons]
    rw [ih]
    by_cases h : f p = true
    · simp [selectPoint, h, List.filter]
    · simp [selectPoint, h, List.filter]

/-- A coordinate compares equal to itself. -/
theorem qFuzzyCoordinate_self (a : ℚ) : qFuzzyCoordinate a a = true := by
  unfold qFuzzyCoordinate
  split_ifs with h
  · unfold qFuzzyIsNull
    rw [sub_self, binary64_zero, abs_zero, decide_eq_true_iff]
    exact binary64_nonneg _ (by norm_num)
  · unfold qFuzzyCompare
    rw [sub_self, binary64_zero, abs_zero, zero_mul, binary64_zero, decide_eq_true_iff]
    exact le_min (abs_nonneg a) (abs_nonneg a)

/-- A point compares equal to itself. -/
theorem QPointF.fuzzyEq_self (p : QPointF) : p.fuzzyEq p = true := by
  unfold QPointF.fuzzyEq
  rw [qFuzzyCoordinate_self, qFuzzyCoordinate_self]
  rfl

theorem containsPoint_append (l l2 : List QPointF) (p : QPointF)
    (h : containsPoint l p = true) : containsPoint (l ++ l2) p = true := by
  unfold containsPoint at h ⊢
  rw [List.any_append, h]
  rfl

/-- Collecting onto `acc` appends a sublist of the list; no point of the result compares
equal to a later one if that holds of `acc`; and every point of the list finds a point
of the result that compares equal to it. -/
theorem collect_fold_facts (l acc : List QPointF)
    (hacc : acc.Pairwise (fun a b => a.fuzzyEq b = false)) :
    (∃ l2, l.foldl (fun a p => if containsPoint a p then a else a ++ [p]) acc = acc ++ l2 ∧
      l2.Sublist l) ∧
    (l.foldl (fun a p => if containsPoint a p then a else a ++ [p]) acc).Pairwise
      (fun a b => a.fuzzyEq b = false) ∧
    (∀ p ∈ l, containsPoint
      (l.foldl (fun a p => if containsPoint a p then a else a ++ [p]) acc) p = true) := by
  induction l generalizing acc with
  | nil => exact ⟨⟨[], by simp, List.Sublist.refl _⟩, hacc, fun p hp => by simp at hp⟩
  | cons q rest ih =>
    simp only [List.foldl_cons]
    by_cases hq : containsPoint acc q = true
    · rw [if_pos hq]
      obtain ⟨⟨l2, e, hs⟩, hn, hm⟩ := ih acc hacc
      refine ⟨⟨l2, e, hs.trans (List.sublist_cons_self q rest)⟩, hn, ?_⟩
      intro p hp
      rcases List.mem_cons.1 hp with hp | hp
      · rw [hp, e]
        exact containsPoint_append acc l2 q hq
      · exact hm p hp
    · rw [if_neg hq]
      have hacc2 : (acc ++ [q]).Pairwise (fun a b => a.fuzzyEq b = false) := by
        rw [List.pairwise_append]
        refine ⟨hacc, List.pairwise_singleton _ _, ?_⟩
        intro a ha b hb
        rw [List.mem_singleton] at hb
        subst hb
        unfold containsPoint at hq
        rw [List.any_eq_true] at hq
        cases hfe : a.fuzzyEq b with
        | false => rfl
        | true => exact absurd ⟨a, ha, hfe⟩ hq
      obtain ⟨⟨l2, e, hs⟩, hn, hm⟩ := ih (acc ++ [q]) hacc2
      refine ⟨⟨q :: l2, by rw [e]; simp, hs.cons₂ q⟩, hn, ?_⟩
      intro p hp
      rcases List.mem_cons.1 hp with hp | hp
      · rw [hp, e]
        apply containsPoint_append
        unfold containsPoint
        rw [List.any_append]
        simp [QPointF.fuzzyEq_self]
      · exact hm p hp

/-- The list `collectPoints l` is a sublist of `l` that starts with the first point of
`l`; no point of it compares equal to a later one; every point of `l` finds a point
of it that compares equal, so a point is left out only for an earlier point equal to
it within the tolerance. -/
theorem collectPoints_facts (l : List QPointF) :
    (collectPoints l).Sublist l ∧
    (collectPoints l).Pairwise (fun a b => a.fuzzyEq b = false) ∧
    (∀ p ∈ l, containsPoint (collectPoints l) p = true) ∧
    (∀ p rest, l = p :: rest → ∃ l2, collectPoints l = p :: l2) := by
  obtain ⟨⟨l2, e, hs⟩, hn, hm⟩ := collect_fold_facts l [] List.Pairwise.nil
  unfold collectPoints
  refine ⟨?_, hn, hm, ?_⟩
  · rw [e]
    simpa using hs
  · intro p rest hl
    subst hl
    simp only [List.foldl_cons]
    have h0 : containsPoint [] p = false := rfl
    rw [h0]
    obtain ⟨⟨l3, e3, -⟩, -, -⟩ :=
      collect_fold_facts rest ([] ++ [p]) (by simp)
    exact ⟨l3, by simpa using e3⟩

/-- The test on a point of a line series, in terms of the normalized x range. -/
theorem SelectionTool.inLineBounds_iff (t : SelectionTool) (id : Nat) (p : QPointF) :
    t.inLineBounds id p = true ↔
      min (t.minx id) (t.maxx id) ≤ p.x ∧ p.x ≤ max (t.minx id) (t.maxx id) := by
  unfold SelectionTool.inLineBounds
  rw [decide_eq_true_iff, SelectionTool.xBounds_eq]

/-- The test on the points of a line series reads the position, the width of the
rectangle and the coordinate mapping only. -/
theorem SelectionTool.inLineBounds_congr (t t2 : SelectionTool) (h1 : t2.pos = t.pos)
    (h2 : t2.rect.width = t.rect.width) (h3 : t2.host.mapToValue = t.host.mapToValue)
    (id : Nat) : t2.inLineBounds id = t.inLineBounds id := by
  funext p
  unfold SelectionTool.inLineBounds SelectionTool.xBounds SelectionTool.minx SelectionTool.maxx
  rw [h1, h2, h3]

/-- One pass of the loop of `updateScene` for a line series with points that is not an
overlay series. -/
theorem SelectionTool.updateSceneSeries_line (t : SelectionTool) (x : QAbstractSeries)
    (hni : x.id ∉ t.ignore) (hty : x.type = SeriesType.SeriesTypeLine)
    (hpts : x.points ≠ []) :
    t.updateSceneSeries x =
      SelectionTool.publishSelection
        (t.selectionFor x (x.attachedAxes.find? (fun ax => !ax.vertical))
          (x.attachedAxes.find? (fun ax => ax.vertical))).1 x
        (t.selectionFor x (x.attachedAxes.find? (fun ax => !ax.vertical))
          (x.attachedAxes.find? (fun ax => ax.vertical))).2
        (x.attachedAxes.find? (fun ax => !ax.vertical))
        (x.attachedAxes.find? (fun ax => ax.vertical)) (t.inLineBounds x.id) := by
  unfold SelectionTool.updateSceneSeries
  have h1 : ¬ (t.ignore.contains x.id = true) := by simpa using hni
  have h2 : ¬ (x.points.length < 1) := by
    have := List.length_pos.2 hpts
    omega
  rw [if_neg h1]
  simp only [hty, h2, if_false]

/-- The entry `updateScene` publishes for a line series of the chart. -/
theorem SelectionTool.updateScene_line_stats (t : SelectionTool) (x : QAbstractSeries)
    (hstate : t.state ≠ State.INACTIVE) (hdistinct : t.host.ids.Nodup)
    (hx : x ∈ t.host.series) (hni : x.id ∉ t.ignore)
    (hty : x.type = SeriesType.SeriesTypeLine) (hpts : x.points ≠ []) :
    t.updateScene.stats.lookup x.id =
      some ((Calculator.fresh (t.selectionColor x)
          (x.attachedAxes.find? (fun ax => !ax.vertical))
          (x.attachedAxes.find? (fun ax => ax.vertical)) x.id).addPoints
        (x.points.filter (t.inLineBounds x.id))).finalise := by
  unfold SelectionTool.updateScene
  rw [if_pos hstate]
  obtain ⟨pre, post, hsplit⟩ := List.append_of_mem hx
  have hids : t.host.ids = pre.map (fun s => s.id) ++ x.id :: post.map (fun s => s.id) := by
    unfold Host.ids
    rw [hsplit]
    simp
  rw [hids] at hdistinct
  have hnd := List.nodup_append.1 hdistinct
  have hpre : ∀ y ∈ pre, y.id ≠ x.id := by
    intro y hy heq
    exact hnd.2.2 (List.mem_map.2 ⟨y, hy, rfl⟩) (by rw [heq]; exact List.mem_cons_self _ _)
  have hpost : ∀ y ∈ post, y.id ≠ x.id := by
    intro y hy heq
    exact (List.nodup_cons.1 hnd.2.1).1 (by rw [← heq]; exact List.mem_map.2 ⟨y, hy, rfl⟩)
  have hin : x.id ∈ t.host.ids := by
    rw [hids]
    simp
  obtain ⟨b1, b2, b3, b4, b5, b6⟩ :=
    SelectionTool.updateScene_loop_before x pre t hpre hin hni
  rw [hsplit, List.foldl_append, List.foldl_cons,
    SelectionTool.updateScene_loop_after x post _ hpost,
    SelectionTool.updateSceneSeries_line _ x b5 hty hpts,
    (SelectionTool.publishSelection_facts _ _ _ _ _ _).2.2.2.2.2.2,
    statsInsert_lookup_self,
    (SelectionTool.selectionFor_facts _ _ _ _).2.2.2.2.2.2.2,
    SelectionTool.selectionColor_congr t _ x b6,
    SelectionTool.inLineBounds_congr t _ b1 (by rw [b2]) b3]

/-- The overlay series `selectionFor` returns: it is the entry of the series in
`selections` afterwards; it is either the entry that was there, the tool staying as it
is, or a series at a new address put on the chart; and every series then on the chart
is one that was there, with its points, or is at the new address. -/
theorem SelectionTool.selectionFor_overlay (t : SelectionTool) (y : QAbstractSeries)
    (xa ya : Option AxisRef) :
    (t.selectionFor y xa ya).1.selections.lookup y.id = some (t.selectionFor y xa ya).2 ∧
    ((t.selections.lookup y.id = some (t.selectionFor y xa ya).2 ∧
        (t.selectionFor y xa ya).1 = t) ∨
      (t.selections.lookup y.id = none ∧ (t.selectionFor y xa ya).2.id = t.host.freshId ∧
        t.host.freshId ∈ (t.selectionFor y xa ya).1.host.ids)) ∧
    (∀ s ∈ (t.selectionFor y xa ya).1.host.series,
      (∃ s0 ∈ t.host.series, s0.id = s.id ∧ s0.points = s.points) ∨ s.id = t.host.freshId) := by
  unfold SelectionTool.selectionFor
  cases hl : t.selections.lookup y.id with
  | some sel =>
    exact ⟨hl, Or.inl ⟨rfl, rfl⟩, fun s hs => Or.inl ⟨s, hs, rfl, rfl⟩⟩
  | none =>
    refine ⟨by simp [List.lookup], Or.inr ⟨rfl, rfl, by simp [Host.ids, newSelection]⟩, ?_⟩
    intro s hs
    simp only [List.mem_append, List.mem_singleton] at hs
    rcases hs with hs | hs
    · left
      by_cases hgl : y.useOpenGL = true
      · simp only [hgl, if_true] at hs
        exact ⟨s, hs, rfl, rfl⟩
      · simp only [hgl, Bool.false_eq_true, if_false] at hs
        rw [List.mem_map] at hs
        obtain ⟨s0, hs0, he⟩ := hs
        refine ⟨s0, hs0, ?_, ?_⟩ <;> (rw [← he]; split_ifs <;> rfl)
    · right
      rw [hs]
      rfl

/-- One pass of the loop of `updateScene` keeps the bookkeeping of the overlay series
in order. -/
theorem SelectionTool.updateSceneSeries_overlaysDistinct (t : SelectionTool)
    (y : QAbstractSeries) (hwf : t.overlaysDistinct) :
    (t.updateSceneSeries y).overlaysDistinct := by
  rcases SelectionTool.updateSceneSeries_cases t y with h | ⟨f, h⟩
  · rw [h]; exact hwf
  · rw [h]
    obtain ⟨-, -, -, -, s5, -, s7, -⟩ := SelectionTool.selectionFor_facts t y
      (y.attachedAxes.find? (fun ax => !ax.vertical)) (y.attachedAxes.find? (fun ax => ax.vertical))
    obtain ⟨-, -, -, -, p5, p6, -⟩ := SelectionTool.publishSelection_facts
      (t.selectionFor y (y.attachedAxes.find? (fun ax => !ax.vertical))
        (y.attachedAxes.find? (fun ax => ax.vertical))).1 y
      (t.selectionFor y (y.attachedAxes.find? (fun ax => !ax.vertical))
        (y.attachedAxes.find? (fun ax => ax.vertical))).2
      (y.attachedAxes.find? (fun ax => !ax.vertical))
      (y.attachedAxes.find? (fun ax => ax.vertical)) f
    obtain ⟨o1, o2, -⟩ := SelectionTool.selectionFor_overlay t y
      (y.attachedAxes.find? (fun ax => !ax.vertical)) (y.attachedAxes.find? (fun ax => ax.vertical))
    unfold SelectionTool.overlaysDistinct
    rw [p5, p6]
    rcases o2 with ⟨-, hsame⟩ | ⟨hnone, hid, hfresh⟩
    · rw [hsame]
      exact hwf
    · have hold : ∀ k s, (t.selectionFor y (y.attachedAxes.find? (fun ax => !ax.vertical))
          (y.attachedAxes.find? (fun ax => ax.vertical))).1.selections.lookup k = some s →
          (k = y.id ∧ s.id = t.host.freshId) ∨ (k ≠ y.id ∧ t.selections.lookup k = some s) := by
        intro k s hk
        by_cases hky : k = y.id
        · left
          rw [hky, o1] at hk
          exact ⟨hky, by rw [← Option.some.inj hk, hid]⟩
        · right
          rw [s7 k hky] at hk
          exact ⟨hky, hk⟩
      constructor
      · intro k s hk
        rcases hold k s hk with ⟨-, h2⟩ | ⟨-, h2⟩
        · rw [h2]; exact hfresh
        · exact s5 _ (hwf.1 k s h2)
      · intro k1 k2 s1 s2 h1 h2 hne
        rcases hold k1 s1 h1 with ⟨a1, a2⟩ | ⟨a1, a2⟩ <;>
          rcases hold k2 s2 h2 with ⟨b1, b2⟩ | ⟨b1, b2⟩
        · exact absurd (a1.trans b1.symm) hne
        · have := Host.lt_freshId t.host _ (hwf.1 k2 s2 b2)
          omega
        · have := Host.lt_freshId t.host _ (hwf.1 k1 s1 a2)
          omega
        · exact hwf.2 k1 k2 s1 s2 a2 b2 hne

/-- The loop of `updateScene` keeps the bookkeeping of the overlay series in order. -/
theorem SelectionTool.updateScene_loop_overlaysDistinct (l : List QAbstractSeries)
    (t : SelectionTool) (hwf : t.overlaysDistinct) :
    (l.foldl SelectionTool.updateSceneSeries t).overlaysDistinct := by
  induction l generalizing t with
  | nil => exact hwf
  | cons y rest ih =>
    simp only [List.foldl_cons]
    exact ih _ (SelectionTool.updateSceneSeries_overlaysDistinct t y hwf)

/-- The constructed tool has no overlay series. -/
theorem SelectionTool.new_overlaysDistinct (host : Host) :
    (SelectionTool.new host).overlaysDistinct := by
  constructor
  · intro k s h
    simp [SelectionTool.new, List.lookup] at h
  · intro k1 k2 s1 s2 h
    simp [SelectionTool.new, List.lookup] at h

/-- The function `updateScene` keeps the bookkeeping of the overlay series in order. -/
theorem SelectionTool.updateScene_overlaysDistinct (t : SelectionTool)
    (hwf : t.overlaysDistinct) : t.updateScene.overlaysDistinct := by
  unfold SelectionTool.updateScene
  split_ifs with h
  · exact SelectionTool.updateScene_loop_overlaysDistinct _ t hwf
  · have hs : t.resetSelections.selections = [] := by
      unfold SelectionTool.resetSelections
      split_ifs <;> simp_all
    constructor
    · intro k s hk
      rw [hs] at hk
      simp [List.lookup] at hk
    · intro k1 k2 s1 s2 hk
      rw [hs] at hk
      simp [List.lookup] at hk

/-- A pass of the loop of `updateScene` for a series other than `x` leaves the points of
the series at the address `o` as they are, when `o` is on the chart and is not the
address of the overlay series of another series. -/
theorem SelectionTool.updateSceneSeries_keeps_overlay (t : SelectionTool)
    (x y : QAbstractSeries) (o : Nat) (P : List QPointF) (hne : y.id ≠ x.id)
    (ho : o ∈ t.host.ids)
    (hsel : ∀ k s, t.selections.lookup k = some s → k ≠ x.id → s.id ≠ o)
    (hP : ∀ s ∈ t.host.series, s.id = o → s.points = P) :
    o ∈ (t.updateSceneSeries y).host.ids ∧
    (∀ k s, (t.updateSceneSeries y).selections.lookup k = some s → k ≠ x.id → s.id ≠ o) ∧
    (∀ s ∈ (t.updateSceneSeries y).host.series, s.id = o → s.points = P) := by
  rcases SelectionTool.updateSceneSeries_cases t y with h | ⟨f, h⟩
  · rw [h]; exact ⟨ho, hsel, hP⟩
  · rw [h]
    obtain ⟨-, -, -, -, s5, -, s7, -⟩ := SelectionTool.selectionFor_facts t y
      (y.attachedAxes.find? (fun ax => !ax.vertical)) (y.attachedAxes.find? (fun ax => ax.vertical))
    obtain ⟨-, -, -, -, p5, p6, -⟩ := SelectionTool.publishSelection_facts
      (t.selectionFor y (y.attachedAxes.find? (fun ax => !ax.vertical))
        (y.attachedAxes.find? (fun ax => ax.vertical))).1 y
      (t.selectionFor y (y.attachedAxes.find? (fun ax => !ax.vertical))
        (y.attachedAxes.find? (fun ax => ax.vertical))).2
      (y.attachedAxes.find? (fun ax => !ax.vertical))
      (y.attachedAxes.find? (fun ax => ax.vertical)) f
    obtain ⟨o1, o2, o3⟩ := SelectionTool.selectionFor_overlay t y
      (y.attachedAxes.find? (fun ax => !ax.vertical)) (y.attachedAxes.find? (fun ax => ax.vertical))
    have hfresh : o ≠ t.host.freshId := by
      have := Host.lt_freshId t.host o ho
      omega
    have hselid : (t.selectionFor y (y.attachedAxes.find? (fun ax => !ax.vertical))
        (y.attachedAxes.find? (fun ax => ax.vertical))).2.id ≠ o := by
      rcases o2 with ⟨hl, -⟩ | ⟨-, hid, -⟩
      · exact hsel y.id _ hl hne
      · rw [hid]; exact fun e => hfresh e.symm
    refine ⟨?_, ?_, ?_⟩
    · rw [p6]; exact s5 o ho
    · intro k s hk hkx
      rw [p5] at hk
      by_cases hky : k = y.id
      · rw [hky, o1] at hk
        rw [← Option.some.inj hk]
        exact hselid
      · rw [s7 k hky] at hk
        exact hsel k s hk hkx
    · intro s hs hso
      unfold SelectionTool.publishSelection at hs
      simp only [List.mem_map] at hs
      obtain ⟨s1, hs1, he⟩ := hs
      by_cases h1 : s1.id = (t.selectionFor y (y.attachedAxes.find? (fun ax => !ax.vertical))
          (y.attachedAxes.find? (fun ax => ax.vertical))).2.id
      · rw [if_pos h1] at he
        rw [← he] at hso
        exact absurd (h1.symm.trans hso) hselid
      · rw [if_neg h1] at he
        rw [← he] at hso ⊢
        rcases o3 s1 hs1 with ⟨s0, hs0, e1, e2⟩ | hnew
        · rw [← e2]
          exact hP s0 hs0 (e1.trans hso)
        · exact absurd (hso.symm.trans hnew) hfresh

/-- The passes of the loop of `updateScene` over series other than `x` leave the
overlay series of `x` and its points as they are. -/
theorem SelectionTool.updateScene_loop_keeps_overlay (x : QAbstractSeries)
    (post : List QAbstractSeries) (t : SelectionTool) (sel : QAbstractSeries)
    (P : List QPointF) (hpost : ∀ y ∈ post, y.id ≠ x.id)
    (hlook : t.selections.lookup x.id = some sel) (ho : sel.id ∈ t.host.ids)
    (hsel : ∀ k s, t.selections.lookup k = some s → k ≠ x.id → s.id ≠ sel.id)
    (hP : ∀ s ∈ t.host.series, s.id = sel.id → s.points = P) :
    (post.foldl SelectionTool.updateSceneSeries t).selections.lookup x.id = some sel ∧
    sel.id ∈ (post.foldl SelectionTool.updateSceneSeries t).host.ids ∧
    (∀ s ∈ (post.foldl SelectionTool.updateSceneSeries t).host.series,
      s.id = sel.id → s.points = P) := by
  induction post generalizing t with
  | nil => exact ⟨hlook, ho, hP⟩
  | cons y rest ih =>
    simp only [List.foldl_cons]
    have hne : y.id ≠ x.id := hpost y (List.mem_cons_self y rest)
    obtain ⟨k1, k2, k3⟩ :=
      SelectionTool.updateSceneSeries_keeps_overlay t x y sel.id P hne ho hsel hP
    have hl2 := ((SelectionTool.updateSceneSeries_frame t y).2.2.2.2.2 x.id
      (fun e => hne e.symm)).1
    exact ih (t.updateSceneSeries y) (fun z hz => hpost z (List.mem_cons_of_mem y hz))
      (hl2.trans hlook) k1 k2 k3

/-- After the pass of the loop of `updateScene` for a line series, the series has an
overlay series in `selections`, which is on the chart at an address no other overlay
series has, and every series of the chart at that address holds the collected points. -/
theorem SelectionTool.updateSceneSeries_line_overlay (t : SelectionTool) (x : QAbstractSeries)
    (hni : x.id ∉ t.ignore) (hty : x.type = SeriesType.SeriesTypeLine)
    (hpts : x.points ≠ []) (hwf : t.overlaysDistinct) :
    ∃ sel, (t.updateSceneSeries x).selections.lookup x.id = some sel ∧
      sel.id ∈ (t.updateSceneSeries x).host.ids ∧
      (∀ k s, (t.updateSceneSeries x).selections.lookup k = some s → k ≠ x.id →
        s.id ≠ sel.id) ∧
      (∀ s ∈ (t.updateSceneSeries x).host.series, s.id = sel.id →
        s.points = collectPoints (x.points.filter (t.inLineBounds x.id))) := by
  rw [SelectionTool.updateSceneSeries_line t x hni hty hpts]
  obtain ⟨-, -, -, -, s5, -, s7, -⟩ := SelectionTool.selectionFor_facts t x
    (x.attachedAxes.find? (fun ax => !ax.vertical)) (x.attachedAxes.find? (fun ax => ax.vertical))
  obtain ⟨-, -, -, -, p5, p6, -⟩ := SelectionTool.publishSelection_facts
    (t.selectionFor x (x.attachedAxes.find? (fun ax => !ax.vertical))
      (x.attachedAxes.find? (fun ax => ax.vertical))).1 x
    (t.selectionFor x (x.attachedAxes.find? (fun ax => !ax.vertical))
      (x.attachedAxes.find? (fun ax => ax.vertical))).2
    (x.attachedAxes.find? (fun ax => !ax.vertical))
    (x.attachedAxes.find? (fun ax => ax.vertical)) (t.inLineBounds x.id)
  obtain ⟨o1, o2, -⟩ := SelectionTool.selectionFor_overlay t x
    (x.attachedAxes.find? (fun ax => !ax.vertical)) (x.attachedAxes.find? (fun ax => ax.vertical))
  refine ⟨(t.selectionFor x (x.attachedAxes.find? (fun ax => !ax.vertical))
      (x.attachedAxes.find? (fun ax => ax.vertical))).2, ?_, ?_, ?_, ?_⟩
  · rw [p5]; exact o1
  · rw [p6]
    rcases o2 with ⟨hl, -⟩ | ⟨-, hid, hfresh⟩
    · exact s5 _ (hwf.1 x.id _ hl)
    · rw [hid]; exact hfresh
  · intro k s hk hkx
    rw [p5, s7 k hkx] at hk
    rcases o2 with ⟨hl, -⟩ | ⟨-, hid, -⟩
    · exact hwf.2 k x.id s _ hk hl hkx
    · rw [hid]
      have := Host.lt_freshId t.host _ (hwf.1 k s hk)
      omega
  · intro s hs hid
    unfold SelectionTool.publishSelection at hs
    simp only [selectPoint_fold_points, List.mem_map] at hs
    obtain ⟨s0, -, e⟩ := hs
    by_cases h0 : s0.id = (t.selectionFor x (x.attachedAxes.find? (fun ax => !ax.vertical))
        (x.attachedAxes.find? (fun ax => ax.vertical))).2.id
    · rw [if_pos h0] at e
      rw [← e]
      rfl
    · rw [if_neg h0] at e
      rw [← e] at hid
      exact absurd hid h0

/-- The overlay series `updateScene` leaves for a line series of the chart: it is in
`selections` and on the chart, and holds the collected points. -/
theorem SelectionTool.updateScene_line_overlay (t : SelectionTool) (x : QAbstractSeries)
    (hstate : t.state ≠ State.INACTIVE) (hdistinct : t.host.ids.Nodup)
    (hx : x ∈ t.host.series) (hni : x.id ∉ t.ignore)
    (hty : x.type = SeriesType.SeriesTypeLine) (hpts : x.points ≠ [])
    (hwf : t.overlaysDistinct) :
    ∃ sel, t.updateScene.selections.lookup x.id = some sel ∧
      (∃ s ∈ t.updateScene.host.series, s.id = sel.id) ∧
      (∀ s ∈ t.updateScene.host.series, s.id = sel.id →
        s.points = collectPoints (x.points.filter (t.inLineBounds x.id))) := by
  unfold SelectionTool.updateScene
  rw [if_pos hstate]
  obtain ⟨pre, post, hsplit⟩ := List.append_of_mem hx
  have hids : t.host.ids = pre.map (fun s => s.id) ++ x.id :: post.map (fun s => s.id) := by
    unfold Host.ids
    rw [hsplit]
    simp
  rw [hids] at hdistinct
  have hnd := List.nodup_append.1 hdistinct
  have hpre : ∀ y ∈ pre, y.id ≠ x.id := by
    intro y hy heq
    exact hnd.2.2 (List.mem_map.2 ⟨y, hy, rfl⟩) (by rw [heq]; exact List.mem_cons_self _ _)
  have hpost : ∀ y ∈ post, y.id ≠ x.id := by
    intro y hy heq
    exact (List.nodup_cons.1 hnd.2.1).1 (by rw [← heq]; exact List.mem_map.2 ⟨y, hy, rfl⟩)
  have hin : x.id ∈ t.host.ids := by
    rw [hids]
    simp
  obtain ⟨b1, b2, b3, -, b5, -⟩ :=
    SelectionTool.updateScene_loop_before x pre t hpre hin hni
  obtain ⟨sel, c1, c2, c3, c4⟩ := SelectionTool.updateSceneSeries_line_overlay
    (pre.foldl SelectionTool.updateSceneSeries t) x b5 hty hpts
    (SelectionTool.updateScene_loop_overlaysDistinct pre t hwf)
  rw [SelectionTool.inLineBounds_congr t _ b1 (by rw [b2]) b3] at c4
  obtain ⟨d1, d2, d3⟩ := SelectionTool.updateScene_loop_keeps_overlay x post _ sel _ hpost
    c1 c2 c3 c4
  rw [hsplit, List.foldl_append, List.foldl_cons]
  refine ⟨sel, d1, ?_, d3⟩
  unfold Host.ids at d2
  rw [List.mem_map] at d2
  obtain ⟨s, hs, he⟩ := d2
  exact ⟨s, hs, he⟩

/-- C30 (as amended): for every line series with points on a chart of distinct series,
not an overlay series, processed by `updateScene()` in a state other than INACTIVE, a
point is selected exactly when its `x` lies within the normalized x bounds of the
region, whatever its `y` and whatever the height of the region; the statistics
published are those of a fresh Calculator fed the selected points; and the overlay
series of the series holds the selected points in their order, a point being left out
when Qt's comparison of points, which has a tolerance, finds it equal to a point
already taken: identical points are dropped, and so are points that differ from an
earlier one within the tolerance. -/
theorem C30_line_selection (t : SelectionTool) (x : QAbstractSeries)
    (hstate : t.state ≠ State.INACTIVE) (hdistinct : t.host.ids.Nodup)
    (hx : x ∈ t.host.series) (hni : x.id ∉ t.ignore)
    (hty : x.type = SeriesType.SeriesTypeLine) (hpts : x.points ≠ [])
    (hwf : t.overlaysDistinct) :
    (∀ p, t.inLineBounds x.id p = true ↔
      min (t.minx x.id) (t.maxx x.id) ≤ p.x ∧ p.x ≤ max (t.minx x.id) (t.maxx x.id)) ∧
    (∀ p q : QPointF, p.x = q.x → t.inLineBounds x.id p = t.inLineBounds x.id q) ∧
    (∀ h : ℚ, SelectionTool.inLineBounds { t with rect := { t.rect with height := h } } x.id
      = t.inLineBounds x.id) ∧
    t.updateScene.stats.lookup x.id =
      some ((Calculator.fresh (t.selectionColor x)
          (x.attachedAxes.find? (fun ax => !ax.vertical))
          (x.attachedAxes.find? (fun ax => ax.vertical)) x.id).addPoints
        (x.points.filter (t.inLineBounds x.id))).finalise ∧
    (∃ sel, t.updateScene.selections.lookup x.id = some sel ∧
      (∃ s ∈ t.updateScene.host.series, s.id = sel.id) ∧
      (∀ s ∈ t.updateScene.host.series, s.id = sel.id →
        s.points = collectPoints (x.points.filter (t.inLineBounds x.id)))) ∧
    ((collectPoints (x.points.filter (t.inLineBounds x.id))).Sublist
        (x.points.filter (t.inLineBounds x.id)) ∧
      (collectPoints (x.points.filter (t.inLineBounds x.id))).Pairwise
        (fun a b => a.fuzzyEq b = false) ∧
      (∀ p ∈ x.points, t.inLineBounds x.id p = true →
        ∃ q ∈ collectPoints (x.points.filter (t.inLineBounds x.id)), q.fuzzyEq p = true) ∧
      (∀ p rest, x.points.filter (t.inLineBounds x.id) = p :: rest →
        ∃ l2, collectPoints (x.points.filter (t.inLineBounds x.id)) = p :: l2)) := by
  obtain ⟨d1, d2, d3, d4⟩ := collectPoints_facts (x.points.filter (t.inLineBounds x.id))
  refine ⟨fun p => SelectionTool.inLineBounds_iff t x.id p, ?_, fun _ => rfl,
    SelectionTool.updateScene_line_stats t x hstate hdistinct hx hni hty hpts,
    SelectionTool.updateScene_line_overlay t x hstate hdistinct hx hni hty hpts hwf,
    d1, d2, ?_, d4⟩
  · intro p q hpq
    unfold SelectionTool.inLineBounds
    rw [hpq]
  · intro p hp hb
    have := d3 p (List.mem_filter.2 ⟨hp, hb⟩)
    unfold containsPoint at this
    rw [List.any_eq_true] at this
    exact this

/-! ## Claim C25: the element read after `std::lower_bound` -/

/-- A list sorted by `x`, in terms of positions. -/
theorem sorted_positions (p : List QPointF) (hs : p.Pairwise (fun a b => a.x ≤ b.x))
    (i j : Nat) (a b : QPointF) (hij : i ≤ j) (ha : p[i]? = some a) (hb : p[j]? = some b) :
    a.x ≤ b.x := by
  rcases Nat.lt_or_eq_of_le hij with hlt | heq
  · obtain ⟨hi, ea⟩ := List.getElem?_eq_some_iff.1 ha
    obtain ⟨hj, eb⟩ := List.getElem?_eq_some_iff.1 hb
    have := List.pairwise_iff_getElem.1 hs i j hi hj hlt
    rw [ea, eb] at this
    exact this
  · subst heq
    rw [ha] at hb
    cases hb
    exact le_refl _

/-- The loop of `std::lower_bound` on a list sorted by `x`: below the position returned
every `x` is less than the value, from it on none is. -/
theorem lowerBoundLoop_spec (p : List QPointF) (v : ℚ)
    (hs : p.Pairwise (fun a b => a.x ≤ b.x)) (fuel first len : Nat)
    (hfuel : len ≤ fuel) (hlen : first + len ≤ p.length)
    (hlow : ∀ i a, i < first → p[i]? = some a → a.x < v)
    (hhigh : ∀ i a, first + len ≤ i → p[i]? = some a → ¬ a.x < v) :
    lowerBoundLoop p ⟨v, 0⟩ fuel first len ≤ p.length ∧
    (∀ i a, i < lowerBoundLoop p ⟨v, 0⟩ fuel first len → p[i]? = some a → a.x < v) ∧
    (∀ i a, lowerBoundLoop p ⟨v, 0⟩ fuel first len ≤ i → p[i]? = some a → ¬ a.x < v) := by
  induction fuel generalizing first len with
  | zero =>
    have h0 : len = 0 := by omega
    subst h0
    unfold lowerBoundLoop
    exact ⟨by omega, hlow, fun i a hi => hhigh i a (by omega)⟩
  | succ fuel ih =>
    unfold lowerBoundLoop
    by_cases h0 : len = 0
    · rw [if_pos h0]
      subst h0
      exact ⟨by omega, hlow, fun i a hi => hhigh i a (by omega)⟩
    · rw [if_neg h0]
      have hhalf : len / 2 < len := Nat.div_lt_self (Nat.pos_of_ne_zero h0) (by decide)
      have hmid : first + len / 2 < p.length := by omega
      obtain ⟨middle, hmiddle⟩ : ∃ middle, p[first + len / 2]? = some middle :=
        ⟨_, List.getElem?_eq_getElem hmid⟩
      rw [hmiddle]
      dsimp only
      by_cases hc : middle.x < v
      · have hcb : CompareQPointFX middle ⟨v, 0⟩ = true := by
          simp [CompareQPointFX, hc]
        rw [if_pos hcb]
        apply ih
        · omega
        · omega
        · intro i a hi ha
          have := sorted_positions p hs i (first + len / 2) a middle (by omega) ha hmiddle
          linarith
        · intro i a hi ha
          exact hhigh i a (by omega) ha
      · have hcb : ¬ (CompareQPointFX middle ⟨v, 0⟩ = true) := by
          simp [CompareQPointFX, hc]
        rw [if_neg hcb]
        apply ih
        · omega
        · omega
        · exact hlow
        · intro i a hi ha
          have := sorted_positions p hs (first + len / 2) i middle a hi hmiddle ha
          intro hlt
          exact hc (lt_of_le_of_lt this hlt)

/-- The position `std::lower_bound` returns on a list sorted by `x`. -/
theorem lowerBound_spec (p : List QPointF) (v : ℚ) (hs : p.Pairwise (fun a b => a.x ≤ b.x)) :
    lowerBound p ⟨v, 0⟩ ≤ p.length ∧
    (∀ i a, i < lowerBound p ⟨v, 0⟩ → p[i]? = some a → a.x < v) ∧
    (∀ i a, lowerBound p ⟨v, 0⟩ ≤ i → p[i]? = some a → ¬ a.x < v) := by
  unfold lowerBound
  apply lowerBoundLoop_spec p v hs
  · exact le_refl _
  · omega
  · intro i a hi
    exact absurd hi (Nat.not_lt_zero i)
  · intro i a hi ha
    obtain ⟨hlt, -⟩ := List.getElem?_eq_some_iff.1 ha
    omega

/-- The read after `std::lower_bound` on a list sorted by `x` is within the list
exactly when some point has an `x` that is not less than the value. -/
theorem lowerBound_read (p : List QPointF) (v : ℚ) (hs : p.Pairwise (fun a b => a.x ≤ b.x)) :
    (lowerBound p ⟨v, 0⟩ < p.length ↔ ∃ q ∈ p, v ≤ q.x) ∧
    (p[lowerBound p ⟨v, 0⟩]? = none ↔ ∀ q ∈ p, q.x < v) ∧
    ((∀ q ∈ p, q.x < v) → lowerBound p ⟨v, 0⟩ = p.length) := by
  obtain ⟨h1, h2, h3⟩ := lowerBound_spec p v hs
  have hiff : lowerBound p ⟨v, 0⟩ < p.length ↔ ∃ q ∈ p, v ≤ q.x := by
    constructor
    · intro hlt
      have hget : p[lowerBound p ⟨v, 0⟩]? = some (p[lowerBound p ⟨v, 0⟩]) :=
        List.getElem?_eq_getElem hlt
      exact ⟨_, List.getElem_mem _, not_lt.1 (h3 _ _ (le_refl _) hget)⟩
    · rintro ⟨q, hq, hv⟩
      obtain ⟨i, hi, e⟩ := List.mem_iff_getElem.1 hq
      have hget : p[i]? = some q := by rw [List.getElem?_eq_getElem hi, e]
      by_contra hnot
      have hle : ¬ (i < lowerBound p ⟨v, 0⟩) := fun hlt => absurd (h2 i q hlt hget) (not_lt.2 hv)
      omega
  have hall : (∀ q ∈ p, q.x < v) ↔ ¬ (lowerBound p ⟨v, 0⟩ < p.length) := by
    rw [hiff]
    push_neg
    rfl
  refine ⟨hiff, ?_, ?_⟩
  · rw [List.getElem?_eq_none_iff, hall]
    omega
  · intro h
    have := hall.1 h
    omega

/-- The body of the X-RANGE hover loop in terms of the element read. -/
theorem SelectionTool.hoverXSeries_eq (t : SelectionTool) (spos : QPointF) (acc : XHoverAcc)
    (s : QAbstractSeries) :
    t.hoverXSeries spos acc s =
      if s.type = SeriesType.SeriesTypeLine then
        match t.lookedUp spos s with
        | none => none
        | some i =>
          some ⟨qmapInsert s.id i acc.vals,
            if i.x ≠ 0 ∧ (acc.nearestx = -9999 ∨
                binary64 (i.x - t.xvalue spos s) < binary64 (acc.nearestx - t.xvalue spos s))
            then i.x else acc.nearestx⟩
      else some acc := rfl

/-- The X-RANGE hover loop fails exactly when the read fails for a line series. -/
theorem SelectionTool.hoverXLoop_none_iff (t : SelectionTool) (spos : QPointF)
    (ss : List QAbstractSeries) (acc : XHoverAcc) :
    t.hoverXLoop spos acc ss = none ↔
      ∃ s ∈ ss, s.type = SeriesType.SeriesTypeLine ∧ t.lookedUp spos s = none := by
  induction ss generalizing acc with
  | nil => simp [SelectionTool.hoverXLoop]
  | cons s rest ih =>
    unfold SelectionTool.hoverXLoop
    rw [SelectionTool.hoverXSeries_eq]
    by_cases hty : s.type = SeriesType.SeriesTypeLine
    · rw [if_pos hty]
      cases hl : t.lookedUp spos s with
      | none =>
        simp only [true_iff]
        exact ⟨s, List.mem_cons_self s rest, hty, hl⟩
      | some i =>
        simp only []
        rw [ih]
        constructor
        · rintro ⟨s2, h2, h3, h4⟩
          exact ⟨s2, List.mem_cons_of_mem s h2, h3, h4⟩
        · rintro ⟨s2, h2, h3, h4⟩
          rcases List.mem_cons.1 h2 with h2 | h2
          · subst h2
            rw [hl] at h4
            exact absurd h4 (by simp)
          · exact ⟨s2, h2, h3, h4⟩
    · rw [if_neg hty]
      simp only []
      rw [ih]
      constructor
      · rintro ⟨s2, h2, h3, h4⟩
        exact ⟨s2, List.mem_cons_of_mem s h2, h3, h4⟩
      · rintro ⟨s2, h2, h3, h4⟩
        rcases List.mem_cons.1 h2 with h2 | h2
        · subst h2
          exact absurd h3 hty
        · exact ⟨s2, h2, h3, h4⟩

/-- The result of `moved` for a hovering tool in X-RANGE mode. -/
theorem SelectionTool.moved_hover_xrange (t : SelectionTool) (pos : QPointF)
    (hhover : t.hovering) (hmode : t.mode = Mode.XRANGE) :
    t.moved pos = t.hoverXRange pos := by
  obtain ⟨h1, h2, h3⟩ := hhover
  unfold SelectionTool.moved
  rw [if_neg h1, if_neg h2, if_neg h3, if_neg (by rw [hmode]; decide), if_pos hmode]

/-- C25: in X-RANGE hovering, for a line series whose points are sorted by `x`, the
element `moved()` reads after `std::lower_bound` is within the series exactly when the
series has a point whose `x` is greater than or equal to the x value of the cursor;
when the series is empty or the x value is greater than the `x` of every point the
position is `p.end()` and the read is out of range, and `moved()` has no defined
result exactly when that happens for a line series of the chart. -/
theorem C25_lower_bound_read (t : SelectionTool) (pos : QPointF)
    (hhover : t.hovering) (hmode : t.mode = Mode.XRANGE)
    (hsorted : ∀ s ∈ t.host.series, s.type = SeriesType.SeriesTypeLine →
      s.points.Pairwise (fun a b => a.x ≤ b.x)) :
    (∀ s ∈ t.host.series, s.type = SeriesType.SeriesTypeLine →
      (lowerBound s.points ⟨t.xvalue pos s, 0⟩ < s.points.length ↔
        ∃ q ∈ s.points, t.xvalue pos s ≤ q.x) ∧
      ((∃ i, t.lookedUp pos s = some i) ↔ ∃ q ∈ s.points, t.xvalue pos s ≤ q.x) ∧
      (t.lookedUp pos s = none ↔ ∀ q ∈ s.points, q.x < t.xvalue pos s) ∧
      ((∀ q ∈ s.points, q.x < t.xvalue pos s) →
        lowerBound s.points ⟨t.xvalue pos s, 0⟩ = s.points.length) ∧
      (s.points = [] → t.lookedUp pos s = none)) ∧
    (t.moved pos = none ↔
      ∃ s ∈ t.host.series, s.type = SeriesType.SeriesTypeLine ∧
        ∀ q ∈ s.points, q.x < t.xvalue pos s) := by
  constructor
  · intro s hs hty
    obtain ⟨r1, r2, r3⟩ := lowerBound_read s.points (t.xvalue pos s) (hsorted s hs hty)
    refine ⟨r1, ?_, r2, r3, ?_⟩
    · rw [← r1]
      unfold SelectionTool.lookedUp
      constructor
      · rintro ⟨i, hi⟩
        exact (List.getElem?_eq_some_iff.1 hi).1
      · intro hlt
        exact ⟨_, List.getElem?_eq_getElem hlt⟩
    · intro hnil
      unfold SelectionTool.lookedUp
      rw [hnil]
      rfl
  · rw [SelectionTool.moved_hover_xrange t pos hhover hmode]
    have hx : t.hoverXRange pos = none ↔ t.hoverXLoop pos ⟨[], -9999⟩ t.host.series = none := by
      unfold SelectionTool.hoverXRange
      cases t.hoverXLoop pos ⟨[], -9999⟩ t.host.series <;> simp
    rw [hx, SelectionTool.hoverXLoop_none_iff]
    constructor
    · rintro ⟨s, hs, hty, hl⟩
      exact ⟨s, hs, hty,
        (lowerBound_read s.points (t.xvalue pos s) (hsorted s hs hty)).2.1.1 hl⟩
    · rintro ⟨s, hs, hty, hl⟩
      exact ⟨s, hs, hty,
        (lowerBound_read s.points (t.xvalue pos s) (hsorted s hs hty)).2.1.2 hl⟩

theorem C25_witness :
    (lineTool.moved ⟨50, 0⟩ = none ↔
      ∃ s ∈ lineTool.host.series, s.type = SeriesType.SeriesTypeLine ∧
        ∀ q ∈ s.points, q.x < lineTool.xvalue ⟨50, 0⟩ s) :=
  (C25_lower_bound_read lineTool ⟨50, 0⟩
    (by simp [SelectionTool.hovering, lineTool, SelectionTool.new])
    rfl
    (by
      intro s hs _
      simp only [lineTool, SelectionTool.new, lineHost, List.mem_cons, List.mem_singleton,
        List.not_mem_nil, or_false] at hs
      rcases hs with rfl | rfl <;> simp <;> norm_num)).2

/-! ## Claim C29: `nearestx` and the signals of the X-RANGE hover search -/

/-- A smaller rounded difference comes from a smaller value: the comparison of line 784
replaces `nearestx` only by a smaller x. -/
theorem lt_of_binary64_sub_lt (a b v : ℚ) (h : binary64 (a - v) < binary64 (b - v)) : a < b := by
  by_contra hn
  push_neg at hn
  have := binary64_mono (b - v) (a - v) (by linarith)
  linarith

/-- One pass of the loop of lines 763-787 for a line series whose read gives `i`:
`nearestx` stays, or becomes the x read, which is then not zero and, unless
`nearestx` was the sentinel, smaller than it. -/
theorem SelectionTool.hoverXSeries_step (t : SelectionTool) (spos : QPointF)
    (acc : XHoverAcc) (s : QAbstractSeries) (i : QPointF)
    (hty : s.type = SeriesType.SeriesTypeLine) (hl : t.lookedUp spos s = some i) :
    ∃ acc1, t.hoverXSeries spos acc s = some acc1 ∧
      acc1.vals = qmapInsert s.id i acc.vals ∧
      ((acc1.nearestx = acc.nearestx ∧
          (i.x ≠ 0 → acc.nearestx ≠ -9999 ∧
            binary64 (acc.nearestx - t.xvalue spos s) ≤ binary64 (i.x - t.xvalue spos s))) ∨
        (acc1.nearestx = i.x ∧ i.x ≠ 0 ∧ (acc.nearestx = -9999 ∨ i.x < acc.nearestx))) := by
  rw [SelectionTool.hoverXSeries_eq, if_pos hty, hl]
  refine ⟨_, rfl, rfl, ?_⟩
  simp only []
  split_ifs with h
  · right
    refine ⟨rfl, h.1, ?_⟩
    rcases h.2 with h2 | h2
    · exact Or.inl h2
    · exact Or.inr (lt_of_binary64_sub_lt _ _ _ h2)
  · left
    refine ⟨rfl, ?_⟩
    intro hz
    push_neg at h
    have := h hz
    exact ⟨this.1, this.2⟩

/-- The loop of lines 763-787 leaves in `nearestx` one of the non-zero x values looked
up, or the sentinel when there is none. -/
theorem SelectionTool.hoverXLoop_nearest (t : SelectionTool) (spos : QPointF)
    (ss : List QAbstractSeries) (acc acc2 : XHoverAcc) (xs0 : List ℚ)
    (hloop : t.hoverXLoop spos acc ss = some acc2)
    (hsent : ∀ s ∈ ss, s.type = SeriesType.SeriesTypeLine →
      ∀ i, t.lookedUp spos s = some i → i.x ≠ -9999)
    (h0 : memberOrSentinel acc.nearestx xs0) :
    memberOrSentinel acc2.nearestx (xs0 ++ t.lookedUpXs spos ss) := by
  induction ss generalizing acc xs0 with
  | nil =>
    simp only [SelectionTool.hoverXLoop, Option.some.injEq] at hloop
    subst hloop
    simpa [SelectionTool.lookedUpXs] using h0
  | cons s rest ih =>
    unfold SelectionTool.hoverXLoop at hloop
    have hsent2 : ∀ s2 ∈ rest, s2.type = SeriesType.SeriesTypeLine →
        ∀ i, t.lookedUp spos s2 = some i → i.x ≠ -9999 :=
      fun s2 h2 => hsent s2 (List.mem_cons_of_mem s h2)
    by_cases hty : s.type = SeriesType.SeriesTypeLine
    · cases hl : t.lookedUp spos s with
      | none =>
        rw [SelectionTool.hoverXSeries_eq, if_pos hty, hl] at hloop
        exact absurd hloop (by simp)
      | some i =>
        obtain ⟨acc1, e1, -, hstep⟩ := SelectionTool.hoverXSeries_step t spos acc s i hty hl
        rw [e1] at hloop
        simp only [] at hloop
        have hi := hsent s (List.mem_cons_self s rest) hty i hl
        by_cases hz : i.x = 0
        · have hx : t.lookedUpXs spos (s :: rest) = t.lookedUpXs spos rest := by
            simp [SelectionTool.lookedUpXs, SelectionTool.lookedUpX, hty, hl, hz]
          rw [hx]
          apply ih _ _ hloop hsent2
          rcases hstep with ⟨hs1, -⟩ | ⟨-, hs2, -⟩
          · rw [hs1]; exact h0
          · exact absurd hz hs2
        · have hx : t.lookedUpXs spos (s :: rest) = i.x :: t.lookedUpXs spos rest := by
            simp [SelectionTool.lookedUpXs, SelectionTool.lookedUpX, hty, hl, hz]
          rw [hx]
          have happ : xs0 ++ i.x :: t.lookedUpXs spos rest =
              (xs0 ++ [i.x]) ++ t.lookedUpXs spos rest := by simp
          rw [happ]
          apply ih _ _ hloop hsent2
          rcases hstep with ⟨hs1, hs2⟩ | ⟨hs1, -, -⟩
          · rw [hs1]
            obtain ⟨hn, -⟩ := hs2 hz
            rcases h0 with ⟨-, hn0⟩ | ⟨-, hmem⟩
            · exact absurd hn0 hn
            · exact Or.inr ⟨hn, by simp [hmem]⟩
          · rw [hs1]
            exact Or.inr ⟨hi, by simp⟩
    · rw [SelectionTool.hoverXSeries_eq, if_neg hty] at hloop
      have hx : t.lookedUpXs spos (s :: rest) = t.lookedUpXs spos rest := by
        simp [SelectionTool.lookedUpXs, SelectionTool.lookedUpX, hty]
      rw [hx]
      exact ih _ _ hloop hsent2 h0

/-- Once set, `nearestx` only goes down in the loop of lines 763-787, and at the end no
non-zero x looked up has a smaller rounded difference to the x value of the cursor of
its series than `nearestx` has. -/
theorem SelectionTool.hoverXLoop_rounded_min (t : SelectionTool) (spos : QPointF)
    (ss : List QAbstractSeries) (acc acc2 : XHoverAcc)
    (hloop : t.hoverXLoop spos acc ss = some acc2)
    (hsent : ∀ s ∈ ss, s.type = SeriesType.SeriesTypeLine →
      ∀ i, t.lookedUp spos s = some i → i.x ≠ -9999) :
    (acc.nearestx ≠ -9999 → acc2.nearestx ≠ -9999 ∧ acc2.nearestx ≤ acc.nearestx) ∧
    (∀ s ∈ ss, s.type = SeriesType.SeriesTypeLine → ∀ i, t.lookedUp spos s = some i →
      i.x ≠ 0 →
      binary64 (acc2.nearestx - t.xvalue spos s) ≤ binary64 (i.x - t.xvalue spos s)) := by
  induction ss generalizing acc with
  | nil =>
    simp only [SelectionTool.hoverXLoop, Option.some.injEq] at hloop
    subst hloop
    exact ⟨fun h => ⟨h, le_rfl⟩, fun s hs => absurd hs (List.not_mem_nil s)⟩
  | cons s rest ih =>
    unfold SelectionTool.hoverXLoop at hloop
    have hsent2 : ∀ s2 ∈ rest, s2.type = SeriesType.SeriesTypeLine →
        ∀ i, t.lookedUp spos s2 = some i → i.x ≠ -9999 :=
      fun s2 h2 => hsent s2 (List.mem_cons_of_mem s h2)
    by_cases hty : s.type = SeriesType.SeriesTypeLine
    · cases hl : t.lookedUp spos s with
      | none =>
        rw [SelectionTool.hoverXSeries_eq, if_pos hty, hl] at hloop
        exact absurd hloop (by simp)
      | some i =>
        obtain ⟨acc1, e1, -, hstep⟩ := SelectionTool.hoverXSeries_step t spos acc s i hty hl
        rw [e1] at hloop
        simp only [] at hloop
        have hi := hsent s (List.mem_cons_self s rest) hty i hl
        obtain ⟨ih1, ih2⟩ := ih acc1 hloop hsent2
        constructor
        · intro hn
          rcases hstep with ⟨hs1, -⟩ | ⟨hs1, -, hs3⟩
          · rw [← hs1]
            exact ih1 (by rw [hs1]; exact hn)
          · obtain ⟨g1, g2⟩ := ih1 (by rw [hs1]; exact hi)
            rcases hs3 with hs3 | hs3
            · exact absurd hs3 hn
            · exact ⟨g1, by rw [hs1] at g2; linarith⟩
        · intro s2 hs2 hty2 i2 hl2 hz2
          rcases List.mem_cons.1 hs2 with hs2 | hs2
          · subst hs2
            rw [hl] at hl2
            cases hl2
            have key : acc1.nearestx ≠ -9999 ∧
                binary64 (acc1.nearestx - t.xvalue spos s2) ≤
                  binary64 (i.x - t.xvalue spos s2) := by
              rcases hstep with ⟨hs1, hs4⟩ | ⟨hs1, -, -⟩
              · rw [hs1]
                exact hs4 hz2
              · rw [hs1]
                exact ⟨hi, le_rfl⟩
            obtain ⟨-, g2⟩ := ih1 key.1
            exact le_trans (binary64_mono _ _ (by linarith)) key.2
          · exact ih2 s2 hs2 hty2 i2 hl2 hz2
    · rw [SelectionTool.hoverXSeries_eq, if_neg hty] at hloop
      simp only [] at hloop
      obtain ⟨ih1, ih2⟩ := ih acc hloop hsent2
      refine ⟨ih1, ?_⟩
      intro s2 hs2 hty2 i2 hl2 hz2
      rcases List.mem_cons.1 hs2 with hs2 | hs2
      · subst hs2
        exact absurd hty2 hty
      · exact ih2 s2 hs2 hty2 i2 hl2 hz2

/-- Inserting under a key that the map does not hold adds one entry. -/
theorem qmapInsert_mem (k : Nat) (v : QPointF) (l : List (Nat × QPointF))
    (hk : ∀ e ∈ l, e.1 ≠ k) (e : Nat × QPointF) :
    e ∈ qmapInsert k v l ↔ e = (k, v) ∨ e ∈ l := by
  induction l with
  | nil => simp [qmapInsert]
  | cons e1 rest ih =>
    obtain ⟨k1, v1⟩ := e1
    have hk1 : k1 ≠ k := hk (k1, v1) (List.mem_cons_self _ _)
    unfold qmapInsert
    split_ifs with h1 h2
    · simp
    · exact absurd h2.symm hk1
    · rw [List.mem_cons, ih (fun e he => hk e (List.mem_cons_of_mem _ he)), List.mem_cons]
      tauto

/-- On a list of distinct series the loop of lines 763-787 leaves in `vals` one entry
for each line series: the element read for it. -/
theorem SelectionTool.hoverXLoop_vals (t : SelectionTool) (spos : QPointF)
    (ss : List QAbstractSeries) (acc acc2 : XHoverAcc)
    (hloop : t.hoverXLoop spos acc ss = some acc2)
    (hdistinct : (ss.map (fun s => s.id)).Nodup)
    (hkeys : ∀ e ∈ acc.vals, ∀ s ∈ ss, e.1 ≠ s.id) (e : Nat × QPointF) :
    e ∈ acc2.vals ↔ e ∈ acc.vals ∨
      ∃ s ∈ ss, s.type = SeriesType.SeriesTypeLine ∧ s.id = e.1 ∧
        t.lookedUp spos s = some e.2 := by
  induction ss generalizing acc with
  | nil =>
    simp only [SelectionTool.hoverXLoop, Option.some.injEq] at hloop
    subst hloop
    simp
  | cons s rest ih =>
    unfold SelectionTool.hoverXLoop at hloop
    rw [SelectionTool.hoverXSeries_eq] at hloop
    rw [List.map_cons, List.nodup_cons] at hdistinct
    obtain ⟨hnotin, hnd⟩ := hdistinct
    have hkeys2 : ∀ e ∈ acc.vals, ∀ s2 ∈ rest, e.1 ≠ s2.id :=
      fun e he s2 h2 => hkeys e he s2 (List.mem_cons_of_mem s h2)
    by_cases hty : s.type = SeriesType.SeriesTypeLine
    · rw [if_pos hty] at hloop
      cases hl : t.lookedUp spos s with
      | none =>
        rw [hl] at hloop
        exact absurd hloop (by simp)
      | some i =>
        rw [hl] at hloop
        simp only [] at hloop
        have hins := qmapInsert_mem s.id i acc.vals
          (fun e he => hkeys e he s (List.mem_cons_self s rest))
        rw [ih _ hloop hnd]
        · simp only []
          rw [hins e]
          constructor
          · rintro ((h | h) | ⟨s2, h2, h3, h4, h5⟩)
            · right
              refine ⟨s, List.mem_cons_self s rest, hty, ?_, ?_⟩
              · rw [h]
              · rw [h]; exact hl
            · exact Or.inl h
            · exact Or.inr ⟨s2, List.mem_cons_of_mem s h2, h3, h4, h5⟩
          · rintro (h | ⟨s2, h2, h3, h4, h5⟩)
            · exact Or.inl (Or.inr h)
            · rcases List.mem_cons.1 h2 with h2 | h2
              · subst h2
                rw [hl] at h5
                left
                left
                cases h5
                exact Prod.ext h4.symm rfl
              · exact Or.inr ⟨s2, h2, h3, h4, h5⟩
        · intro e2 he2 s2 hs2
          simp only [] at he2
          rcases (hins e2).1 he2 with h | h
          · rw [h]
            intro heq
            exact hnotin (List.mem_map.2 ⟨s2, hs2, heq.symm⟩)
          · exact hkeys2 e2 h s2 hs2
    · rw [if_neg hty] at hloop
      simp only [] at hloop
      rw [ih _ hloop hnd hkeys2]
      constructor
      · rintro (h | ⟨s2, h2, h3, h4, h5⟩)
        · exact Or.inl h
        · exact Or.inr ⟨s2, List.mem_cons_of_mem s h2, h3, h4, h5⟩
      · rintro (h | ⟨s2, h2, h3, h4, h5⟩)
        · exact Or.inl h
        · rcases List.mem_cons.1 h2 with h2 | h2
          · subst h2
            exact absurd h3 hty
          · exact Or.inr ⟨s2, h2, h3, h4, h5⟩

/-- The loop of lines 790-801 emits one signal for each entry of `vals`, in order. -/
theorem SelectionTool.hoverXPublish_signals (t : SelectionTool) (nearestx : ℚ)
    (vals : List (Nat × QPointF)) :
    (t.hoverXPublish nearestx vals).2 = vals.map (t.xSignal nearestx) := by
  induction vals with
  | nil => rfl
  | cons e rest ih =>
    obtain ⟨k, v⟩ := e
    unfold SelectionTool.hoverXPublish
    simp only [List.map_cons, SelectionTool.xSignal]
    split_ifs <;> rw [← ih]

/-- The values of `lookedUpXs` are the non-zero x values read for the line series. -/
theorem SelectionTool.mem_lookedUpXs (t : SelectionTool) (spos : QPointF)
    (ss : List QAbstractSeries) (x : ℚ) :
    x ∈ t.lookedUpXs spos ss ↔
      ∃ s ∈ ss, s.type = SeriesType.SeriesTypeLine ∧
        ∃ i, t.lookedUp spos s = some i ∧ i.x ≠ 0 ∧ i.x = x := by
  unfold SelectionTool.lookedUpXs
  rw [List.mem_filterMap]
  constructor
  · rintro ⟨s, hs, hx⟩
    unfold SelectionTool.lookedUpX at hx
    split_ifs at hx with hty
    cases hl : t.lookedUp spos s with
    | none => rw [hl] at hx; exact absurd hx (by simp)
    | some i =>
      rw [hl] at hx
      simp only [] at hx
      split_ifs at hx with hz
      exact ⟨s, hs, hty, i, hl, hz, Option.some.inj hx⟩
  · rintro ⟨s, hs, hty, i, hl, hz, hx⟩
    refine ⟨s, hs, ?_⟩
    unfold SelectionTool.lookedUpX
    rw [if_pos hty, hl]
    simp only []
    rw [if_pos hz, hx]

/-- C29 (as amended): in X-RANGE hovering on a chart of distinct series, when the search
returns and no x looked up is the sentinel -9999, `nearestx` is one of the non-zero x
values looked up across the line series, or -9999 when there is none, and no non-zero
x looked up has a smaller `double` difference to the x value of the cursor than
`nearestx` has: the comparison of line 784 is a signed one on the two rounded
differences, which replaces `nearestx` only by a smaller x; when the differences are
computed without rounding, `nearestx` is the smallest of the non-zero x values looked
up.  `vals` holds the element read for each line series, and `moved()` emits, for each
entry of `vals`, `hover` when its x equals `nearestx` and `unhover` when it does not. -/
theorem C29_nearestx (t : SelectionTool) (pos : QPointF) (acc : XHoverAcc)
    (hhover : t.hovering) (hmode : t.mode = Mode.XRANGE) (hdistinct : t.host.ids.Nodup)
    (hsent : ∀ s ∈ t.host.series, s.type = SeriesType.SeriesTypeLine →
      ∀ i, t.lookedUp pos s = some i → i.x ≠ -9999)
    (hloop : t.hoverXLoop pos ⟨[], -9999⟩ t.host.series = some acc) :
    memberOrSentinel acc.nearestx (t.lookedUpXs pos t.host.series) ∧
    (∀ s ∈ t.host.series, s.type = SeriesType.SeriesTypeLine →
      ∀ i, t.lookedUp pos s = some i → i.x ≠ 0 →
      binary64 (acc.nearestx - t.xvalue pos s) ≤ binary64 (i.x - t.xvalue pos s)) ∧
    ((∀ s ∈ t.host.series, s.type = SeriesType.SeriesTypeLine →
        ∀ i, t.lookedUp pos s = some i → i.x ≠ 0 →
        binary64 (acc.nearestx - t.xvalue pos s) = acc.nearestx - t.xvalue pos s ∧
        binary64 (i.x - t.xvalue pos s) = i.x - t.xvalue pos s) →
      smallestOrSentinel acc.nearestx (t.lookedUpXs pos t.host.series)) ∧
    (∀ e, e ∈ acc.vals ↔
      ∃ s ∈ t.host.series, s.type = SeriesType.SeriesTypeLine ∧ s.id = e.1 ∧
        t.lookedUp pos s = some e.2) ∧
    (∃ r, t.moved pos = some (r, decide (acc.vals.length ≠ 0)) ∧
      r.emitted = t.emitted ++ acc.vals.map (t.xSignal acc.nearestx)) ∧
    (∀ (acc0 : XHoverAcc) (s : QAbstractSeries) (i : QPointF),
      s.type = SeriesType.SeriesTypeLine → t.lookedUp pos s = some i →
      ∃ acc1, t.hoverXSeries pos acc0 s = some acc1 ∧
        (acc1.nearestx = acc0.nearestx ∨
          (acc1.nearestx = i.x ∧ i.x ≠ 0 ∧
            (acc0.nearestx = -9999 ∨ i.x < acc0.nearestx)))) := by
  have hmem : memberOrSentinel acc.nearestx (t.lookedUpXs pos t.host.series) := by
    have := SelectionTool.hoverXLoop_nearest t pos t.host.series ⟨[], -9999⟩ acc [] hloop hsent
      (Or.inl ⟨rfl, rfl⟩)
    simpa using this
  have hmin := (SelectionTool.hoverXLoop_rounded_min t pos t.host.series ⟨[], -9999⟩ acc
    hloop hsent).2
  refine ⟨hmem, hmin, ?_, ?_, ?_, ?_⟩
  · intro hexact
    rcases hmem with ⟨h1, h2⟩ | ⟨h1, h2⟩
    · exact Or.inl ⟨h1, h2⟩
    · refine Or.inr ⟨h1, h2, ?_⟩
      intro x hx
      obtain ⟨s, hs, hty, i, hl, hz, hxi⟩ := (SelectionTool.mem_lookedUpXs t pos _ x).1 hx
      have h3 := hmin s hs hty i hl hz
      obtain ⟨e1, e2⟩ := hexact s hs hty i hl hz
      rw [e1, e2] at h3
      rw [← hxi]
      linarith
  · intro e
    have := SelectionTool.hoverXLoop_vals t pos t.host.series ⟨[], -9999⟩ acc hloop hdistinct
      (fun e he => absurd he (List.not_mem_nil e)) e
    rw [this]
    simp
  · rw [SelectionTool.moved_hover_xrange t pos hhover hmode]
    unfold SelectionTool.hoverXRange
    rw [hloop]
    exact ⟨_, rfl, by simp only [SelectionTool.hoverXPublish_signals]⟩
  · intro acc0 s i hty hl
    obtain ⟨acc1, e1, -, hstep⟩ := SelectionTool.hoverXSeries_step t pos acc0 s i hty hl
    refine ⟨acc1, e1, ?_⟩
    rcases hstep with ⟨h, -⟩ | h
    · exact Or.inl h
    · exact Or.inr h

/-- The positions `std::lower_bound` returns on the two series of `lineHost` for the
x value 2. -/
theorem lineHost_lookups :
    lowerBound [⟨1, 5⟩, ⟨2, 7⟩, ⟨2, 7⟩, ⟨30, 1⟩] ⟨2, 0⟩ = 1 ∧
    lowerBound [⟨4, 1⟩, ⟨6, 2⟩] ⟨2, 0⟩ = 0 := by
  constructor <;> decide

/-- The X-RANGE hover loop on `lineHost` for the cursor at `x = 2`. -/
theorem lineTool_loop :
    lineTool.hoverXLoop ⟨2, 0⟩ ⟨[], -9999⟩ lineTool.host.series
      = some ⟨[(1, ⟨2, 7⟩), (2, ⟨4, 1⟩)], 2⟩ := by decide!

/-- No point of `lineHost` has the x value -9999. -/
theorem lineTool_no_sentinel (pos : QPointF) :
    ∀ s ∈ lineTool.host.series, s.type = SeriesType.SeriesTypeLine →
      ∀ i, lineTool.lookedUp pos s = some i → i.x ≠ -9999 := by
  intro s hs _ i hi
  unfold SelectionTool.lookedUp at hi
  obtain ⟨hlt, e⟩ := List.getElem?_eq_some_iff.1 hi
  have hmem : i ∈ s.points := e ▸ List.getElem_mem hlt
  simp only [lineTool, SelectionTool.new, lineHost, List.mem_cons, List.mem_singleton,
    List.not_mem_nil, or_false] at hs
  rcases hs with rfl | rfl
  · simp only [List.mem_cons, List.mem_singleton, List.not_mem_nil, or_false] at hmem
    rcases hmem with rfl | rfl | rfl | rfl <;> norm_num
  · simp only [List.mem_cons, List.mem_singleton, List.not_mem_nil, or_false] at hmem
    rcases hmem with rfl | rfl <;> norm_num

/-- On `lineHost` with the cursor at `x = 2` the differences of line 784 are computed
without rounding. -/
theorem lineTool_exact :
    ∀ s ∈ lineTool.host.series, s.type = SeriesType.SeriesTypeLine →
      ∀ i, lineTool.lookedUp ⟨2, 0⟩ s = some i → i.x ≠ 0 →
      binary64 ((2 : ℚ) - lineTool.xvalue ⟨2, 0⟩ s) = (2 : ℚ) - lineTool.xvalue ⟨2, 0⟩ s ∧
      binary64 (i.x - lineTool.xvalue ⟨2, 0⟩ s) = i.x - lineTool.xvalue ⟨2, 0⟩ s := by
  intro s hs _ i hi _
  simp only [lineTool, SelectionTool.new, lineHost, List.mem_cons, List.mem_singleton,
    List.not_mem_nil, or_false] at hs
  rcases hs with rfl | rfl
  · have h1 : lineTool.lookedUp ⟨2, 0⟩
        { id := 1, name := "a", type := SeriesType.SeriesTypeLine,
          points := [⟨1, 5⟩, ⟨2, 7⟩, ⟨2, 7⟩, ⟨30, 1⟩], color := 5, useOpenGL := false,
          attachedAxes := [] } = some ⟨2, 7⟩ := by decide!
    rw [h1] at hi
    cases hi
    constructor <;> decide!
  · have h1 : lineTool.lookedUp ⟨2, 0⟩
        { id := 2, name := "b", type := SeriesType.SeriesTypeLine,
          points := [⟨4, 1⟩, ⟨6, 2⟩], color := 6, useOpenGL := false,
          attachedAxes := [] } = some ⟨4, 1⟩ := by decide!
    rw [h1] at hi
    cases hi
    constructor <;> decide!

theorem C29_witness :
    memberOrSentinel (2 : ℚ) (lineTool.lookedUpXs ⟨2, 0⟩ lineTool.host.series) ∧
    smallestOrSentinel (2 : ℚ) (lineTool.lookedUpXs ⟨2, 0⟩ lineTool.host.series) ∧
    ∃ r, lineTool.moved ⟨2, 0⟩ = some (r, true) ∧
      r.emitted = lineTool.emitted ++
        [lineTool.xSignal 2 (1, ⟨2, 7⟩), lineTool.xSignal 2 (2, ⟨4, 1⟩)] := by
  obtain ⟨h1, -, h3, -, h5, -⟩ := C29_nearestx lineTool ⟨2, 0⟩ ⟨[(1, ⟨2, 7⟩), (2, ⟨4, 1⟩)], 2⟩
    (by simp [SelectionTool.hovering, lineTool, SelectionTool.new]) rfl (by decide)
    (lineTool_no_sentinel ⟨2, 0⟩) lineTool_loop
  exact ⟨h1, h3 lineTool_exact, h5⟩

/-- C29 as stated fails: on the chart with the line series `"a"`, whose point is at
`x = 1 + 2^-52`, and `"b"`, whose point is at `x = 1`, with the cursor at the x value
-1024, the x values looked up are `1 + 2^-52` and `1`, neither zero nor the sentinel;
both differences to the cursor round to the `double` 1025, so the comparison of line
784 does not replace the first x by the second: `nearestx` is `1 + 2^-52`, not the
smallest x looked up, and `hover` goes to `"a"` and `unhover` to `"b"`. -/
theorem C29_counterexample :
    ∃ acc r, absorbTool.hoverXLoop ⟨-1024, 0⟩ ⟨[], -9999⟩ absorbTool.host.series = some acc ∧
      absorbTool.moved ⟨-1024, 0⟩ = some (r, true) ∧
      absorbTool.lookedUpXs ⟨-1024, 0⟩ absorbTool.host.series =
        [1 + 1 / 4503599627370496, 1] ∧
      acc.nearestx = 1 + 1 / 4503599627370496 ∧
      ¬ smallestOrSentinel acc.nearestx
        (absorbTool.lookedUpXs ⟨-1024, 0⟩ absorbTool.host.series) ∧
      binary64 (1 - (-1024)) = 1025 ∧ binary64 (1 + 1 / 4503599627370496 - (-1024)) = 1025 ∧
      r.emitted = [Signal.hover ⟨1 + 1 / 4503599627370496, 1⟩ "a" 1, Signal.unhover "b"] := by
  have hloop : absorbTool.hoverXLoop ⟨-1024, 0⟩ ⟨[], -9999⟩ absorbTool.host.series =
      some ⟨[(1, ⟨1 + 1 / 4503599627370496, 1⟩), (2, ⟨1, 1⟩)], 1 + 1 / 4503599627370496⟩ := by
    decide!
  have hxs : absorbTool.lookedUpXs ⟨-1024, 0⟩ absorbTool.host.series =
      [1 + 1 / 4503599627370496, 1] := by decide!
  have hmoved : absorbTool.moved ⟨-1024, 0⟩ = absorbTool.hoverXRange ⟨-1024, 0⟩ :=
    SelectionTool.moved_hover_xrange absorbTool ⟨-1024, 0⟩
      (by simp [SelectionTool.hovering, absorbTool, SelectionTool.new]) rfl
  have hres : absorbTool.hoverXRange ⟨-1024, 0⟩ =
      some ({ absorbTool with
          spos := ⟨-1024, 0⟩,
          hoverpoints := (absorbTool.hoverXPublish (1 + 1 / 4503599627370496)
            [(1, ⟨1 + 1 / 4503599627370496, 1⟩), (2, ⟨1, 1⟩)]).1,
          emitted := absorbTool.emitted ++ (absorbTool.hoverXPublish (1 + 1 / 4503599627370496)
            [(1, ⟨1 + 1 / 4503599627370496, 1⟩), (2, ⟨1, 1⟩)]).2 }, true) := by
    unfold SelectionTool.hoverXRange
    rw [hloop]
    rfl
  refine ⟨⟨[(1, ⟨1 + 1 / 4503599627370496, 1⟩), (2, ⟨1, 1⟩)], 1 + 1 / 4503599627370496⟩,
    _, hloop, hmoved.trans hres, hxs, rfl, ?_, by decide!, by decide!, ?_⟩
  · rw [hxs]
    rintro (⟨h, -⟩ | ⟨-, -, h⟩)
    · exact absurd h (by simp)
    · have := h 1 (by simp)
      norm_num at this
  · show absorbTool.emitted ++ (absorbTool.hoverXPublish (1 + 1 / 4503599627370496)
        [(1, ⟨1 + 1 / 4503599627370496, 1⟩), (2, ⟨1, 1⟩)]).2 = _
    decide!

theorem C30_witness :
    lineTool.updateScene.stats.lookup 1 =
      some ((Calculator.fresh 5 none none 1).addPoints
        (([⟨1, 5⟩, ⟨2, 7⟩, ⟨2, 7⟩, ⟨30, 1⟩] : List QPointF).filter
          (lineTool.inLineBounds 1))).finalise ∧
    (∃ sel, lineTool.updateScene.selections.lookup 1 = some sel ∧
      (∃ s ∈ lineTool.updateScene.host.series, s.id = sel.id) ∧
      (∀ s ∈ lineTool.updateScene.host.series, s.id = sel.id →
        s.points = collectPoints (([⟨1, 5⟩, ⟨2, 7⟩, ⟨2, 7⟩, ⟨30, 1⟩] : List QPointF).filter
          (lineTool.inLineBounds 1)))) ∧
    collectPoints (([⟨1, 5⟩, ⟨2, 7⟩, ⟨2, 7⟩, ⟨30, 1⟩] : List QPointF).filter
      (lineTool.inLineBounds 1)) = [⟨1, 5⟩, ⟨2, 7⟩] :=
  ⟨(C30_line_selection lineTool
      { id := 1, name := "a", type := SeriesType.SeriesTypeLine,
        points := [⟨1, 5⟩, ⟨2, 7⟩, ⟨2, 7⟩, ⟨30, 1⟩], color := 5, useOpenGL := false,
        attachedAxes := [] }
      (by decide) (by decide) (by simp [lineTool, SelectionTool.new, lineHost])
      (by simp [lineTool, SelectionTool.new]) rfl (by simp)
      (by constructor <;> simp [lineTool, SelectionTool.new, List.lookup])).2.2.2.1,
    (C30_line_selection lineTool
      { id := 1, name := "a", type := SeriesType.SeriesTypeLine,
        points := [⟨1, 5⟩, ⟨2, 7⟩, ⟨2, 7⟩, ⟨30, 1⟩], color := 5, useOpenGL := false,
        attachedAxes := [] }
      (by decide) (by decide) (by simp [lineTool, SelectionTool.new, lineHost])
      (by simp [lineTool, SelectionTool.new]) rfl (by simp)
      (by constructor <;> simp [lineTool, SelectionTool.new, List.lookup])).2.2.2.2.1,
    by decide!⟩

/-- C30 as stated fails: the line series of the example holds the in-bounds points
`(1,1)`, `(1 + 2^-43, 1)` and `(2,2)`, no two of them identical, so dropping later
identical points keeps all three; `updateScene()` gives the overlay series (made at
address 2) the points `(1,1)` and `(2,2)` only, because `points.contains` finds the
second point equal to the first within the tolerance of Qt's comparison. -/
theorem C30_counterexample :
    ([⟨1, 1⟩, ⟨1 + 1 / 8796093022208, 1⟩, ⟨2, 2⟩] : List QPointF).filter
        (nearTool.inLineBounds 1) = [⟨1, 1⟩, ⟨1 + 1 / 8796093022208, 1⟩, ⟨2, 2⟩] ∧
    dedupPoints [⟨1, 1⟩, ⟨1 + 1 / 8796093022208, 1⟩, ⟨2, 2⟩] =
      [⟨1, 1⟩, ⟨1 + 1 / 8796093022208, 1⟩, ⟨2, 2⟩] ∧
    nearTool.updateScene.selections.map (fun e => (e.1, e.2.id)) = [(1, 2)] ∧
    nearTool.updateScene.host.series.map (fun s => (s.id, s.points)) =
      [(1, [⟨1, 1⟩, ⟨1 + 1 / 8796093022208, 1⟩, ⟨2, 2⟩]), (2, [⟨1, 1⟩, ⟨2, 2⟩])] := by
  refine ⟨?_, ?_, ?_, ?_⟩ <;> decide!

end GenericPlot
